import Mathlib

/-!
Verification of the figma-to-code generation pipeline.

The JavaScript source is shallowly embedded as Lean definitions:

* JS numbers are modelled as `Rat` (all values appearing in the design
  documents of interest are integral or terminating decimals);
* JS strings are Lean `String`s; the regular-expression based string
  rewrites of `nameUtils` are implemented character-list by character-list
  with the exact global-match/backtracking semantics of the source regexes;
* a JS `Map` is an insertion-ordered association list (`JSMap`): `set` on an
  existing key updates the value in place, otherwise appends;
* optional JS object fields become `Option` fields; fields that the source
  only ever consults through truthiness tests (`name`, `type`,
  `characters`, string enums, `children`, `fills`, `strokes`) are modelled
  as `String`/`List` with `""`/`[]` standing for `undefined`, which the
  source never distinguishes from the empty value;
* the one mutation the pipeline performs on caller-visible data —
  `preprocessNode` updating its argument in place and returning it — is
  modelled by the value the call returns; under the source's aliasing the
  input object after the call *is* that returned value.
-/

/-! ### JS number helpers -/

/-- `Math.round`: round half towards positive infinity. -/
def jsRound (q : Rat) : Int := Rat.floor (q + 1/2)

/-- Decimal digits of the fractional part `q ∈ [0,1)`, with fuel.
JS prints the shortest round-tripping decimal of a binary float; for the
terminating decimals that occur in the embedded programs this agrees. -/
def fracDigits : Nat → Rat → List Char
  | 0, _ => []
  | fuel+1, q =>
    if q = 0 then []
    else
      let q10 := q * 10
      let d : Int := Rat.floor q10
      Char.ofNat (48 + d.toNat) :: fracDigits fuel (q10 - (d : Rat))

/-- JS template-literal rendering `${n}` of a number. -/
def jsNumRepr (q : Rat) : String :=
  if q.den = 1 then toString q.num
  else
    let sign := if q < 0 then "-" else ""
    let aq := |q|
    let ip : Int := Rat.floor aq
    sign ++ toString ip ++ "." ++ String.mk (fracDigits 20 (aq - (ip : Rat)))

/-- Truthiness of an optional JS number (`undefined` and `0` are falsy). -/
def optQTruthy (o : Option Rat) : Bool :=
  match o with
  | some q => q != 0
  | none => false

/-- `a || b` for optional JS numbers, with a final numeric default. -/
def jsOrQ (a : Option Rat) (b : Option Rat) (dflt : Rat) : Rat :=
  if optQTruthy a then a.getD dflt else if optQTruthy b then b.getD dflt else dflt

/-- `s || dflt` for a JS string (empty string is falsy). -/
def jsOrStr (s : String) (dflt : String) : String :=
  if s = "" then dflt else s

/-! ### JS string helpers -/

/-- `s.includes(pat)`. -/
def jsIncludes (s pat : String) : Bool :=
  decide (pat.toList <:+: s.toList)

/-- JS whitespace class `\s`, restricted to the ASCII range (the only
characters fed to it by the embedded programs). -/
def isJsWs (c : Char) : Bool :=
  c = ' ' || c = '\t' || c = '\n' || c = '\r' || c = '\x0b' || c = '\x0c'

/-- `[\s-]`, the separator class of the casing utilities. -/
def isSep (c : Char) : Bool := isJsWs c || c = '-'

/-- `String.prototype.trim`: drop leading and trailing whitespace. -/
def jsTrimL (l : List Char) : List Char :=
  ((l.dropWhile isJsWs).reverse.dropWhile isJsWs).reverse

/-- `String.prototype.trim` at the string level. -/
def jsStrTrim (s : String) : String := String.mk (jsTrimL s.data)

/-- `s.toLowerCase()` (ASCII range). -/
def strLower (s : String) : String := String.mk (s.data.map Char.toLower)

/-- `s.substring(0, n)`. -/
def strTake (s : String) (n : Nat) : String := String.mk (s.data.take n)

/-- `s.split(c)` for a single-character separator. -/
def splitCharL (c : Char) : List Char → List (List Char)
  | [] => [[]]
  | x :: rest =>
    match splitCharL c rest with
    | [] => [[]]
    | t :: ts => if x = c then [] :: t :: ts else (x :: t) :: ts

/-- `s.split(c)` at the string level. -/
def splitChar (c : Char) (s : String) : List String :=
  (splitCharL c s.data).map String.mk

/-- One global single-character replace `s.replace(/c/g, repl)`. -/
def replaceCharL (c : Char) (repl : List Char) (l : List Char) : List Char :=
  l.flatMap (fun x => if x = c then repl else [x])

/-! ### nameUtils.js -/

/-- First rewrite of `toPascalCase`/`toCamelCase`:
`replace(/[^a-zA-Z0-9\s-]+/g, '')` — keep alphanumerics, whitespace, `-`. -/
def keepAlnumWsHyphen (l : List Char) : List Char :=
  l.filter (fun c => c.isAlphanum || isJsWs c || c = '-')

/-- `replace(/[\s-]+(.)/g, (_, chr) => chr.toUpperCase())` with the global
backtracking semantics of the regex: a separator run followed by a
character is replaced by that character uppercased; a separator run of
length ≥ 2 at the end of the string backtracks so that its last character
is the capture; a single trailing separator does not match at all. -/
def sepCollapse : List Char → List Char
  | [] => []
  | c :: rest =>
    if isSep c then
      match h : rest.dropWhile isSep with
      | a :: rest' => a.toUpper :: sepCollapse rest'
      | [] =>
        if rest.isEmpty then [c]
        else [((c :: rest).getLast (by simp)).toUpper]
    else c :: sepCollapse rest
termination_by l => l.length
decreasing_by
  · have h1 : (rest.dropWhile isSep).length ≤ rest.length :=
      (List.dropWhile_sublist isSep).length_le
    rw [h] at h1
    simp only [List.length_cons] at h1 ⊢
    omega
  · simp [List.length_cons]

/-- `replace(/^[a-z]/, chr => chr.toUpperCase())`. -/
def upperFirstLower : List Char → List Char
  | [] => []
  | c :: rest => if c.isLower then c.toUpper :: rest else c :: rest

/-- `replace(/^[A-Z]/, chr => chr.toLowerCase())`. -/
def lowerFirstUpper : List Char → List Char
  | [] => []
  | c :: rest => if c.isUpper then c.toLower :: rest else c :: rest

/-- `replace(/^[0-9]/, m => 'N' + m)`. -/
def prefixDigitWith (p : Char) : List Char → List Char
  | [] => []
  | c :: rest => if c.isDigit then p :: c :: rest else c :: rest

/-- `toPascalCase` from nameUtils.js. -/
def toPascalCase (str : String) : String :=
  if str = "" then "Component"
  else
    let cleaned := jsTrimL (keepAlnumWsHyphen str.toList)
    if cleaned.isEmpty then "Component"
    else String.mk (prefixDigitWith 'N' (upperFirstLower (sepCollapse cleaned)))

/-- `replace(/([a-z])([A-Z])/g, '$1-$2')`: the second character of a match
cannot start another match, so scanning resumes after it. -/
def insertHyphenLowerUpper : List Char → List Char
  | [] => []
  | [c] => [c]
  | a :: b :: rest =>
    if a.isLower && b.isUpper then a :: '-' :: b :: insertHyphenLowerUpper rest
    else a :: insertHyphenLowerUpper (b :: rest)
termination_by l => l.length
decreasing_by
  · simp only [List.length_cons]; omega
  · simp only [List.length_cons]; omega

/-- `replace(/[^a-zA-Z0-9-]+/g, '-')`. -/
def nonAlnumHyphenRunsToHyphen : List Char → List Char
  | [] => []
  | c :: rest =>
    if c.isAlphanum || c = '-' then c :: nonAlnumHyphenRunsToHyphen rest
    else '-' :: nonAlnumHyphenRunsToHyphen
      (rest.dropWhile (fun x => !(x.isAlphanum || x = '-')))
termination_by l => l.length
decreasing_by
  · simp only [List.length_cons]; omega
  · have h1 := (List.dropWhile_sublist
      (l := rest) (fun x => !(x.isAlphanum || x = '-'))).length_le
    simp only [List.length_cons]; omega

/-- `replace(/[\s_]+/g, '-')`. -/
def wsUnderscoreRunsToHyphen : List Char → List Char
  | [] => []
  | c :: rest =>
    if isJsWs c || c = '_' then
      '-' :: wsUnderscoreRunsToHyphen (rest.dropWhile (fun x => isJsWs x || x = '_'))
    else c :: wsUnderscoreRunsToHyphen rest
termination_by l => l.length
decreasing_by
  · have h1 := (List.dropWhile_sublist
      (l := rest) (fun x => isJsWs x || x = '_')).length_le
    simp only [List.length_cons]; omega
  · simp only [List.length_cons]; omega

/-- `replace(/^-+|-+$/g, '')`. -/
def stripEdgeHyphens (l : List Char) : List Char :=
  ((l.dropWhile (· = '-')).reverse.dropWhile (· = '-')).reverse

/-- `replace(/[-]+/g, '-')` (written in the source with a bare hyphen). -/
def collapseHyphenRuns : List Char → List Char
  | [] => []
  | c :: rest =>
    if c = '-' then '-' :: collapseHyphenRuns (rest.dropWhile (· = '-'))
    else c :: collapseHyphenRuns rest
termination_by l => l.length
decreasing_by
  · have h1 := (List.dropWhile_sublist (l := rest) (· = '-')).length_le
    simp only [List.length_cons]; omega
  · simp only [List.length_cons]; omega

/-- `toKebabCase` from nameUtils.js. -/
def toKebabCase (str : String) : String :=
  if str = "" then ""
  else
    String.mk ((collapseHyphenRuns (stripEdgeHyphens (wsUnderscoreRunsToHyphen
      (nonAlnumHyphenRunsToHyphen (insertHyphenLowerUpper str.toList))))).map
        Char.toLower)

/-- `split(/[\s-]+/)`: a leading separator run yields a leading empty token,
a trailing one a trailing empty token. -/
def jsSplitSeps (l : List Char) : List (List Char) :=
  let tok := l.takeWhile (fun c => !isSep c)
  let rest := l.dropWhile (fun c => !isSep c)
  match h : rest with
  | [] => [tok]
  | _ :: rest' => tok :: jsSplitSeps (rest'.dropWhile isSep)
termination_by l.length
decreasing_by
  have h1 : rest.length ≤ l.length :=
    (List.dropWhile_sublist (fun c => !isSep c)).length_le
  rw [h] at h1
  have h2 := (List.dropWhile_sublist (l := rest') isSep).length_le
  simp only [List.length_cons] at h1
  omega

/-- `word.charAt(0).toUpperCase() + word.slice(1)`. -/
def capitalizeFirst : List Char → List Char
  | [] => []
  | c :: rest => c.toUpper :: rest

/-- `/^[a-zA-Z]/.test(s)`. -/
def headIsAsciiAlpha : List Char → Bool
  | [] => false
  | c :: _ => c.isAlpha

/-- The stop-word list of `toCamelCase`'s long-name simplification. -/
def camelStopWords : List String :=
  ["the", "and", "are", "for", "with", "that", "this", "from", "have", "been"]

/-- `toCamelCase` from nameUtils.js, including the >30-character
keyword-extraction fallback. -/
def toCamelCase (str : String) : String :=
  if str = "" then ""
  else
    let cleaned := jsTrimL (keepAlnumWsHyphen str.toList)
    if cleaned.isEmpty then "item"
    else
      let camelCase := prefixDigitWith 'n' (lowerFirstUpper (sepCollapse cleaned))
      if camelCase.length > 30 then
        let words := jsSplitSeps (cleaned.map Char.toLower)
        let importantWords := words.filter (fun w =>
          w.length > 3 && !(camelStopWords.contains (String.mk w)))
        let c2 :=
          if importantWords.isEmpty then camelCase.take 30
          else
            match importantWords.take 3 with
            | [] => []
            | w :: ws => w ++ (ws.map capitalizeFirst).flatten
        String.mk (if headIsAsciiAlpha c2 then c2 else "item".toList ++ c2)
      else String.mk camelCase

/-- The JavaScript/TypeScript reserved-word list of `sanitizeVariableName`. -/
def reservedKeywords : List String :=
  ["break", "case", "catch", "class", "const", "continue", "debugger",
   "default", "delete", "do", "else", "export", "extends", "finally", "for",
   "function", "if", "import", "in", "instanceof", "new", "return", "super",
   "switch", "this", "throw", "try", "typeof", "var", "void", "while", "with",
   "yield", "enum", "implements", "interface", "let", "package", "private",
   "protected", "public", "static", "await", "abstract", "boolean", "byte",
   "char", "double", "final", "float", "goto", "int", "long", "native",
   "short", "synchronized", "throws", "transient", "volatile"]

/-- `sanitizeVariableName` from nameUtils.js. -/
def sanitizeVariableName (name : String) : String :=
  if name = "" then "item"
  else if reservedKeywords.contains name then name ++ "Value"
  else name

/-! ### styleUtils.js -/

/-- A Figma RGB color, components in `[0,1]`. -/
structure Color where
  r : Rat
  g : Rat
  b : Rat
deriving Repr, DecidableEq

/-- `rgbaToCSS(color, opacity)`; absent opacity defaults to 1 (both through
the default parameter and the `!== undefined` ternary). -/
def rgbaToCSS (color : Option Color) (opacity : Option Rat) : String :=
  match color with
  | none => "transparent"
  | some c =>
    let r := jsRound (c.r * 255)
    let g := jsRound (c.g * 255)
    let b := jsRound (c.b * 255)
    let a := opacity.getD 1
    "rgba(" ++ toString r ++ ", " ++ toString g ++ ", " ++ toString b ++ ", "
      ++ jsNumRepr a ++ ")"

/-- `getSpacingVar` from styleUtils.js. -/
def getSpacingVar (val : Rat) : String :=
  if val = 4 then "var(--spacing-xs)"
  else if val = 8 then "var(--spacing-sm)"
  else if val = 16 then "var(--spacing-md)"
  else if val = 24 then "var(--spacing-lg)"
  else if val = 32 then "var(--spacing-xl)"
  else jsNumRepr val ++ "px"

/-- `getRadiusVar` from styleUtils.js. -/
def getRadiusVar (val : Rat) : String :=
  if val = 4 then "var(--border-radius-sm)"
  else if val = 8 then "var(--border-radius-md)"
  else if val = 12 then "var(--border-radius-lg)"
  else jsNumRepr val ++ "px"

/-- `getBaseResetStyles` from styleUtils.js (the literal CSS text). -/
def getBaseResetStyles : String :=
  "/* CSS变量定义 */\n:root \x7b\n  --spacing-xs: 4px;\n  --spacing-sm: 8px;\n  --spacing-md: 16px;\n  --spacing-lg: 24px;\n  --spacing-xl: 32px;\n  --border-radius-sm: 4px;\n  --border-radius-md: 8px;\n  --border-radius-lg: 12px;\n  --transition-base: 0.2s ease;\n\x7d\n\n/* 基础重置样式 */\n* \x7b\n  box-sizing: border-box;\n  margin: 0;\n  padding: 0;\n\x7d\n\n*,\n*::before,\n*::after \x7b\n  box-sizing: inherit;\n\x7d"

/-! ### JS `Map` as an insertion-ordered association list -/

/-- A JS `Map` with string keys: an association list in insertion order. -/
abbrev JSMap (α : Type) : Type := List (String × α)

/-- `m.get(k)` (as an `Option`). -/
def JSMap.get? {α : Type} (m : JSMap α) (k : String) : Option α :=
  (m.find? (fun e => e.1 == k)).map (·.2)

/-- `m.has(k)`. -/
def JSMap.hasKey {α : Type} (m : JSMap α) (k : String) : Bool :=
  (m.find? (fun e => e.1 == k)).isSome

/-- `m.set(k, v)`: update in place if the key exists (keeping its position in
iteration order), otherwise append. -/
def JSMap.set {α : Type} (m : JSMap α) (k : String) (v : α) : JSMap α :=
  if JSMap.hasKey m k then m.map (fun e => if e.1 == k then (k, v) else e)
  else m ++ [(k, v)]

/-! ### The design-node data model

One Figma node, as consumed by the pipeline.  Fields the source only ever
reads through truthiness or `===` tests on strings (`name`, `type`,
`characters` and the string enums) are plain `String`s with `""` for
`undefined`; `children`, `fills` and `strokes` are plain lists with `[]`
for `undefined` (the source treats an absent list and an empty list
identically everywhere); numeric fields that the source distinguishes from
`0` via `!== undefined` (or whose truthiness it tests) are `Option Rat`. -/

/-- One paint entry of `fills`/`strokes`. -/
structure Paint where
  type : String := ""
  visible : Option Bool := none
  color : Option Color := none
  opacity : Option Rat := none
deriving Repr, DecidableEq

/-- `absoluteBoundingBox` / `relativeBoundingBox`. -/
structure BBox where
  x : Rat := 0
  y : Rat := 0
  width : Rat := 0
  height : Rat := 0
deriving Repr, DecidableEq

/-- The `style` object of a text node. -/
structure TextStyle where
  fontFamily : String := ""
  fontSize : Option Rat := none
  fontWeight : Option Rat := none
  letterSpacing : Option Rat := none
  lineHeightPx : Option Rat := none
  lineHeightPercentFontSize : Option Rat := none
deriving Repr, DecidableEq

/-- The `constraints` object. -/
structure Constraints where
  horizontal : String := ""
  vertical : String := ""
deriving Repr, DecidableEq

/-- All non-recursive fields of one design node. -/
structure NodeData where
  id : String := ""
  name : String := ""
  type : String := ""
  characters : String := ""
  absoluteBoundingBox : Option BBox := none
  relativeBoundingBox : Option BBox := none
  fills : List Paint := []
  strokes : List Paint := []
  cornerRadius : Option Rat := none
  opacity : Option Rat := none
  visible : Option Bool := none
  style : Option TextStyle := none
  layoutMode : String := ""
  primaryAxisAlignItems : String := ""
  counterAxisAlignItems : String := ""
  itemSpacing : Option Rat := none
  layoutWrap : String := ""
  paddingTop : Option Rat := none
  paddingRight : Option Rat := none
  paddingBottom : Option Rat := none
  paddingLeft : Option Rat := none
  layoutPaddingTop : Option Rat := none
  layoutPaddingRight : Option Rat := none
  layoutPaddingBottom : Option Rat := none
  layoutPaddingLeft : Option Rat := none
  strokeWeight : Option Rat := none
  strokeAlign : String := ""
  position : String := ""
  constraints : Option Constraints := none
  clipsContent : Option Bool := none
  minWidth : Option Rat := none
  maxWidth : Option Rat := none
  minHeight : Option Rat := none
  maxHeight : Option Rat := none
  textAlignHorizontal : String := ""
  textDecoration : String := ""
deriving Repr, DecidableEq

/-- A design node: its data plus its ordered children. -/
inductive Node : Type where
  | mk (data : NodeData) (children : List Node)

/-- The non-recursive data of a node. -/
def Node.data : Node → NodeData
  | .mk d _ => d

/-- The children list of a node. -/
def Node.children : Node → List Node
  | .mk _ c => c

@[simp] theorem Node.data_mk (d : NodeData) (c : List Node) :
    (Node.mk d c).data = d := rfl

@[simp] theorem Node.children_mk (d : NodeData) (c : List Node) :
    (Node.mk d c).children = c := rfl

theorem Node.sizeOf_child {c : Node} {l : List Node} (h : c ∈ l)
    (d : NodeData) : sizeOf c < sizeOf (Node.mk d l) := by
  have h1 := List.sizeOf_lt_of_mem h
  have h2 : sizeOf (Node.mk d l) = 1 + sizeOf d + sizeOf l := by
    simp [Node.mk.sizeOf_spec]
  omega

/-! ### nodeUtils.js -/

/-- `mapFigmaTypeToHTML` from nodeUtils.js. -/
def mapFigmaTypeToHTML (t : String) : String :=
  let k := strLower t
  if k = "frame" then "div"
  else if k = "group" then "div"
  else if k = "text" then "p"
  else if k = "rectangle" then "div"
  else if k = "ellipse" then "div"
  else if k = "vector" then "svg"
  else if k = "component" then "div"
  else if k = "instance" then "div"
  else if k = "page" then "div"
  else "div"

/-- `isSelfClosing` from nodeUtils.js. -/
def isSelfClosing (tagName : String) : Bool :=
  ["img", "input", "br", "hr", "meta", "link"].contains tagName

/-- `escapeHTML` from nodeUtils.js (sequential global replaces, `&` first). -/
def escapeHTML (text : String) : String :=
  if text = "" then ""
  else String.mk (replaceCharL '\'' "&#039;".data
    (replaceCharL '"' "&quot;".data
      (replaceCharL '>' "&gt;".data
        (replaceCharL '<' "&lt;".data
          (replaceCharL '&' "&amp;".data text.data)))))

/-- `detectHorizontalLayout` from nodeUtils.js. -/
def detectHorizontalLayout (node : Node) : Bool :=
  match node.children with
  | c1 :: c2 :: _ =>
    match c1.data.absoluteBoundingBox, c2.data.absoluteBoundingBox with
    | some b1, some b2 => |b2.y - b1.y| < 10 && |b2.x - b1.x| > 10
    | _, _ => false
  | _ => false

/-- The per-node data update of `preprocessNode`: attach the
parent-relative bounding box when both boxes exist, and filter the
invisible fills and strokes. -/
def preprocessData (d : NodeData) (parentNode : Option Node) : NodeData :=
  let d1 :=
    match parentNode with
    | some p =>
      match d.absoluteBoundingBox, p.data.absoluteBoundingBox with
      | some nb, some pb =>
        let rb : BBox := ⟨nb.x - pb.x, nb.y - pb.y, nb.width, nb.height⟩
        { d with relativeBoundingBox := some rb }
      | _, _ => d
    | none => d
  { d1 with
    fills := d1.fills.filter (fun f => f.visible != some false),
    strokes := d1.strokes.filter (fun f => f.visible != some false) }

/-- `preprocessNode` from nodeUtils.js.  The source mutates `node` in place
(relative box, filtered paint lists, replaced children array) and returns
the same object; this definition is the value of that object after the
call.  Children are preprocessed against the partially-updated parent
object (data already rewritten, children array still the original), of
which they only read `absoluteBoundingBox`. -/
def preprocessNode (node : Node) (parentNode : Option Node) : Node :=
  match node with
  | .mk d cs =>
    let d2 := preprocessData d parentNode
    Node.mk d2 (cs.attach.map (fun c => preprocessNode c.1 (some (Node.mk d2 cs))))
termination_by sizeOf node
decreasing_by
  exact Node.sizeOf_child c.2 d

/-! ### InteractiveElementAnalyzer.js -/

/-- A JS literal default value (`''` or `false` in the source). -/
inductive JSLit : Type where
  | str (s : String)
  | bool (b : Bool)
deriving Repr, DecidableEq

/-- Template-literal rendering used by the assembler:
`typeof v === 'string' ? `'${v}'` : v`. -/
def JSLit.render : JSLit → String
  | .str s => "'" ++ s ++ "'"
  | .bool b => if b then "true" else "false"

/-- An entry of the `interactiveElements` map. -/
structure IElement where
  type : String
  id : String
  name : String
deriving Repr, DecidableEq

/-- An entry of the `stateVariables` array. -/
structure StateVar where
  id : String
  type : String
  defaultValue : JSLit
deriving Repr, DecidableEq

/-- An entry of the `eventHandlers` array. -/
structure Handler where
  id : String
  handlerName : String
deriving Repr, DecidableEq

/-- The three collections `InteractiveElementAnalyzer.analyze` populates. -/
structure IGather where
  interactiveElements : JSMap IElement := []
  stateVariables : List StateVar := []
  eventHandlers : List Handler := []
deriving Repr, DecidableEq

namespace InteractiveElementAnalyzer

/-- `isButton`. -/
def isButton (name : String) : Bool :=
  ["button", "btn", "click", "submit", "confirm", "cancel", "ok",
   "apply"].any (fun k => jsIncludes name k)

/-- `isInput`. -/
def isInput (name : String) : Bool :=
  ["input", "textfield", "text-field", "form", "search",
   "textarea"].any (fun k => jsIncludes name k)

/-- `isAccordion`. -/
def isAccordion (name : String) : Bool :=
  jsIncludes name "accordion" || jsIncludes name "折叠" || jsIncludes name "展开"

/-- `isCollapsible`. -/
def isCollapsible (name : String) : Bool :=
  jsIncludes name "collapse" || jsIncludes name "collapsible"
    || jsIncludes name "expand"

/-- `isToggle`. -/
def isToggle (name : String) : Bool :=
  jsIncludes name "toggle" || jsIncludes name "switch"

/-- `isSwitch`. -/
def isSwitch (name : String) : Bool :=
  jsIncludes name "switch" || jsIncludes name "开关"

/-- The per-node body of `InteractiveElementAnalyzer.analyze`: the four
keyword checks run in sequence (a later match overwrites the node's
descriptor map entry; the state/handler lists are appended to
unconditionally). -/
def analyzeNodeOnly (d : NodeData) (st0 : IGather) : IGather :=
    let nodeName := strLower d.name
    let nodeId := d.id
    let st1 :=
      if isButton nodeName then
        let buttonId := sanitizeVariableName (toCamelCase (jsOrStr d.name "button"))
        let el : IElement := ⟨"button", buttonId, d.name⟩
        { st0 with
          interactiveElements := JSMap.set st0.interactiveElements nodeId el,
          eventHandlers := st0.eventHandlers ++ [⟨buttonId, "handleClick"⟩] }
      else st0
    let st2 :=
      if isInput nodeName then
        let inputId := sanitizeVariableName (toCamelCase (jsOrStr d.name "input"))
        let el : IElement := ⟨"input", inputId, d.name⟩
        { st1 with
          interactiveElements := JSMap.set st1.interactiveElements nodeId el,
          stateVariables := st1.stateVariables ++ [⟨inputId, "string", .str ""⟩],
          eventHandlers := st1.eventHandlers ++ [⟨inputId, "handleChange"⟩] }
      else st1
    let st3 :=
      if isAccordion nodeName || isCollapsible nodeName then
        let accordionId :=
          sanitizeVariableName (toCamelCase (jsOrStr d.name "accordion"))
        let el : IElement := ⟨"accordion", accordionId, d.name⟩
        { st2 with
          interactiveElements := JSMap.set st2.interactiveElements nodeId el,
          stateVariables :=
            st2.stateVariables ++ [⟨accordionId, "boolean", .bool false⟩],
          eventHandlers := st2.eventHandlers ++ [⟨accordionId, "handleToggle"⟩] }
      else st2
    let st4 :=
      if isToggle nodeName || isSwitch nodeName then
        let toggleId := sanitizeVariableName (toCamelCase (jsOrStr d.name "toggle"))
        let el : IElement := ⟨"toggle", toggleId, d.name⟩
        { st3 with
          interactiveElements := JSMap.set st3.interactiveElements nodeId el,
          stateVariables :=
            st3.stateVariables ++ [⟨toggleId, "boolean", .bool false⟩],
          eventHandlers := st3.eventHandlers ++ [⟨toggleId, "handleToggle"⟩] }
      else st3
    st4

/-- `InteractiveElementAnalyzer.analyze`: classify the node, then visit the
children in order. -/
def analyze : Node → IGather → IGather
  | .mk d cs, st0 =>
    cs.attach.foldl (fun s c => analyze c.1 s) (analyzeNodeOnly d st0)
termination_by n => sizeOf n
decreasing_by
  exact Node.sizeOf_child c.2 d

end InteractiveElementAnalyzer

/-! ### ComponentAnalyzer.js -/

/-- An entry of the `components` map. -/
structure ComponentInfo where
  name : String
  node : Node
  parentId : Option String

namespace ComponentAnalyzer

/-- The boundary keyword table of `isComponentCandidate`. -/
def componentKeywords : List String :=
  ["card", "item", "list-item", "listitem", "row", "cell",
   "header", "footer", "sidebar", "nav", "menu", "button-group",
   "form-group", "input-group", "modal", "dialog", "popup",
   "accordion", "tab", "tab-item", "panel", "section",
   "widget", "block", "box", "container", "wrapper"]

/-- `isComponentCandidate`. -/
def isComponentCandidate (name : String) : Bool :=
  componentKeywords.any (fun k => jsIncludes name k)

/-- `hasRepeatedStructure`. -/
def hasRepeatedStructure (node : Node) : Bool :=
  match node.children with
  | c1 :: c2 :: _ =>
    c1.data.type == c2.data.type
      && ((c1.children.length : Int) - (c2.children.length : Int)).natAbs ≤ 1
  | _ => false

/-- `ComponentAnalyzer.identify`, threading the `components` map and the
`componentCounter` (the counter is incremented only when a firing branch
has to invent a `Component<n>` fallback name for an unnamed node).  When a
node is registered the walk does not descend into it. -/
def identify (node : Node) (depth : Nat) (parentId : Option String)
    (acc : JSMap ComponentInfo × Nat) : JSMap ComponentInfo × Nat :=
  match node with
  | .mk d cs =>
    let nodeName := strLower d.name
    let nodeType := strLower d.type
    let nodeId := d.id
    let fire :=
      (nodeType == "component" || nodeType == "instance")
        || isComponentCandidate nodeName
        || (decide (cs.length ≥ 3) && decide (depth < 3)
            && hasRepeatedStructure (Node.mk d cs))
    let named :=
      if fire then
        if d.name ≠ "" then (toPascalCase d.name, acc.2)
        else (toPascalCase ("Component" ++ toString (acc.2 + 1)), acc.2 + 1)
      else ("", acc.2)
    if fire && named.1 ≠ "" then
      (JSMap.set acc.1 nodeId ⟨named.1, Node.mk d cs, parentId⟩, named.2)
    else
      cs.attach.foldl
        (fun a c => identify c.1 (depth + 1) (some nodeId) a) (acc.1, named.2)
termination_by sizeOf node
decreasing_by
  exact Node.sizeOf_child c.2 d

end ComponentAnalyzer

/-! ### JSXTransformer.js -/

/-- `'  '.repeat(depth)` and friends. -/
def jsRepeat (s : String) (n : Nat) : String :=
  String.join (List.replicate n s)

/-- The constructor state of a `JSXTransformer`. -/
structure JSXCtx where
  interactiveElements : JSMap IElement
  components : JSMap ComponentInfo
  useObjectState : Bool

namespace JSXTransformer

/-- `/^frame-\d+$/.test(s)`. -/
def isFrameNumName (s : String) : Bool :=
  match s.toList with
  | 'f' :: 'r' :: 'a' :: 'm' :: 'e' :: '-' :: rest =>
    !rest.isEmpty && rest.all Char.isDigit
  | _ => false

/-- `inferSemanticName` (the identical copy in CSSTransformer.js is shared
with this definition). -/
def inferSemanticName (node : Node) : Option String :=
  let layoutFallback : Option String :=
    if node.data.layoutMode = "HORIZONTAL" then some "row"
    else if node.data.layoutMode = "VERTICAL" then some "column"
    else none
  match node.children with
  | [] => layoutFallback
  | first :: _ =>
    if first.data.type == "TEXT" && first.data.characters ≠ "" then
      let k := toKebabCase (strTake (strLower first.data.characters) 20)
      if k = "" then none else some k
    else if node.children.any
        (fun c => jsIncludes (strLower c.data.name) "button") then
      some "button-group"
    else if node.children.any
        (fun c => jsIncludes (strLower c.data.name) "input") then
      some "input-group"
    else layoutFallback

/-- `getClassName` (again textually identical in JSXTransformer.js and
CSSTransformer.js; embedded once).  With `cssClass` the result is
`.<name>`, otherwise the JSX attribute text ` className="<name>"` with its
leading space. -/
def getClassName (node : Node) (cssClass : Bool) : String :=
  if node.data.name = "" then ""
  else
    let name0 := toKebabCase node.data.name
    let name1 :=
      if isFrameNumName name0 || name0 = "group" || name0 = "container" then
        (inferSemanticName node).getD "wrapper"
      else name0
    let name2 :=
      if name1 ≠ "" && (match name1.toList with
        | c :: _ => c.isDigit
        | [] => false) then "el-" ++ name1
      else name1
    let name3 :=
      if name2 = "" then
        if node.data.id ≠ "" then
          "node-" ++ String.mk
            ((node.data.id.toList.map
              (fun c => if c.isAlphanum then c else '-')).take 20)
        else "element"
      else name2
    if cssClass then "." ++ name3 else " className=\"" ++ name3 ++ "\""

/-- `shouldSkipNode`: only `group`-typed nodes with no fills, strokes,
radius or sub-1 opacity, no interactive registration, and exactly one
child are skippable. -/
def shouldSkipNode (t : JSXCtx) (node : Node) : Bool :=
  let nodeType := strLower node.data.type
  if nodeType = "group" then
    let hasStyle := !node.data.fills.isEmpty || !node.data.strokes.isEmpty
      || (match node.data.cornerRadius with
          | some r => decide (r > 0)
          | none => false)
      || (match node.data.opacity with
          | some o => decide (o < 1)
          | none => false)
    let hasInteraction := JSMap.hasKey t.interactiveElements node.data.id
    !hasStyle && !hasInteraction && node.children.length == 1
  else false

/-- `hasMeaningfulStyle`.  In this model a present bounding box always
carries `width` and `height`, so the source's
`bbox && (bbox.width !== undefined || bbox.height !== undefined)` is
`isSome`. -/
def hasMeaningfulStyle (node : Node) : Bool :=
  let d := node.data
  let hasFills := !d.fills.isEmpty
  let hasStrokes := !d.strokes.isEmpty
  let hasCornerRadius :=
    match d.cornerRadius with
    | some r => decide (r > 0)
    | none => false
  let hasLayout := d.layoutMode == "HORIZONTAL" || d.layoutMode == "VERTICAL"
  let hasPadding := optQTruthy d.paddingTop || optQTruthy d.paddingRight
    || optQTruthy d.paddingBottom || optQTruthy d.paddingLeft
    || optQTruthy d.layoutPaddingTop || optQTruthy d.layoutPaddingRight
    || optQTruthy d.layoutPaddingBottom || optQTruthy d.layoutPaddingLeft
  let hasOpacity :=
    match d.opacity with
    | some o => decide (o < 1)
    | none => false
  let hasPosition := d.position == "ABSOLUTE" || d.position == "RELATIVE"
  hasFills || hasStrokes || hasCornerRadius || hasLayout || hasPadding
    || hasOpacity || hasPosition || d.absoluteBoundingBox.isSome

/-- `getComponentProps`: only the trimmed class-name attribute. -/
def getComponentProps (node : Node) : String :=
  let className := getClassName node false
  if className ≠ "" then " " ++ jsStrTrim className else ""

mutual

/-- `JSXTransformer.transform`, step 1: wrapper elision.  A skippable node
with exactly one child renders as that child at the same depth. -/
def transform (t : JSXCtx) (node : Node) (depth : Nat) (cur : Option String) :
    String :=
  match node with
  | .mk d (c :: rest) =>
    if shouldSkipNode t (.mk d (c :: rest)) && (c :: rest).length == 1 then
      transform t c depth cur
    else transformNoSkip t (.mk d (c :: rest)) depth cur
  | .mk d [] => transformNoSkip t (.mk d []) depth cur
termination_by (sizeOf node, 2)
decreasing_by
  · exact Prod.Lex.left _ _ (Node.sizeOf_child (List.mem_cons_self c _) d)
  · exact Prod.Lex.right _ (by omega)
  · exact Prod.Lex.right _ (by omega)

/-- `JSXTransformer.transform`, step 2: boundary substitution.  A node in
the components map whose generated name differs from
`currentComponentName` becomes a self-closing reference tag; with equal
names rendering continues normally (`transformCore`). -/
def transformNoSkip (t : JSXCtx) (node : Node) (depth : Nat)
    (cur : Option String) : String :=
  match JSMap.get? t.components node.data.id with
  | some ci =>
    if some ci.name == cur then transformCore t node depth cur
    else jsRepeat "  " depth ++ "<" ++ ci.name ++ getComponentProps node ++ " />"
  | none => transformCore t node depth cur
termination_by (sizeOf node, 1)
decreasing_by
  all_goals exact Prod.Lex.right _ (by omega)

/-- `JSXTransformer.transform`, the remainder: interactive remapping, text
leaves, child recursion, self-closing handling, void elision and the
single-text-child collapse, producing the exact JSX text of the source
(including its spacing quirks: the text-leaf and self-closing branches use
the untrimmed `allProps`, whose class attribute carries a leading space). -/
def transformCore (t : JSXCtx) (node : Node) (depth : Nat)
    (cur : Option String) : String :=
  match node with
  | .mk d cs =>
    let indent := jsRepeat "  " depth
    let nodeType := jsOrStr (strLower d.type) "div"
    let interactiveElement := JSMap.get? t.interactiveElements d.id
    let tagName0 := mapFigmaTypeToHTML nodeType
    let tph :=
      match interactiveElement with
      | some el =>
        if el.type = "button" then
          ("button", ([] : List String),
           ["onClick=\x7bhandle" ++ toPascalCase el.id ++ "\x7d"])
        else if el.type = "input" then
          let safeInputId := sanitizeVariableName el.id
          let inputValueRef :=
            if t.useObjectState then "state." ++ safeInputId else safeInputId
          ("input", ["type=\"text\"", "value=\x7b" ++ inputValueRef ++ "\x7d"],
           ["onChange=\x7bhandle" ++ toPascalCase el.id ++ "Change\x7d"])
        else if el.type = "accordion" || el.type = "toggle" then
          (tagName0, [], ["onClick=\x7bhandle" ++ toPascalCase el.id ++ "Toggle\x7d"])
        else (tagName0, [], [])
      | none => (tagName0, [], [])
    let tagName := tph.1
    let props := tph.2.1
    let handlers := tph.2.2
    let className := getClassName (.mk d cs) false
    let allProps :=
      String.intercalate " " (([className] ++ props ++ handlers).filter (· ≠ ""))
    if nodeType = "text" && d.characters ≠ "" then
      indent ++ "<" ++ tagName ++ (if allProps ≠ "" then " " ++ allProps else "")
        ++ ">" ++ escapeHTML d.characters ++ "</" ++ tagName ++ ">"
    else
      let childrenStr :=
        if cs.length > 0 then
          "\n" ++ String.intercalate "\n"
              (cs.attach.map (fun c => transform t c.1 (depth + 1) cur))
            ++ "\n" ++ indent
        else ""
      if isSelfClosing tagName then
        if jsStrTrim childrenStr ≠ "" then
          indent ++ "<div" ++ (if className ≠ "" then className else "") ++ ">\n"
            ++ indent ++ "  <" ++ tagName
            ++ (if props ≠ [] then " " ++ String.intercalate " " props else "")
            ++ (if handlers ≠ [] then " " ++ String.intercalate " " handlers else "")
            ++ " />" ++ childrenStr ++ "\n" ++ indent ++ "</div>"
        else
          indent ++ "<" ++ tagName
            ++ (if allProps ≠ "" then " " ++ allProps else "") ++ " />"
      else if !hasMeaningfulStyle (.mk d cs) && jsStrTrim childrenStr = ""
          && interactiveElement.isNone then ""
      else
        let cleanProps := jsStrTrim allProps
        let collapseText :=
          jsStrTrim childrenStr ≠ "" && cs.length == 1
            && !hasMeaningfulStyle (.mk d cs)
            && (match cs with
                | c :: _ => c.data.type == "TEXT" && c.data.characters ≠ ""
                | [] => false)
        if collapseText then
          match cs with
          | c :: _ => indent ++ escapeHTML c.data.characters
          | [] => ""
        else
          indent ++ "<" ++ tagName
            ++ (if cleanProps ≠ "" then " " ++ cleanProps else "") ++ ">"
            ++ childrenStr ++ "</" ++ tagName ++ ">"
termination_by (sizeOf node, 0)
decreasing_by
  · exact Prod.Lex.left _ _ (Node.sizeOf_child c.2 d)

end

end JSXTransformer

/-! ### CSSTransformer.js -/

/-- One value of the `styleGroups` map: the classes sharing a style key, and
the rule text of the first node that produced the key. -/
structure StyleGroup where
  classes : List String
  style : String
deriving Repr, DecidableEq

/-- The mutable collections threaded through `extractStyles`:
`singleStyles` is the `styles` array the caller passes in, the other three
are the `processedClasses` set and the `styleMap`/`styleGroups` maps. -/
structure CSSState where
  singleStyles : List String := []
  processedClasses : List String := []
  styleMap : JSMap String := []
  styleGroups : JSMap StyleGroup := []
deriving Repr, DecidableEq

namespace CSSTransformer

/-- `getClassName`/`inferSemanticName` of CSSTransformer.js are textually
identical to the JSXTransformer copies; the embedding shares them. -/
def getClassName (node : Node) (cssClass : Bool) : String :=
  JSXTransformer.getClassName node cssClass

/-- `CSSTransformer.getStyleKey`. -/
def getStyleKey (node : Node) : Option String :=
  let d := node.data
  let bboxParts :=
    match d.absoluteBoundingBox with
    | some b =>
      (if b.width ≠ 0 then ["w:" ++ jsNumRepr b.width] else [])
        ++ (if b.height ≠ 0 then ["h:" ++ jsNumRepr b.height] else [])
    | none => []
  let bgParts :=
    match d.fills.head? with
    | some fill =>
      if fill.type = "SOLID" && fill.visible != some false then
        ["bg:" ++ rgbaToCSS fill.color fill.opacity]
      else []
    | none => []
  let textParts :=
    if d.type = "TEXT" then
      (match d.style with
       | some st =>
         (if st.fontFamily ≠ "" then ["font:" ++ st.fontFamily] else [])
           ++ (if optQTruthy st.fontSize then
                ["size:" ++ jsNumRepr (st.fontSize.getD 0)] else [])
           ++ (if optQTruthy st.fontWeight then
                ["weight:" ++ jsNumRepr (st.fontWeight.getD 0)] else [])
           ++ (if optQTruthy st.letterSpacing then
                ["spacing:" ++ jsNumRepr (st.letterSpacing.getD 0)] else [])
           ++ (if optQTruthy st.lineHeightPx then
                ["line:" ++ jsNumRepr (st.lineHeightPx.getD 0)] else [])
       | none => [])
        ++ (match d.fills.head? with
            | some fill =>
              if fill.type = "SOLID" && fill.visible != some false then
                ["color:" ++ rgbaToCSS fill.color fill.opacity]
              else []
            | none => [])
    else []
  let radiusParts :=
    if optQTruthy d.cornerRadius then
      ["radius:" ++ jsNumRepr (d.cornerRadius.getD 0)] else []
  let layoutParts := if d.layoutMode ≠ "" then ["layout:" ++ d.layoutMode] else []
  let borderParts :=
    match d.strokes.head? with
    | some stroke =>
      if stroke.type = "SOLID" && stroke.visible != some false then
        ["border:" ++ rgbaToCSS stroke.color stroke.opacity ++ "-"
          ++ jsNumRepr (jsOrQ d.strokeWeight none 1)]
      else []
    | none => []
  let pTop := jsOrQ d.paddingTop d.layoutPaddingTop 0
  let pRight := jsOrQ d.paddingRight d.layoutPaddingRight 0
  let pBottom := jsOrQ d.paddingBottom d.layoutPaddingBottom 0
  let pLeft := jsOrQ d.paddingLeft d.layoutPaddingLeft 0
  let padParts :=
    if pTop ≠ 0 || pRight ≠ 0 || pBottom ≠ 0 || pLeft ≠ 0 then
      ["pad:" ++ jsNumRepr pTop ++ "-" ++ jsNumRepr pRight ++ "-"
        ++ jsNumRepr pBottom ++ "-" ++ jsNumRepr pLeft]
    else []
  let parts := bboxParts ++ bgParts ++ textParts ++ radiusParts ++ layoutParts
    ++ borderParts ++ padParts
  if parts.isEmpty then none else some (String.intercalate "|" parts)

/-- `CSSTransformer.nodeToCSS`: the ordered rule-body construction. -/
def nodeToCSS (node : Node) (className : String) : String :=
  let d := node.data
  let bbox := d.absoluteBoundingBox
  let boxSizingRules :=
    if !d.strokes.isEmpty || optQTruthy d.paddingTop || optQTruthy d.paddingRight
        || optQTruthy d.paddingBottom || optQTruthy d.paddingLeft then
      ["  box-sizing: border-box;"]
    else []
  let needsFixedSize :=
    (match d.constraints with
     | some c => c.horizontal = "FIXED" || c.vertical = "FIXED"
     | none => false)
      || optQTruthy d.minWidth || optQTruthy d.minHeight
  let sizeRules :=
    match bbox with
    | some b =>
      (if b.width ≠ 0 && (needsFixedSize || d.type = "TEXT") then
        ["  width: " ++ jsNumRepr b.width ++ "px;"]
       else if b.width ≠ 0
          && (match d.constraints with
              | some c => c.horizontal = "STRETCH"
              | none => false) then
        ["  width: 100%;"]
       else [])
        ++ (if b.height ≠ 0 && (needsFixedSize || d.type = "TEXT") then
             ["  height: " ++ jsNumRepr b.height ++ "px;"]
            else if b.height ≠ 0
               && (match d.constraints with
                   | some c => c.vertical = "STRETCH"
                   | none => false) then
             ["  height: 100%;"]
            else [])
    | none => []
  let bgRules :=
    if d.type ≠ "TEXT" && !d.fills.isEmpty then
      match d.fills.head? with
      | some fill =>
        if fill.type = "SOLID" && fill.visible != some false then
          let color := rgbaToCSS fill.color fill.opacity
          if color ≠ "rgba(0, 0, 0, 0)" && color ≠ "transparent" then
            ["  background-color: " ++ color ++ ";"]
          else []
        else []
      | none => []
    else []
  let borderRules :=
    match d.strokes.head? with
    | some stroke =>
      if stroke.type = "SOLID" then
        let color := rgbaToCSS stroke.color stroke.opacity
        let width := jsOrQ d.strokeWeight none 1
        ["  border: " ++ jsNumRepr width ++ "px solid " ++ color ++ ";"]
          ++ (if d.strokeAlign = "CENTER" then ["  box-sizing: border-box;"]
              else [])
      else []
    | none => []
  let radiusRules :=
    match d.cornerRadius with
    | some r => if r > 0 then ["  border-radius: " ++ getRadiusVar r ++ ";"] else []
    | none => []
  let pTop := jsOrQ d.paddingTop d.layoutPaddingTop 0
  let pRight := jsOrQ d.paddingRight d.layoutPaddingRight 0
  let pBottom := jsOrQ d.paddingBottom d.layoutPaddingBottom 0
  let pLeft := jsOrQ d.paddingLeft d.layoutPaddingLeft 0
  let paddingRules :=
    if pTop ≠ 0 || pRight ≠ 0 || pBottom ≠ 0 || pLeft ≠ 0 then
      if pTop = pRight && pRight = pBottom && pBottom = pLeft then
        ["  padding: " ++ getSpacingVar pTop ++ ";"]
      else
        ["  padding: " ++ getSpacingVar pTop ++ " " ++ getSpacingVar pRight
          ++ " " ++ getSpacingVar pBottom ++ " " ++ getSpacingVar pLeft ++ ";"]
    else []
  let fontRules :=
    match d.style with
    | some st =>
      (if st.fontFamily ≠ "" then
        let fontFamily :=
          if jsIncludes st.fontFamily " " then "\"" ++ st.fontFamily ++ "\""
          else st.fontFamily
        ["  font-family: " ++ fontFamily ++ ", sans-serif;"]
       else [])
        ++ (if optQTruthy st.fontSize then
             ["  font-size: " ++ jsNumRepr (st.fontSize.getD 0) ++ "px;"]
            else [])
        ++ (if optQTruthy st.fontWeight then
             ["  font-weight: " ++ jsNumRepr (st.fontWeight.getD 0) ++ ";"]
            else [])
        ++ (match st.letterSpacing with
            | some ls => ["  letter-spacing: " ++ jsNumRepr ls ++ "px;"]
            | none => [])
        ++ (if optQTruthy st.lineHeightPx then
             ["  line-height: " ++ jsNumRepr (st.lineHeightPx.getD 0) ++ "px;"]
            else if optQTruthy st.lineHeightPercentFontSize then
             let lineHeight := (st.lineHeightPercentFontSize.getD 0) / 100
               * (jsOrQ st.fontSize none 16)
             ["  line-height: " ++ jsNumRepr lineHeight ++ "px;"]
            else [])
        ++ (if d.type = "TEXT" && !d.fills.isEmpty then
             match d.fills.head? with
             | some fill =>
               if fill.type = "SOLID" && fill.visible != some false then
                 let color := rgbaToCSS fill.color fill.opacity
                 if color ≠ "rgba(0, 0, 0, 0)" && color ≠ "transparent" then
                   ["  color: " ++ color ++ ";"]
                 else []
               else []
             | none => []
            else [])
        ++ (if d.textAlignHorizontal = "LEFT" then ["  text-align: left;"]
            else if d.textAlignHorizontal = "CENTER" then ["  text-align: center;"]
            else if d.textAlignHorizontal = "RIGHT" then ["  text-align: right;"]
            else if d.textAlignHorizontal = "JUSTIFIED" then
              ["  text-align: justify;"]
            else [])
        ++ (if d.textDecoration = "UNDERLINE" then ["  text-decoration: underline;"]
            else if d.textDecoration = "STRIKETHROUGH" then
              ["  text-decoration: line-through;"]
            else [])
    | none => []
  let layoutRules :=
    if d.layoutMode = "HORIZONTAL" || d.layoutMode = "VERTICAL" then
      ["  display: flex;",
       "  flex-direction: "
         ++ (if d.layoutMode = "HORIZONTAL" then "row" else "column") ++ ";"]
        ++ (if d.primaryAxisAlignItems ≠ "" && d.primaryAxisAlignItems ≠ "MIN" then
             if d.primaryAxisAlignItems = "CENTER" then
               ["  justify-content: center;"]
             else if d.primaryAxisAlignItems = "MAX" then
               ["  justify-content: flex-end;"]
             else if d.primaryAxisAlignItems = "SPACE_BETWEEN" then
               ["  justify-content: space-between;"]
             else if d.primaryAxisAlignItems = "SPACE_AROUND" then
               ["  justify-content: space-around;"]
             else []
            else [])
        ++ (if d.counterAxisAlignItems ≠ "" && d.counterAxisAlignItems ≠ "MIN" then
             if d.counterAxisAlignItems = "CENTER" then ["  align-items: center;"]
             else if d.counterAxisAlignItems = "MAX" then
               ["  align-items: flex-end;"]
             else if d.counterAxisAlignItems = "STRETCH" then
               ["  align-items: stretch;"]
             else if d.counterAxisAlignItems = "BASELINE" then
               ["  align-items: baseline;"]
             else []
            else [])
        ++ (match d.itemSpacing with
            | some sp =>
              if sp > 0 then
                let spacingVar :=
                  if sp = 8 then "var(--spacing-sm)"
                  else if sp = 16 then "var(--spacing-md)"
                  else if sp = 24 then "var(--spacing-lg)"
                  else jsNumRepr sp ++ "px"
                ["  gap: " ++ spacingVar ++ ";"]
              else []
            | none => [])
        ++ (if d.layoutWrap = "WRAP" then ["  flex-wrap: wrap;"] else [])
    else if node.children.length > 1 then
      if detectHorizontalLayout node then
        ["  display: flex;", "  flex-direction: row;"]
      else if node.children.length > 2 then
        ["  display: flex;", "  flex-direction: column;"]
      else []
    else []
  let positionRules :=
    if d.position ≠ "" then
      if d.position = "ABSOLUTE" then ["  position: absolute;"]
      else if d.position = "RELATIVE" then ["  position: relative;"]
      else []
    else []
  let constraintRules :=
    match d.constraints with
    | some c =>
      (if c.horizontal = "MIN" then ["  align-self: flex-start;"]
       else if c.horizontal = "CENTER" then ["  align-self: center;"]
       else if c.horizontal = "MAX" then ["  align-self: flex-end;"]
       else if c.horizontal = "STRETCH" then
         ["  align-self: stretch;"]
           ++ (match bbox with
               | some b => if b.width ≠ 0 then ["  width: 100%;"] else []
               | none => [])
       else if c.horizontal = "SCALE" then
         (match bbox with
          | some b => if b.width ≠ 0 then ["  width: 100%;"] else []
          | none => [])
       else [])
        ++ (if c.vertical = "MIN" then ["  align-self: flex-start;"]
            else if c.vertical = "CENTER" then ["  align-self: center;"]
            else if c.vertical = "MAX" then ["  align-self: flex-end;"]
            else if c.vertical = "STRETCH" then
              ["  align-self: stretch;"]
                ++ (match bbox with
                    | some b => if b.height ≠ 0 then ["  height: 100%;"] else []
                    | none => [])
            else if c.vertical = "SCALE" then
              (match bbox with
               | some b => if b.height ≠ 0 then ["  height: 100%;"] else []
               | none => [])
            else [])
    | none => []
  let overflowRules :=
    match d.clipsContent with
    | some b => ["  overflow: " ++ (if b then "hidden" else "visible") ++ ";"]
    | none => []
  let opacityRules :=
    match d.opacity with
    | some o => if o < 1 then ["  opacity: " ++ jsNumRepr o ++ ";"] else []
    | none => []
  let visibilityRules := if d.visible = some false then ["  display: none;"] else []
  let minMaxRules :=
    (if optQTruthy d.minWidth then
      ["  min-width: " ++ jsNumRepr (d.minWidth.getD 0) ++ "px;"] else [])
      ++ (if optQTruthy d.maxWidth then
           ["  max-width: " ++ jsNumRepr (d.maxWidth.getD 0) ++ "px;"] else [])
      ++ (if optQTruthy d.minHeight then
           ["  min-height: " ++ jsNumRepr (d.minHeight.getD 0) ++ "px;"] else [])
      ++ (if optQTruthy d.maxHeight then
           ["  max-height: " ++ jsNumRepr (d.maxHeight.getD 0) ++ "px;"] else [])
  let textRules :=
    if d.type = "TEXT" then ["  white-space: pre-wrap;", "  word-wrap: break-word;"]
    else []
  let rules := boxSizingRules ++ sizeRules ++ bgRules ++ borderRules
    ++ radiusRules ++ paddingRules ++ fontRules ++ layoutRules ++ positionRules
    ++ constraintRules ++ overflowRules ++ opacityRules ++ visibilityRules
    ++ minMaxRules ++ textRules
  if rules.isEmpty then ""
  else className ++ " \x7b\n" ++ String.intercalate "\n" rules ++ "\n\x7d"

/-- `extractCSSRulesFromStyle`: the greedy `/\x7b([\s\S]*)\x7d/` match (first
opening to last closing brace), split into trimmed non-empty lines. -/
def extractCSSRulesFromStyle (styleString : String) : List String :=
  let l := styleString.toList
  let pre := l.takeWhile (· ≠ '\x7b')
  if pre.length = l.length then []
  else
    let rest := l.drop (pre.length + 1)
    let revRest := rest.reverse
    let post := revRest.takeWhile (· ≠ '\x7d')
    if post.length = revRest.length then []
    else
      let inner := (revRest.drop (post.length + 1)).reverse
      ((splitChar '\n' (String.mk inner)).map jsStrTrim).filter
        (fun line => line.length > 0)

/-- The per-node body of `CSSTransformer.extractStyles` (everything before
the recursion into the children): register the class, and route the style
through the key map / style groups or the keyless `styles` array. -/
def cssNodeStep (node : Node) (st : CSSState) : CSSState :=
  let className := getClassName node true
  if className ≠ "" && !st.processedClasses.contains className then
    let stP := { st with processedClasses := st.processedClasses ++ [className] }
    if node.data.type = "TEXT" || node.data.absoluteBoundingBox.isSome then
      let style := nodeToCSS node className
      if style ≠ "" && (jsStrTrim style).length > className.length + 5 then
        match getStyleKey node with
        | some styleKey =>
          if JSMap.hasKey stP.styleMap styleKey then
            let existingClass := (JSMap.get? stP.styleMap styleKey).getD ""
            let withGroup :=
              if !(JSMap.hasKey stP.styleGroups styleKey) then
                let seeded : StyleGroup := ⟨[existingClass], style⟩
                { stP with styleGroups := JSMap.set stP.styleGroups styleKey seeded }
              else stP
            let group := (JSMap.get? withGroup.styleGroups styleKey).getD ⟨[], ""⟩
            if !(group.classes.contains className) then
              let appended : StyleGroup := ⟨group.classes ++ [className], group.style⟩
              { withGroup with styleGroups := JSMap.set withGroup.styleGroups styleKey appended }
            else withGroup
          else
            { stP with
              styleMap := JSMap.set stP.styleMap styleKey className,
              styleGroups := JSMap.set stP.styleGroups styleKey ⟨[className], style⟩ }
        | none => { stP with singleStyles := stP.singleStyles ++ [style] }
      else stP
    else stP
  else st

/-- `CSSTransformer.extractStyles`: the depth-first walk threading the
class-name set, the style-key map and the style groups. -/
def extractStyles (node : Node) (pfx : String) (st : CSSState) : CSSState :=
  match node with
  | .mk d cs =>
    cs.attach.foldl (fun s c => extractStyles c.1 pfx s) (cssNodeStep (.mk d cs) st)
termination_by sizeOf node
decreasing_by
  exact Node.sizeOf_child c.2 d

/-- The list of stylesheet blocks `CSSTransformer.generate` pushes before
joining: the base reset, one block per style group (a combined selector for
groups of more than one class), then the keyless single styles. -/
def generateStyleList (node : Node) (componentName : String) : List String :=
  let st := extractStyles node componentName {}
  let groupBlocks := st.styleGroups.flatMap (fun e =>
    let group := e.2
    if group.classes.length > 1 then
      let selector := String.intercalate ", " group.classes
      let cssRules := extractCSSRulesFromStyle group.style
      if cssRules.length > 0 then
        [selector ++ " \x7b\n" ++ String.intercalate "\n" cssRules ++ "\n\x7d"]
      else []
    else if group.classes.length == 1 then [group.style]
    else [])
  [getBaseResetStyles] ++ groupBlocks ++ st.singleStyles

/-- `CSSTransformer.generate`. -/
def generate (node : Node) (componentName : String) : String :=
  String.intercalate "\n\n" (generateStyleList node componentName)

end CSSTransformer

/-! ### ReactTemplateGenerator.js -/

/-- `JSXTransformer.format`'s blank-line filter:
`filter((line, i, arr) => !(line.trim() === '' && arr[i+1]?.trim() === ''))`
(the lookahead reads the original array). -/
def dropConsecutiveBlanks : List String → List String
  | [] => []
  | [x] => [x]
  | x :: y :: rest =>
    if jsStrTrim x = "" && jsStrTrim y = "" then dropConsecutiveBlanks (y :: rest)
    else x :: dropConsecutiveBlanks (y :: rest)

/-- `JSXTransformer.format`. -/
def JSXTransformer.format (jsx : String) : String :=
  if jsx = "" then ""
  else String.intercalate "\n" (dropConsecutiveBlanks (splitChar '\n' jsx))

namespace ReactTemplateGenerator

/-- The state-declaration section of the template: the aggregated
`useState` record when `useObjectState` is set, otherwise one
`useState` slot per state variable (the inline immediately-invoked
arrow of the source). -/
def stateDeclarations (componentName : String)
    (useObjectState useTypeScript : Bool)
    (stateVariables : List StateVar) : String :=
  if stateVariables.length > 0 then
    if useObjectState then
      let stateType :=
        if useTypeScript then "<" ++ componentName ++ "State>" else ""
      let stateInit := String.intercalate ",\n" (stateVariables.map (fun v =>
        "    " ++ sanitizeVariableName v.id ++ ": " ++ v.defaultValue.render))
      "  const [state, setState] = useState" ++ stateType ++ "(\x7b\n"
        ++ stateInit ++ "\n  \x7d);"
    else
      String.intercalate "\n" (stateVariables.map (fun v =>
        let safeId := sanitizeVariableName v.id
        let typeAnnotation := if useTypeScript then "<" ++ v.type ++ ">" else ""
        "  const [" ++ safeId ++ ", set" ++ toPascalCase safeId
          ++ "] = useState" ++ typeAnnotation ++ "("
          ++ v.defaultValue.render ++ ");"))
  else ""

/-- The text of one event handler of the template (empty when the handler
is dropped because its bound state variable is missing). -/
def handlerText (componentName : String)
    (needsOptimization useObjectState : Bool)
    (stateVariables : List StateVar) (interactiveElements : JSMap IElement)
    (h : Handler) : String :=
  let stateVar := stateVariables.find? (fun v => v.id == h.id)
  let interactiveElement :=
    (interactiveElements.map (·.2)).find? (fun el => el.id == h.id)
  let handlerName := "handle" ++ toPascalCase h.id
  let useCallbackWrapper := if needsOptimization then "useCallback(" else ""
  let useCallbackDeps := if needsOptimization then ", [])" else ""
  let safeId := sanitizeVariableName h.id
  let elType := (interactiveElement.map (·.type)).getD ""
  if elType = "input" then
    if stateVar.isNone then ""
    else
      let setterName :=
        if useObjectState then
          "setState((prev: " ++ componentName
            ++ "State) => (\x7b ...prev, " ++ safeId ++ ": e.target.value \x7d))"
        else "set" ++ toPascalCase h.id ++ "(e.target.value)"
      "  const " ++ handlerName ++ "Change = " ++ useCallbackWrapper
        ++ "(e: React.ChangeEvent<HTMLInputElement>) => \x7b\n    "
        ++ setterName ++ ";\n  \x7d" ++ useCallbackDeps ++ ";"
  else if elType = "accordion" || elType = "toggle" then
    if stateVar.isNone then ""
    else
      let setterName :=
        if useObjectState then
          "setState((prev: " ++ componentName
            ++ "State) => (\x7b ...prev, " ++ safeId ++ ": !prev." ++ safeId ++ " \x7d))"
        else "set" ++ toPascalCase h.id ++ "(prev => !prev)"
      "  const " ++ handlerName ++ "Toggle = " ++ useCallbackWrapper
        ++ "() => \x7b\n    " ++ setterName ++ ";\n  \x7d" ++ useCallbackDeps ++ ";"
  else if elType = "button" then
    "  const " ++ handlerName ++ " = " ++ useCallbackWrapper
      ++ "() => \x7b\n    // TODO: 实现按钮点击逻辑\n  \x7d" ++ useCallbackDeps ++ ";"
  else
    if stateVar.isNone then
      "  const " ++ handlerName ++ " = " ++ useCallbackWrapper
        ++ "() => \x7b\n    // TODO: 实现事件处理逻辑\n  \x7d" ++ useCallbackDeps ++ ";"
    else
      let setterName :=
        if useObjectState then
          "setState((prev: " ++ componentName
            ++ "State) => (\x7b ...prev, " ++ safeId ++ ": !prev." ++ safeId ++ " \x7d))"
        else "set" ++ toPascalCase h.id ++ "(prev => !prev)"
      "  const " ++ handlerName ++ " = " ++ useCallbackWrapper
        ++ "() => \x7b\n    " ++ setterName ++ ";\n  \x7d" ++ useCallbackDeps ++ ";"

/-- `ReactTemplateGenerator.generate`.  The source's `toPascalCaseFn`
parameter is always the `toPascalCase` of nameUtils.js, embedded
directly.  `usedComponentIds` is the optional `Set` filtering which
component imports are emitted. -/
def generate (componentName : String) (jsx : String)
    (interactiveElements : JSMap IElement) (stateVariables : List StateVar)
    (eventHandlers : List Handler) (components : JSMap ComponentInfo)
    (useObjectState useTypeScript isSubComponent : Bool)
    (usedComponentIds : Option (List String)) : String :=
  let componentImports := components.flatMap (fun e =>
    let skipUnused :=
      match usedComponentIds with
      | some used => !used.contains e.1
      | none => false
    if skipUnused then []
    else
      let subComponentName := e.2.name
      if subComponentName = componentName then []
      else
        let importPath :=
          if isSubComponent then "../" ++ subComponentName ++ "/" ++ subComponentName
          else "./components/" ++ subComponentName ++ "/" ++ subComponentName
        ["import \x7b " ++ subComponentName ++ " \x7d from '" ++ importPath ++ "';"])
  let componentImportsStr :=
    if componentImports.length > 0 then
      String.intercalate "\n" componentImports ++ "\n"
    else ""
  let needsOptimization :=
    stateVariables.length > 3 || eventHandlers.length > 3
  let useMemoImport := if needsOptimization then ", useMemo" else ""
  let useCallbackImport := if needsOptimization then ", useCallback" else ""
  let imports :=
    if useTypeScript then
      "import React, \x7b useState" ++ useMemoImport ++ useCallbackImport
        ++ " \x7d from 'react';\n" ++ componentImportsStr
        ++ "import './" ++ componentName ++ ".css';\n"
        ++ "import type \x7b " ++ componentName ++ "Props"
        ++ (if useObjectState then ", " ++ componentName ++ "State" else "")
        ++ " \x7d from './" ++ componentName ++ ".types';"
    else
      "import React, \x7b useState" ++ useMemoImport ++ useCallbackImport
        ++ " \x7d from 'react';\n" ++ componentImportsStr
        ++ "import './" ++ componentName ++ ".css';"
  let componentSignature :=
    if useTypeScript then
      "const " ++ componentName ++ ": React.FC<" ++ componentName
        ++ "Props> = () => \x7b"
    else "const " ++ componentName ++ " = () => \x7b"
  let stateDecl :=
    stateDeclarations componentName useObjectState useTypeScript stateVariables
  let handlers := String.intercalate "\n\n"
    ((eventHandlers.map (handlerText componentName needsOptimization
      useObjectState stateVariables interactiveElements)).filter (· ≠ ""))
  let stateSection := if stateDecl ≠ "" then stateDecl ++ "\n" else ""
  let handlersSection := if handlers ≠ "" then handlers ++ "\n" else ""
  let exportStatement :=
    if isSubComponent then
      "export \x7b " ++ componentName ++ " \x7d;\nexport default "
        ++ componentName ++ ";"
    else "export default " ++ componentName ++ ";"
  let formattedJSX := JSXTransformer.format jsx
  imports ++ "\n\n" ++ componentSignature ++ "\n" ++ stateSection
    ++ handlersSection ++ "  return (\n" ++ formattedJSX
    ++ "\n  );\n\x7d;\n\n" ++ exportStatement ++ "\n"

end ReactTemplateGenerator

/-! ### CodeGenerator.js -/

/-- The constructor configuration of a `CodeGenerator` (the string fields
use `""`-as-absent truthiness like the source's `||` defaults; the
`componentName` override is falsy when empty). -/
structure Config where
  format : String := "react"
  outputDir : String := "./output"
  cssFramework : String := "none"
  useTypeScript : Bool := true
  componentize : Bool := true
  componentName : String := ""
deriving Repr, DecidableEq

/-- The mutable generation context of a `CodeGenerator` instance: the
descriptor map, the two analyzer lists, the boundary map, the anonymous
component counter, and the state-aggregation flag. -/
structure GenState where
  interactiveElements : JSMap IElement := []
  stateVariables : List StateVar := []
  eventHandlers : List Handler := []
  components : JSMap ComponentInfo := []
  componentCounter : Nat := 0
  useObjectState : Bool := false

/-- The `generate` result: a map from relative file path to file content,
in emission order; `Object.assign` appends, and a later entry for the same
path overrides an earlier one on lookup. -/
abbrev Files : Type := List (String × String)

/-- Look a path up in an output map (last write wins, as for a JS object). -/
def Files.lookup (fs : Files) (k : String) : Option String :=
  ((fs.reverse).find? (fun e => e.1 == k)).map (·.2)

namespace CodeGenerator

/-- `resetState`: clear every collection, zero the counter, drop the flag. -/
def resetState (_s : GenState) : GenState := {}

/-- `saveState`: shallow copies of the four collections plus the counter
and flag — in this value model, the state itself, field by field. -/
def saveState (s : GenState) : GenState :=
  { interactiveElements := s.interactiveElements,
    stateVariables := s.stateVariables,
    eventHandlers := s.eventHandlers,
    components := s.components,
    componentCounter := s.componentCounter,
    useObjectState := s.useObjectState }

/-- `restoreState`: replace every field of the live context with the saved
snapshot. -/
def restoreState (_live : GenState) (saved : GenState) : GenState := saved

/-- `analyzeInteractiveElements`: run the analyzer over the tree and derive
`useObjectState = stateVariables.length > 3`. -/
def analyzeInteractiveElements (node : Node) (s : GenState) : GenState :=
  let g := InteractiveElementAnalyzer.analyze node
    ⟨s.interactiveElements, s.stateVariables, s.eventHandlers⟩
  { s with
    interactiveElements := g.interactiveElements,
    stateVariables := g.stateVariables,
    eventHandlers := g.eventHandlers,
    useObjectState := g.stateVariables.length > 3 }

/-- `collectUsedComponents`: gather, in document order, the ids of nodes
registered in the components map (`usedIds` is a `Set`; duplicates are not
re-added). -/
def collectUsedComponents (node : Node) (components : JSMap ComponentInfo)
    (usedIds : List String) : List String :=
  match node with
  | .mk d cs =>
    let usedIds1 :=
      if JSMap.hasKey components d.id && !usedIds.contains d.id then
        usedIds ++ [d.id]
      else usedIds
    cs.attach.foldl (fun u c => collectUsedComponents c.1 components u) usedIds1
termination_by sizeOf node
decreasing_by
  exact Node.sizeOf_child c.2 d

/-- `generateTypesFile`. -/
def generateTypesFile (s : GenState) (componentName : String) : String :=
  let stateInterface :=
    if s.stateVariables.length > 0 then
      "export interface " ++ componentName ++ "State \x7b\n"
        ++ String.intercalate "\n" (s.stateVariables.map (fun v =>
            "  " ++ sanitizeVariableName v.id ++ ": " ++ v.type ++ ";"))
        ++ "\n\x7d\n\n"
    else ""
  let handlerLines := String.intercalate "\n" (s.eventHandlers.map (fun h =>
    let interactiveElement :=
      (s.interactiveElements.map (·.2)).find? (fun el => el.id == h.id)
    if (interactiveElement.map (·.type)).getD "" = "input" then
      "  handle" ++ toPascalCase h.id
        ++ "Change: (e: React.ChangeEvent<HTMLInputElement>) => void;"
    else "  handle" ++ toPascalCase h.id ++ ": () => void;"))
  "/**\n * " ++ componentName ++ " 组件属性\n */\nexport interface "
    ++ componentName
    ++ "Props \x7b\n  className?: string;\n  // TODO: 根据实际需求添加props\n\x7d\n\n"
    ++ stateInterface ++ "/**\n * " ++ componentName
    ++ " 组件事件处理器类型\n */\nexport interface " ++ componentName
    ++ "Handlers \x7b\n" ++ handlerLines ++ "\n\x7d\n"

/-- The straight-line body of `generateSubComponent` between the
`resetState` and the `restoreState` (source lines 188–240): analyze the
subtree, identify nested boundaries, derive the aggregation flag, render
JSX and CSS and assemble the three output files.  Over well-typed nodes
this body is total; the `Except` result records where a thrown JS error
(from malformed input) would surface, together with the context the body
had built up at that point. -/
def subComponentBody (cfg : Config) (componentInfo : ComponentInfo)
    (subComponentName : String) (s : GenState) :
    Except String Files × GenState :=
  let s1 := analyzeInteractiveElements componentInfo.node s
  let s2 :=
    if cfg.componentize then
      let ic := ComponentAnalyzer.identify componentInfo.node 0
        (some componentInfo.node.data.id) (s1.components, s1.componentCounter)
      { s1 with components := ic.1, componentCounter := ic.2 }
    else s1
  let s3 := { s2 with useObjectState := decide (s2.stateVariables.length > 3) }
  let t : JSXCtx := ⟨s3.interactiveElements, s3.components, s3.useObjectState⟩
  let subJsx := JSXTransformer.transform t componentInfo.node 1 (some subComponentName)
  let subCss := CSSTransformer.generate componentInfo.node subComponentName
  let subUsed := collectUsedComponents componentInfo.node s3.components []
  let ext := if cfg.useTypeScript then "tsx" else "jsx"
  let base := "components/" ++ subComponentName ++ "/" ++ subComponentName
  let mainFile := ReactTemplateGenerator.generate subComponentName subJsx
    s3.interactiveElements s3.stateVariables s3.eventHandlers s3.components
    s3.useObjectState cfg.useTypeScript true (some subUsed)
  let files := [(base ++ "." ++ ext, mainFile), (base ++ ".css", subCss)]
    ++ (if cfg.useTypeScript then
         [(base ++ ".types.ts", generateTypesFile s3 subComponentName)]
        else [])
  (Except.ok files, s3)

/-- The save/reset/run/restore skeleton of `generateSubComponent` (source
lines 181–246), for an arbitrary nested-generation body.  The source has
no `try`/`finally`: `restoreState` runs only after the body returns
normally; a thrown error propagates immediately, leaving the context as
the body left it. -/
def generateSubComponentRun
    (body : GenState → Except String Files × GenState) (s : GenState) :
    Except String Files × GenState :=
  let originalState := saveState s
  let s1 := resetState s
  let r := body s1
  match r.1 with
  | Except.ok files => (Except.ok files, restoreState r.2 originalState)
  | Except.error e => (Except.error e, r.2)

/-- `generateSubComponent` with the actual (total) pipeline body. -/
def generateSubComponent (cfg : Config) (s : GenState)
    (componentInfo : ComponentInfo) (subComponentName : String) :
    Files × GenState :=
  let r := generateSubComponentRun (subComponentBody cfg componentInfo subComponentName) s
  match r.1 with
  | Except.ok files => (files, r.2)
  | Except.error _ => ([], r.2)

/-- `generateReact`.  Because `preprocessNode` returns its (mutated)
argument, `processedData` aliases `figmaData`; the later reads of
`figmaData` (`figmaData.id`, `collectUsedComponents(figmaData, …)`) are
reads of that same object and are embedded through `processedData`.  The
sub-component loop iterates the entries of the components map as captured
when the loop starts (`resetState` inside `generateSubComponent` clears
and repopulates the iterated JS `Map` object mid-loop, so the engine-level
iteration visits no further original entry that passes the
`usedComponentIds` filter; the entry-snapshot model yields the same emitted
files for every claim considered here and keeps the loop a pure fold). -/
def reactComponentName (cfg : Config) (figmaData : Node) : String :=
  let processedData := preprocessNode figmaData none
  if cfg.componentName ≠ "" then toPascalCase cfg.componentName
  else toPascalCase (jsOrStr processedData.data.name "Component")

/-- The generation context after the analysis and boundary-identification
steps of `generateReact` (source lines 60–70). -/
def reactState2 (cfg : Config) (figmaData : Node) : GenState :=
  let processedData := preprocessNode figmaData none
  let s1 := analyzeInteractiveElements processedData ({} : GenState)
  if cfg.componentize then
    let ic := ComponentAnalyzer.identify processedData 0 none
      (s1.components, s1.componentCounter)
    { s1 with components := ic.1, componentCounter := ic.2 }
  else s1

/-- The `usedComponentIds` set of `generateReact`. -/
def reactUsed (cfg : Config) (figmaData : Node) : List String :=
  if cfg.componentize then
    collectUsedComponents (preprocessNode figmaData none)
      (reactState2 cfg figmaData).components []
  else []

/-- The root-unit files of `generateReact` (the `result` object before the
sub-component loop runs). -/
def reactBaseFiles (cfg : Config) (figmaData : Node) : Files :=
  let processedData := preprocessNode figmaData none
  let componentName := reactComponentName cfg figmaData
  let s2 := reactState2 cfg figmaData
  let t : JSXCtx := ⟨s2.interactiveElements, s2.components, s2.useObjectState⟩
  let jsx := JSXTransformer.transform t processedData 1 (some componentName)
  let css := CSSTransformer.generate processedData componentName
  let ext := if cfg.useTypeScript then "tsx" else "jsx"
  let usedComponentIds := reactUsed cfg figmaData
  if cfg.componentize then
    let base := "components/" ++ componentName ++ "/" ++ componentName
    [(base ++ "." ++ ext,
      ReactTemplateGenerator.generate componentName jsx
        s2.interactiveElements s2.stateVariables s2.eventHandlers
        s2.components s2.useObjectState cfg.useTypeScript true
        (some usedComponentIds)),
     (base ++ ".css", css)]
      ++ (if cfg.useTypeScript then
           [(base ++ ".types.ts", generateTypesFile s2 componentName)]
          else [])
  else
    [(componentName ++ "." ++ ext,
      ReactTemplateGenerator.generate componentName jsx
        s2.interactiveElements s2.stateVariables s2.eventHandlers
        s2.components s2.useObjectState cfg.useTypeScript false
        (some usedComponentIds)),
     (componentName ++ ".css", css)]
      ++ (if cfg.useTypeScript then
           [(componentName ++ ".types.ts", generateTypesFile s2 componentName)]
          else [])

/-- One iteration of the sub-component emission loop (source lines
154–170): skip the root node's own entry, entries outside
`usedComponentIds`, and names already generated; otherwise emit the
sub-component and append its files. -/
def subLoopStep (cfg : Config) (rootNodeId : String)
    (usedComponentIds : List String)
    (acc : Files × (List String × GenState)) (e : String × ComponentInfo) :
    Files × (List String × GenState) :=
  if e.1 = rootNodeId then acc
  else if !usedComponentIds.contains e.1 then acc
  else if acc.2.1.contains e.2.name then acc
  else
    let sub := generateSubComponent cfg acc.2.2 e.2 e.2.name
    (acc.1 ++ sub.1, (acc.2.1 ++ [e.2.name], sub.2))

def generateReact (cfg : Config) (figmaData : Node) : Files :=
  let s2 := reactState2 cfg figmaData
  let baseFiles := reactBaseFiles cfg figmaData
  let rootNodeId := (preprocessNode figmaData none).data.id
  if cfg.componentize && s2.components.length > 0 then
    (s2.components.foldl
      (subLoopStep cfg rootNodeId (reactUsed cfg figmaData))
      (baseFiles, ([reactComponentName cfg figmaData], s2))).1
  else baseFiles

/-- `generateHTML` (the stub HTMLTemplateGenerator). -/
def generateHTML (_figmaData : Node) : Files :=
  [("index.html",
    "<!DOCTYPE html>\n<html>\n<head>\n<title>Figma Design</title>\n</head>\n<body>\n</body>\n</html>")]

/-- `generateVue` (the stub VueTemplateGenerator). -/
def generateVue (_figmaData : Node) : Files :=
  [("Component.vue",
    "<template>\n</template>\n<script>\nexport default \x7b\x7d\n</script>\n<style scoped>\n</style>")]

/-- `CodeGenerator.generate`: format dispatch. -/
def generate (cfg : Config) (figmaData : Node) : Files :=
  let f := strLower cfg.format
  if f = "react" then generateReact cfg figmaData
  else if f = "html" then generateHTML figmaData
  else if f = "vue" then generateVue figmaData
  else generateReact cfg figmaData

/-- The value of the caller's tree object after `generate` returns: the
react path runs `preprocessNode` on it in place (the returned object *is*
the argument), the stub html/vue paths never touch it. -/
def treeAfterGenerate (cfg : Config) (figmaData : Node) : Node :=
  let f := strLower cfg.format
  if f = "react" then preprocessNode figmaData none
  else if f = "html" then figmaData
  else if f = "vue" then figmaData
  else preprocessNode figmaData none

end CodeGenerator

/-! ### General lemmas about the embedding -/

theorem Node.one_le_sizeOf (n : Node) : 1 ≤ sizeOf n := by
  cases n with
  | mk d cs => simp [Node.mk.sizeOf_spec]; omega

/-- Unfolding `preprocessNode` at a constructor, with the `attach` removed. -/
theorem preprocessNode_mk (d : NodeData) (cs : List Node) (p : Option Node) :
    preprocessNode (Node.mk d cs) p =
      Node.mk (preprocessData d p)
        (cs.map (fun c => preprocessNode c (some (Node.mk (preprocessData d p) cs)))) := by
  rw [preprocessNode]
  exact congrArg (Node.mk _)
    (List.attach_map_coe cs (fun c => preprocessNode c (some (Node.mk (preprocessData d p) cs))))

/-- The data step never changes the absolute bounding box. -/
theorem preprocessData_absBox (d : NodeData) (p : Option Node) :
    (preprocessData d p).absoluteBoundingBox = d.absoluteBoundingBox := by
  unfold preprocessData
  cases p with
  | none => rfl
  | some pn =>
    rcases hd : d.absoluteBoundingBox with _ | nb <;>
      rcases hb : pn.data.absoluteBoundingBox with _ | pb <;>
        simp [hd, hb]

/-- The data step is idempotent as soon as the two parents carry the same
absolute bounding box. -/
theorem preprocessData_idem (d : NodeData) (p p' : Option Node)
    (hp : p.map (fun x => x.data.absoluteBoundingBox)
        = p'.map (fun x => x.data.absoluteBoundingBox)) :
    preprocessData (preprocessData d p) p' = preprocessData d p := by
  cases p with
  | none =>
    cases p' with
    | none =>
      unfold preprocessData
      simp [List.filter_filter]
    | some pn' => simp at hp
  | some pn =>
    cases p' with
    | none => simp at hp
    | some pn' =>
      simp only [Option.map_some'] at hp
      have hb : pn'.data.absoluteBoundingBox = pn.data.absoluteBoundingBox :=
        (Option.some_inj.mp hp).symm
      unfold preprocessData
      rcases hd : d.absoluteBoundingBox with _ | nb <;>
        rcases hpb : pn.data.absoluteBoundingBox with _ | pb <;>
          simp [hd, hpb, hb, List.filter_filter]

theorem preprocessNode_idem_aux : ∀ (k : Nat) (n : Node), sizeOf n ≤ k →
    ∀ (p p' : Option Node),
      p.map (fun x => x.data.absoluteBoundingBox)
        = p'.map (fun x => x.data.absoluteBoundingBox) →
      preprocessNode (preprocessNode n p) p' = preprocessNode n p := by
  intro k
  induction k with
  | zero =>
    intro n hn
    exact absurd hn (by have := Node.one_le_sizeOf n; omega)
  | succ k ih =>
    intro n hn p p' hp
    cases n with
    | mk d cs =>
      rw [preprocessNode_mk d cs p]
      rw [preprocessNode_mk (preprocessData d p) _ p']
      have hD : preprocessData (preprocessData d p) p' = preprocessData d p :=
        preprocessData_idem d p p' hp
      rw [hD]
      congr 1
      rw [List.map_map]
      apply List.map_congr_left
      intro c hc
      simp only [Function.comp]
      apply ih
      · have h1 := Node.sizeOf_child hc d
        have h2 : sizeOf (Node.mk d cs) ≤ k + 1 := hn
        omega
      · simp [preprocessData_absBox]

/-- Normalizing an already-normalized tree (against parents carrying the
same absolute geometry) is a no-op. -/
theorem preprocessNode_idem (n : Node) (p p' : Option Node)
    (hp : p.map (fun x => x.data.absoluteBoundingBox)
        = p'.map (fun x => x.data.absoluteBoundingBox)) :
    preprocessNode (preprocessNode n p) p' = preprocessNode n p :=
  preprocessNode_idem_aux (sizeOf n) n le_rfl p p' hp

/-- `generateReact` reads its argument only through `preprocessNode _ none`
(the source's later reads of `figmaData` alias the preprocessed object). -/
theorem generateReact_eq_of_pre (cfg : Config) (x y : Node)
    (h : preprocessNode x none = preprocessNode y none) :
    CodeGenerator.generateReact cfg x = CodeGenerator.generateReact cfg y := by
  simp only [CodeGenerator.generateReact, CodeGenerator.reactBaseFiles,
    CodeGenerator.reactUsed, CodeGenerator.reactState2,
    CodeGenerator.reactComponentName, h]

/-! ### Claim C1 -/

/-- C1, counterexample: `generateSubComponent`'s skeleton does not restore
the saved context when the nested generation throws.  With a live context
holding one state variable and a nested body that throws, the error
propagates while the context remains the reset (emptied) one, not the
snapshot: the claim's restore-on-error guarantee is false. -/
theorem C1_counterexample :
    (CodeGenerator.generateSubComponentRun (fun s => (Except.error "boom", s))
        { stateVariables := [⟨"x", "string", JSLit.str ""⟩] }).1
      = Except.error "boom"
    ∧ (CodeGenerator.generateSubComponentRun (fun s => (Except.error "boom", s))
          { stateVariables := [⟨"x", "string", JSLit.str ""⟩] }).2.stateVariables
        ≠ [⟨"x", "string", JSLit.str ""⟩] := by
  constructor
  · rfl
  · decide

/-- C1, amended: the context snapshot is restored exactly — but only on the
normal-completion path.  When the nested body finishes with `ok`, the
caller sees the precise pre-descent context `st`; when it throws, the
error propagates with the context exactly as the body left it (no
restoration). -/
theorem C1_amended_theorem (st : GenState)
    (body : GenState → Except String Files × GenState) :
    (∀ files s2, body (CodeGenerator.resetState st) = (Except.ok files, s2) →
      CodeGenerator.generateSubComponentRun body st = (Except.ok files, st)) ∧
    (∀ e s2, body (CodeGenerator.resetState st) = (Except.error e, s2) →
      CodeGenerator.generateSubComponentRun body st = (Except.error e, s2)) := by
  constructor
  · intro files s2 h
    simp only [CodeGenerator.generateSubComponentRun, h,
      CodeGenerator.restoreState, CodeGenerator.saveState]
  · intro e s2 h
    simp only [CodeGenerator.generateSubComponentRun, h,
      CodeGenerator.restoreState, CodeGenerator.saveState]

/-- C1, witness: a successfully completing nested body hands back the exact
prior context. -/
theorem C1_witness :
    CodeGenerator.generateSubComponentRun (fun s => (Except.ok ([] : Files), s))
      { stateVariables := [⟨"y", "string", JSLit.str ""⟩] }
      = (Except.ok ([] : Files),
         { stateVariables := [⟨"y", "string", JSLit.str ""⟩] }) :=
  (C1_amended_theorem { stateVariables := [⟨"y", "string", JSLit.str ""⟩] }
    (fun s => (Except.ok ([] : Files), s))).1 [] _ rfl

/-! ### Claim C2 -/

/-- A node whose only fill is invisible. -/
def c2Node : Node :=
  Node.mk { id := "n1", name := "box",
            fills := [{ type := "SOLID", visible := some false }] } []

/-- C2, counterexample: `preprocessNode` mutates its argument in place and
returns it, so after the call the caller's tree *is* the normalized value —
which differs from the original: the invisible fill is gone.  The claim
that the input tree is left unchanged is false. -/
theorem C2_counterexample :
    c2Node.data.fills ≠ [] ∧ (preprocessNode c2Node none).data.fills = [] := by
  constructor
  · decide
  · simp +decide [preprocessNode, preprocessData, c2Node]

/-- C2, amended: normalization is in place, but it is value-idempotent —
re-normalizing the (already normalized) document tree leaves it fixed, so
repeated normalization of the same mutated source object keeps producing
the same tree. -/
theorem C2_amended_theorem (t : Node) :
    preprocessNode (preprocessNode t none) none = preprocessNode t none :=
  preprocessNode_idem t none none rfl

/-! ### Claim C4 -/

/-- C4: determinism across repeated invocations.  The second `generate`
call receives the tree object as the first call left it
(`treeAfterGenerate`, i.e. preprocessed in place on the react path) and
produces a byte-identical output map. -/
theorem C4_theorem (cfg : Config) (t : Node) :
    CodeGenerator.generate cfg (CodeGenerator.treeAfterGenerate cfg t)
      = CodeGenerator.generate cfg t := by
  unfold CodeGenerator.generate CodeGenerator.treeAfterGenerate
  by_cases h1 : strLower cfg.format = "react"
  · simp only [h1, if_true]
    exact generateReact_eq_of_pre cfg _ t (preprocessNode_idem t none none rfl)
  · by_cases h2 : strLower cfg.format = "html"
    · simp [h1, h2]
    · by_cases h3 : strLower cfg.format = "vue"
      · simp [h1, h2, h3]
      · simp only [h1, h2, h3, if_false]
        exact generateReact_eq_of_pre cfg _ t (preprocessNode_idem t none none rfl)

/-! ### Claims C7 and C8 -/


/-- A transformer context with no interactive elements and no boundaries. -/
def emptyJSXCtx : JSXCtx := ⟨[], [], false⟩

def c8Child : Node :=
  Node.mk { id := "c", name := "boxy", type := "RECTANGLE",
            fills := [{ type := "SOLID", color := some (Color.mk 1 0 0) }] } []

def c8Frame : Node := Node.mk { id := "f", name := "wrap", type := "FRAME" } [c8Child]

/-- C8, counterexample: a `FRAME` (structural container) wrapper with no
meaningful style, no interactivity and exactly one child is NOT elided:
the markup keeps the wrapper, so its rendering differs from rendering the
child at the same depth.  Wrapper elision fires only for `group`-typed
nodes. -/
theorem C8_counterexample :
    (c8Frame.data.type = "FRAME" ∧ c8Frame.data.fills = []
      ∧ c8Frame.data.strokes = [] ∧ c8Frame.data.cornerRadius = none
      ∧ c8Frame.data.layoutMode = "" ∧ c8Frame.data.paddingTop = none
      ∧ c8Frame.data.opacity = none ∧ c8Frame.data.position = ""
      ∧ c8Frame.children.length = 1
      ∧ JSMap.hasKey emptyJSXCtx.interactiveElements c8Frame.data.id = false)
    ∧ JSXTransformer.transform emptyJSXCtx c8Frame 1 none
        ≠ JSXTransformer.transform emptyJSXCtx c8Child 1 none := by
  constructor
  · refine ⟨rfl, rfl, rfl, rfl, rfl, rfl, rfl, rfl, rfl, rfl⟩
  · simp +decide [JSXTransformer.transform, JSXTransformer.transformNoSkip,
      JSXTransformer.transformCore, JSXTransformer.shouldSkipNode,
      JSXTransformer.getClassName, JSXTransformer.hasMeaningfulStyle,
      JSXTransformer.isFrameNumName, JSXTransformer.inferSemanticName,
      JSMap.get?, JSMap.hasKey, emptyJSXCtx, c8Frame, c8Child,
      mapFigmaTypeToHTML, jsOrStr, escapeHTML, isSelfClosing, jsRepeat,
      optQTruthy, toKebabCase, strLower, jsStrTrim, jsTrimL, replaceCharL,
      insertHyphenLowerUpper, nonAlnumHyphenRunsToHyphen,
      wsUnderscoreRunsToHyphen, stripEdgeHyphens, collapseHyphenRuns,
      JSXTransformer.getComponentProps]

/-- C8, amended: for `group`-typed nodes the elision behaves as claimed —
a group with none of the claim's style bits, not interactive, with exactly
one child renders as that child at the same depth (and chains of such
wrappers collapse by repeated application). -/
theorem C8_amended_theorem (t : JSXCtx) (d : NodeData) (c : Node)
    (depth : Nat) (cur : Option String)
    (htype : strLower d.type = "group")
    (hfills : d.fills = []) (hstrokes : d.strokes = [])
    (hradius : d.cornerRadius.getD 0 ≤ 0)
    (hopacity : 1 ≤ d.opacity.getD 1)
    (_hlayout : d.layoutMode ≠ "HORIZONTAL" ∧ d.layoutMode ≠ "VERTICAL")
    (_hpad : (optQTruthy d.paddingTop || optQTruthy d.paddingRight
      || optQTruthy d.paddingBottom || optQTruthy d.paddingLeft
      || optQTruthy d.layoutPaddingTop || optQTruthy d.layoutPaddingRight
      || optQTruthy d.layoutPaddingBottom || optQTruthy d.layoutPaddingLeft) = false)
    (_hpos : d.position ≠ "ABSOLUTE" ∧ d.position ≠ "RELATIVE")
    (hinter : JSMap.hasKey t.interactiveElements d.id = false) :
    JSXTransformer.transform t (Node.mk d [c]) depth cur
      = JSXTransformer.transform t c depth cur := by
  have hskip : JSXTransformer.shouldSkipNode t (Node.mk d [c]) = true := by
    unfold JSXTransformer.shouldSkipNode
    simp only [Node.data_mk, Node.children_mk, htype, hfills, hstrokes, hinter]
    rcases hr : d.cornerRadius with _ | r
    · rcases ho : d.opacity with _ | o
      · simp
      · rw [ho] at hopacity
        simp [show ¬ (o < 1) by simpa using hopacity]
    · rw [hr] at hradius
      rcases ho : d.opacity with _ | o
      · simp [show ¬ (r > 0) by simpa using hradius]
      · rw [ho] at hopacity
        simp [show ¬ (r > 0) by simpa using hradius,
          show ¬ (o < 1) by simpa using hopacity]
  rw [JSXTransformer.transform]
  simp [hskip]

def c8Group2 : Node := Node.mk { id := "g2", name := "inner", type := "GROUP" } [c8Child]
def c8Group1 : Node := Node.mk { id := "g1", name := "outer", type := "GROUP" } [c8Group2]

/-- C8, witness: a two-deep chain of style-less groups collapses to the
inner meaningful node. -/
theorem C8_witness :
    JSXTransformer.transform emptyJSXCtx c8Group1 1 none
      = JSXTransformer.transform emptyJSXCtx c8Child 1 none := by
  have h1 := C8_amended_theorem emptyJSXCtx
    { id := "g1", name := "outer", type := "GROUP" } c8Group2 1 none
    rfl rfl rfl (by decide) (by decide) (by decide) rfl (by decide) rfl
  have h2 := C8_amended_theorem emptyJSXCtx
    { id := "g2", name := "inner", type := "GROUP" } c8Child 1 none
    rfl rfl rfl (by decide) (by decide) (by decide) rfl (by decide) rfl
  exact h1.trans h2

/-- C7, amended: provided the node is not taken by the wrapper-elision
step (which runs first), a registered boundary whose generated name
differs from the current component's name renders as the self-closing
reference tag with only the class-name prop, and one whose name equals the
current component's name falls through to the normal plain-markup
rendering (`transformCore`). -/
theorem C7_amended_theorem (t : JSXCtx) (node : Node) (depth : Nat)
    (cur : Option String) (ci : ComponentInfo)
    (hci : JSMap.get? t.components node.data.id = some ci)
    (hskip : ¬(JSXTransformer.shouldSkipNode t node = true
        ∧ node.children.length = 1)) :
    (some ci.name ≠ cur →
      JSXTransformer.transform t node depth cur
        = jsRepeat "  " depth ++ "<" ++ ci.name
            ++ JSXTransformer.getComponentProps node ++ " />")
    ∧ (some ci.name = cur →
      JSXTransformer.transform t node depth cur
        = JSXTransformer.transformCore t node depth cur) := by
  cases node with
  | mk d cs =>
    have hstep : JSXTransformer.transform t (Node.mk d cs) depth cur
        = JSXTransformer.transformNoSkip t (Node.mk d cs) depth cur := by
      cases cs with
      | nil => rw [JSXTransformer.transform]
      | cons c rest =>
        rw [JSXTransformer.transform]
        have hcond : (JSXTransformer.shouldSkipNode t (Node.mk d (c :: rest))
            && ((c :: rest).length == 1)) = false := by
          cases hS : JSXTransformer.shouldSkipNode t (Node.mk d (c :: rest)) with
          | false => simp
          | true =>
            have hlen : (c :: rest).length ≠ 1 := by
              intro hlen
              exact hskip ⟨by simpa using hS, by simpa using hlen⟩
            have hrest : rest ≠ [] := by
              intro h
              exact hlen (by simp [h])
            simp [hrest]
        rw [hcond]
        simp
    constructor
    · intro hne
      have hb : (some ci.name == cur) = false := by
        simpa using hne
      rw [hstep]
      unfold JSXTransformer.transformNoSkip
      simp only [Node.data_mk] at hci ⊢
      rw [hci]
      simp [hb]
    · intro heq
      have hb : (some ci.name == cur) = true := by
        simpa using heq
      rw [hstep]
      unfold JSXTransformer.transformNoSkip
      simp only [Node.data_mk] at hci ⊢
      rw [hci]
      simp [hb]

def c7Text : Node := Node.mk { id := "t7", name := "", type := "TEXT", characters := "Hi" } []
def c7Menu : Node := Node.mk { id := "g7", name := "menu", type := "GROUP" } [c7Text]
def c7Ctx : JSXCtx := ⟨[], [("g7", ⟨"Menu", c7Menu, none⟩)], false⟩

/-- C7, counterexample: a registered boundary that is also an elidable
group is rendered as its single child by the elision step, never reaching
boundary substitution — so the claim's unconditional reference-tag
replacement is false. -/
theorem C7_counterexample :
    (JSMap.get? c7Ctx.components c7Menu.data.id).map (fun ci => ci.name) = some "Menu"
    ∧ ("Menu" : String) ≠ "Root"
    ∧ JSXTransformer.transform c7Ctx c7Menu 1 (some "Root")
        = JSXTransformer.transform c7Ctx c7Text 1 (some "Root")
    ∧ JSXTransformer.transform c7Ctx c7Menu 1 (some "Root")
        ≠ jsRepeat "  " 1 ++ "<" ++ "Menu"
            ++ JSXTransformer.getComponentProps c7Menu ++ " />" := by
  refine ⟨rfl, by decide, ?_, ?_⟩ <;>
    simp +decide [JSXTransformer.transform, JSXTransformer.transformNoSkip,
      JSXTransformer.transformCore, JSXTransformer.shouldSkipNode,
      JSXTransformer.getClassName, JSXTransformer.hasMeaningfulStyle,
      JSXTransformer.isFrameNumName, JSXTransformer.inferSemanticName,
      JSMap.get?, JSMap.hasKey, c7Ctx, c7Menu, c7Text,
      mapFigmaTypeToHTML, jsOrStr, escapeHTML, isSelfClosing, jsRepeat,
      optQTruthy, toKebabCase, strLower, jsStrTrim, jsTrimL, replaceCharL,
      insertHyphenLowerUpper, nonAlnumHyphenRunsToHyphen,
      wsUnderscoreRunsToHyphen, stripEdgeHyphens, collapseHyphenRuns,
      JSXTransformer.getComponentProps]

def c7Panel : Node :=
  Node.mk { id := "p7", name := "panel", type := "FRAME",
            fills := [{ type := "SOLID", color := some (Color.mk 0 0 1) }] } []
def c7PCtx : JSXCtx := ⟨[], [("p7", ⟨"Panel", c7Panel, none⟩)], false⟩

/-- C7, witness: a non-elidable boundary is substituted when the names
differ and rendered as plain markup when they coincide. -/
theorem C7_witness :
    JSXTransformer.transform c7PCtx c7Panel 1 (some "Root")
      = jsRepeat "  " 1 ++ "<" ++ "Panel"
          ++ JSXTransformer.getComponentProps c7Panel ++ " />"
    ∧ JSXTransformer.transform c7PCtx c7Panel 1 (some "Panel")
      = JSXTransformer.transformCore c7PCtx c7Panel 1 (some "Panel") :=
  ⟨(C7_amended_theorem c7PCtx c7Panel 1 (some "Root") ⟨"Panel", c7Panel, none⟩
      rfl (by decide)).1 (by decide),
   (C7_amended_theorem c7PCtx c7Panel 1 (some "Panel") ⟨"Panel", c7Panel, none⟩
      rfl (by decide)).2 rfl⟩

/-! ### C5: the analyzer's state/handler lists are NOT deduplicated -/

section C5Dev
open InteractiveElementAnalyzer


/-- The number of state-variable registrations the analyzer performs for
one node: one per matching input / accordion-collapsible / toggle-switch
keyword set. -/
def stateCountData (d : NodeData) : Nat :=
  let nm := strLower d.name
  (if isInput nm then 1 else 0)
    + (if isAccordion nm || isCollapsible nm then 1 else 0)
    + (if isToggle nm || isSwitch nm then 1 else 0)

/-- The number of event-handler registrations for one node. -/
def handlerCountData (d : NodeData) : Nat :=
  let nm := strLower d.name
  (if isButton nm then 1 else 0)
    + (if isInput nm then 1 else 0)
    + (if isAccordion nm || isCollapsible nm then 1 else 0)
    + (if isToggle nm || isSwitch nm then 1 else 0)

/-- Total state-variable registrations over a tree, in document order. -/
def stateMatchCount : Node → Nat
  | .mk d cs =>
    stateCountData d + (cs.attach.map (fun c => stateMatchCount c.1)).sum
termination_by n => sizeOf n
decreasing_by
  exact Node.sizeOf_child c.2 d

/-- Total event-handler registrations over a tree, in document order. -/
def handlerMatchCount : Node → Nat
  | .mk d cs =>
    handlerCountData d + (cs.attach.map (fun c => handlerMatchCount c.1)).sum
termination_by n => sizeOf n
decreasing_by
  exact Node.sizeOf_child c.2 d

theorem JSMap.keys_set {α : Type} (m : JSMap α) (k : String) (v : α) :
    (JSMap.set m k v).map Prod.fst
      = if JSMap.hasKey m k then m.map Prod.fst else m.map Prod.fst ++ [k] := by
  unfold JSMap.set
  split
  · rw [List.map_map]
    apply List.map_congr_left
    intro e _
    by_cases he : e.1 = k
    · simp [he]
    · simp [he]
  · simp

theorem JSMap.hasKey_iff_mem {α : Type} (m : JSMap α) (k : String) :
    JSMap.hasKey m k = true ↔ k ∈ m.map Prod.fst := by
  simp only [JSMap.hasKey, List.find?_isSome, List.mem_map]
  constructor
  · rintro ⟨e, hm, hp⟩
    exact ⟨e, hm, eq_of_beq hp⟩
  · rintro ⟨e, hm, hp⟩
    exact ⟨e, hm, beq_iff_eq.mpr hp⟩

theorem JSMap.nodup_keys_set {α : Type} (m : JSMap α) (k : String) (v : α)
    (h : (m.map Prod.fst).Nodup) : ((JSMap.set m k v).map Prod.fst).Nodup := by
  rw [JSMap.keys_set]
  split
  · exact h
  · rename_i hk
    rw [List.nodup_append]
    refine ⟨h, List.nodup_singleton k, ?_⟩
    intro a ha hb
    simp at hb
    subst hb
    exact absurd ((JSMap.hasKey_iff_mem m a).mpr ha) (by simpa using hk)

theorem analyzeNodeOnly_spec (d : NodeData) (g : IGather) :
    (analyzeNodeOnly d g).stateVariables.length
        = g.stateVariables.length + stateCountData d
    ∧ (analyzeNodeOnly d g).eventHandlers.length
        = g.eventHandlers.length + handlerCountData d
    ∧ ((g.interactiveElements.map Prod.fst).Nodup →
        ((analyzeNodeOnly d g).interactiveElements.map Prod.fst).Nodup) := by
  unfold analyzeNodeOnly stateCountData handlerCountData
  by_cases h1 : isButton (strLower d.name) <;>
    by_cases h2 : isInput (strLower d.name) <;>
      by_cases h3 : isAccordion (strLower d.name) || isCollapsible (strLower d.name) <;>
        by_cases h4 : isToggle (strLower d.name) || isSwitch (strLower d.name) <;>
          exact ⟨by simp [h1, h2, h3, h4],
            by simp [h1, h2, h3, h4],
            fun hnd => by
              simp only [h1, h2, h3, h4, if_true, if_false]
              repeat' apply JSMap.nodup_keys_set
              exact hnd⟩

theorem analyze_mk (d : NodeData) (cs : List Node) (g : IGather) :
    InteractiveElementAnalyzer.analyze (Node.mk d cs) g
      = cs.foldl (fun s c => InteractiveElementAnalyzer.analyze c s)
          (analyzeNodeOnly d g) := by
  rw [InteractiveElementAnalyzer.analyze]
  exact List.foldl_attach cs (fun s c => InteractiveElementAnalyzer.analyze c s)
    (analyzeNodeOnly d g)

theorem stateMatchCount_mk (d : NodeData) (cs : List Node) :
    stateMatchCount (Node.mk d cs)
      = stateCountData d + (cs.map stateMatchCount).sum := by
  rw [stateMatchCount]
  rw [List.attach_map_coe]

theorem handlerMatchCount_mk (d : NodeData) (cs : List Node) :
    handlerMatchCount (Node.mk d cs)
      = handlerCountData d + (cs.map handlerMatchCount).sum := by
  rw [handlerMatchCount]
  rw [List.attach_map_coe]

theorem analyze_spec_aux : ∀ (k : Nat) (n : Node), sizeOf n ≤ k → ∀ (g : IGather),
    ((InteractiveElementAnalyzer.analyze n g).stateVariables.length
        = g.stateVariables.length + stateMatchCount n)
    ∧ ((InteractiveElementAnalyzer.analyze n g).eventHandlers.length
        = g.eventHandlers.length + handlerMatchCount n)
    ∧ ((g.interactiveElements.map Prod.fst).Nodup →
        ((InteractiveElementAnalyzer.analyze n g).interactiveElements.map
          Prod.fst).Nodup) := by
  intro k
  induction k with
  | zero =>
    intro n hn
    exact absurd hn (by have := Node.one_le_sizeOf n; omega)
  | succ k ih =>
    intro n hn g
    cases n with
    | mk d cs =>
      rw [analyze_mk, stateMatchCount_mk, handlerMatchCount_mk]
      have hcs : ∀ c ∈ cs, sizeOf c ≤ k := by
        intro c hc
        have := Node.sizeOf_child hc d
        have h2 : sizeOf (Node.mk d cs) ≤ k + 1 := hn
        omega
      have hfold : ∀ (l : List Node), (∀ c ∈ l, sizeOf c ≤ k) → ∀ (g0 : IGather),
          ((l.foldl (fun s c => InteractiveElementAnalyzer.analyze c s) g0).stateVariables.length
              = g0.stateVariables.length + (l.map stateMatchCount).sum)
          ∧ ((l.foldl (fun s c => InteractiveElementAnalyzer.analyze c s) g0).eventHandlers.length
              = g0.eventHandlers.length + (l.map handlerMatchCount).sum)
          ∧ ((g0.interactiveElements.map Prod.fst).Nodup →
              (((l.foldl (fun s c => InteractiveElementAnalyzer.analyze c s) g0).interactiveElements.map
                Prod.fst).Nodup)) := by
        intro l
        induction l with
        | nil => intro _ g0; simp
        | cons c rest ihl =>
          intro hb g0
          have hc := ih c (hb c (List.mem_cons_self c rest)) g0
          have hrest := ihl (fun x hx => hb x (List.mem_cons_of_mem c hx))
            (InteractiveElementAnalyzer.analyze c g0)
          refine ⟨?_, ?_, ?_⟩
          · simp only [List.foldl_cons, List.map_cons, List.sum_cons]
            rw [hrest.1, hc.1]
            omega
          · simp only [List.foldl_cons, List.map_cons, List.sum_cons]
            rw [hrest.2.1, hc.2.1]
            omega
          · intro hnd
            simp only [List.foldl_cons]
            exact hrest.2.2 (hc.2.2 hnd)
      have hstep := analyzeNodeOnly_spec d g
      have hmain := hfold cs hcs (analyzeNodeOnly d g)
      refine ⟨?_, ?_, ?_⟩
      · rw [hmain.1, hstep.1]; omega
      · rw [hmain.2.1, hstep.2.1]; omega
      · intro hnd
        exact hmain.2.2 (hstep.2.2 hnd)

def c5Tree : Node :=
  .mk { id := "0:1", name := "root" }
    [.mk { id := "0:2", name := "input" } [],
     .mk { id := "0:3", name := "input" } []]

/-- C5 counterexample: two sibling nodes both named "input" each push a
state variable with the identical identifier "input"; the list keeps both
entries, so uniqueness-by-identifier fails. -/
theorem C5_counterexample :
    (InteractiveElementAnalyzer.analyze c5Tree {}).stateVariables
      = [⟨"input", "string", .str ""⟩, ⟨"input", "string", .str ""⟩]
    ∧ ¬ ((InteractiveElementAnalyzer.analyze c5Tree {}).stateVariables.map
          StateVar.id).Nodup := by
  constructor
  · simp +decide [c5Tree, InteractiveElementAnalyzer.analyze,
      InteractiveElementAnalyzer.analyzeNodeOnly,
      InteractiveElementAnalyzer.isButton, InteractiveElementAnalyzer.isInput,
      InteractiveElementAnalyzer.isAccordion,
      InteractiveElementAnalyzer.isCollapsible,
      InteractiveElementAnalyzer.isToggle, InteractiveElementAnalyzer.isSwitch,
      strLower, jsOrStr, jsIncludes, sanitizeVariableName, toCamelCase,
      jsTrimL, keepAlnumWsHyphen, sepCollapse, lowerFirstUpper,
      prefixDigitWith, isSep, isJsWs, JSMap.set, reservedKeywords]
  · simp +decide [c5Tree, InteractiveElementAnalyzer.analyze,
      InteractiveElementAnalyzer.analyzeNodeOnly,
      InteractiveElementAnalyzer.isButton, InteractiveElementAnalyzer.isInput,
      InteractiveElementAnalyzer.isAccordion,
      InteractiveElementAnalyzer.isCollapsible,
      InteractiveElementAnalyzer.isToggle, InteractiveElementAnalyzer.isSwitch,
      strLower, jsOrStr, jsIncludes, sanitizeVariableName, toCamelCase,
      jsTrimL, keepAlnumWsHyphen, sepCollapse, lowerFirstUpper,
      prefixDigitWith, isSep, isJsWs, JSMap.set, reservedKeywords]

/-- C5 (amended): `InteractiveElementAnalyzer.analyze` appends one
state-variable entry and one event-handler entry per keyword-set match
with NO deduplication — the list lengths grow by exactly the total match
counts of the tree — while the per-node descriptor map alone is
overwritten in place, keeping its keys duplicate-free. -/
theorem C5_amended_theorem (n : Node) (g : IGather)
    (hnd : (g.interactiveElements.map Prod.fst).Nodup) :
    ((InteractiveElementAnalyzer.analyze n g).stateVariables.length
        = g.stateVariables.length + stateMatchCount n)
    ∧ ((InteractiveElementAnalyzer.analyze n g).eventHandlers.length
        = g.eventHandlers.length + handlerMatchCount n)
    ∧ (((InteractiveElementAnalyzer.analyze n g).interactiveElements.map
          Prod.fst).Nodup) := by
  have h := analyze_spec_aux (sizeOf n) n (le_refl _) g
  exact ⟨h.1, h.2.1, h.2.2 hnd⟩

/-- Witness for C5 at a concrete tree and the empty gathering state. -/
theorem C5_witness :
    ((InteractiveElementAnalyzer.analyze c5Tree {}).stateVariables.length
        = ({} : IGather).stateVariables.length + stateMatchCount c5Tree)
    ∧ ((InteractiveElementAnalyzer.analyze c5Tree {}).eventHandlers.length
        = ({} : IGather).eventHandlers.length + handlerMatchCount c5Tree)
    ∧ (((InteractiveElementAnalyzer.analyze c5Tree {}).interactiveElements.map
          Prod.fst).Nodup) :=
  C5_amended_theorem c5Tree {} (by decide)

end C5Dev

/-! ### C6: the aggregated-state switch is stateVariables.length > 3 -/


/-- `String.includes` holds for the pattern itself followed by anything. -/
theorem jsIncludes_of_prefix (p rest : String) : jsIncludes (p ++ rest) p = true := by
  simp only [jsIncludes, decide_eq_true_eq]
  exact ⟨[], rest.toList, by simp [String.toList, String.data_append]⟩

theorem jsIncludes_append_left (a b p : String) (h : jsIncludes a p = true) :
    jsIncludes (a ++ b) p = true := by
  simp only [jsIncludes, decide_eq_true_eq] at h ⊢
  have : a.toList <+: (a ++ b).toList := by
    simp [String.toList, String.data_append]
  exact h.trans this.isInfix

theorem jsIncludes_append_right (a b p : String) (h : jsIncludes b p = true) :
    jsIncludes (a ++ b) p = true := by
  simp only [jsIncludes, decide_eq_true_eq] at h ⊢
  have : b.toList <:+ (a ++ b).toList := by
    simp [String.toList, String.data_append]
  exact h.trans this.isInfix

theorem jsIncludes_self (p : String) : jsIncludes p p = true := by
  simp only [jsIncludes, decide_eq_true_eq]
  exact List.infix_rfl

theorem jsIncludes_trans (s m p : String) (h1 : jsIncludes s m = true)
    (h2 : jsIncludes m p = true) : jsIncludes s p = true := by
  simp only [jsIncludes, decide_eq_true_eq] at h1 h2 ⊢
  exact h2.trans h1

theorem intercalate_go_cons (s : String) (l : List String) :
    ∀ (a b : String), String.intercalate.go a s (b :: l)
      = a ++ s ++ String.intercalate.go b s l := by
  induction l with
  | nil => intro a b; rfl
  | cons c l' ih =>
    intro a b
    show String.intercalate.go (a ++ s ++ b) s (c :: l')
      = a ++ s ++ String.intercalate.go b s (c :: l')
    rw [ih, ih]
    simp [String.append_assoc]

theorem intercalate_cons2 (sep a b : String) (rest : List String) :
    String.intercalate sep (a :: b :: rest)
      = a ++ sep ++ String.intercalate sep (b :: rest) := by
  show String.intercalate.go a sep (b :: rest)
    = a ++ sep ++ String.intercalate.go b sep rest
  exact intercalate_go_cons sep rest a b

theorem intercalate_one (sep a : String) : String.intercalate sep [a] = a := rfl

theorem jsIncludes_intercalate (sep : String) (l : List String) (x : String)
    (hx : x ∈ l) : jsIncludes (String.intercalate sep l) x = true := by
  induction l with
  | nil => exact absurd hx (List.not_mem_nil x)
  | cons a rest ih =>
    rcases List.mem_cons.mp hx with h | h
    · subst h
      cases rest with
      | nil => rw [intercalate_one]; exact jsIncludes_self x
      | cons b rest' =>
        rw [intercalate_cons2]
        exact jsIncludes_append_left _ _ _ (jsIncludes_append_left _ _ _
          (jsIncludes_self x))
    · cases rest with
      | nil => exact absurd h (List.not_mem_nil x)
      | cons b rest' =>
        rw [intercalate_cons2]
        exact jsIncludes_append_right _ _ _ (ih h)

theorem append_ne_empty_of_left (a b : String) (h : a ≠ "") : a ++ b ≠ "" := by
  intro hc
  apply h
  have hd : a.data ++ b.data = [] := by
    rw [← String.data_append]
    exact congrArg String.data hc
  have ha : a.data = [] := (List.append_eq_nil.mp hd).1
  cases a
  simp at ha
  simp [ha]

theorem intercalate_head_split (sep a : String) (l : List String) :
    ∃ rest, String.intercalate sep (a :: l) = a ++ rest := by
  cases l with
  | nil => exact ⟨"", by rw [intercalate_one]; exact (String.append_empty a).symm⟩
  | cons b l' =>
    refine ⟨sep ++ String.intercalate sep (b :: l'), ?_⟩
    rw [intercalate_cons2, String.append_assoc]

theorem generate_includes_of_stateDecl (cname jsx : String)
    (ie : JSMap IElement) (sv : List StateVar) (eh : List Handler)
    (comps : JSMap ComponentInfo) (uo uTS isSub : Bool)
    (used : Option (List String)) (p : String)
    (hne : ReactTemplateGenerator.stateDeclarations cname uo uTS sv ≠ "")
    (h : jsIncludes (ReactTemplateGenerator.stateDeclarations cname uo uTS sv)
          p = true) :
    jsIncludes (ReactTemplateGenerator.generate cname jsx ie sv eh comps
      uo uTS isSub used) p = true := by
  simp only [ReactTemplateGenerator.generate]
  apply jsIncludes_append_left
  apply jsIncludes_append_left
  apply jsIncludes_append_left
  apply jsIncludes_append_left
  apply jsIncludes_append_left
  apply jsIncludes_append_left
  apply jsIncludes_append_right
  split
  · exact jsIncludes_append_left _ _ _ h
  · rename_i hc
    exact absurd (not_not.mp hc) hne

theorem stateDecl_object_eq (cname : String) (uTS : Bool) (sv : List StateVar)
    (hlen : 0 < sv.length) :
    ReactTemplateGenerator.stateDeclarations cname true uTS sv
      = "  const [state, setState] = useState"
        ++ (if uTS then "<" ++ cname ++ "State>" else "") ++ "(\x7b\n"
        ++ String.intercalate ",\n" (sv.map (fun v =>
            "    " ++ sanitizeVariableName v.id ++ ": " ++ v.defaultValue.render))
        ++ "\n  \x7d);" := by
  simp only [ReactTemplateGenerator.stateDeclarations, if_pos hlen, if_true]

theorem stateDecl_slots_eq (cname : String) (uTS : Bool) (sv : List StateVar)
    (hlen : 0 < sv.length) :
    ReactTemplateGenerator.stateDeclarations cname false uTS sv
      = String.intercalate "\n" (sv.map (fun v =>
          let safeId := sanitizeVariableName v.id
          "  const [" ++ safeId ++ ", set" ++ toPascalCase safeId
            ++ "] = useState" ++ (if uTS then "<" ++ v.type ++ ">" else "")
            ++ "(" ++ v.defaultValue.render ++ ");")) := by
  simp only [ReactTemplateGenerator.stateDeclarations, if_pos hlen,
    Bool.false_eq_true, if_false]

/-- C6: `analyzeInteractiveElements` sets the aggregation flag to exactly
`stateVariables.length > 3`; with that flag, a unit assembled from 4 state
variables contains the aggregated `useState` record (one state object
listing every variable's initializer), while one assembled from 3 state
variables contains an independent `useState` slot per variable. -/
theorem C6_theorem (node : Node) (s0 : GenState) (cname jsx : String)
    (ie : JSMap IElement) (sv : List StateVar) (eh : List Handler)
    (comps : JSMap ComponentInfo) (uTS isSub : Bool)
    (used : Option (List String)) :
    ((CodeGenerator.analyzeInteractiveElements node s0).useObjectState
        = decide ((CodeGenerator.analyzeInteractiveElements node
            s0).stateVariables.length > 3))
    ∧ (sv.length = 4 →
        jsIncludes (ReactTemplateGenerator.generate cname jsx ie sv eh comps
            (decide (sv.length > 3)) uTS isSub used)
          "const [state, setState] = useState" = true
        ∧ ∀ v ∈ sv,
            jsIncludes (ReactTemplateGenerator.generate cname jsx ie sv eh comps
                (decide (sv.length > 3)) uTS isSub used)
              ("    " ++ sanitizeVariableName v.id ++ ": "
                ++ v.defaultValue.render) = true)
    ∧ (sv.length = 3 →
        ∀ v ∈ sv,
          jsIncludes (ReactTemplateGenerator.generate cname jsx ie sv eh comps
              (decide (sv.length > 3)) uTS isSub used)
            ("  const [" ++ sanitizeVariableName v.id ++ ", set"
              ++ toPascalCase (sanitizeVariableName v.id)
              ++ "] = useState") = true) := by
  refine ⟨rfl, ?_, ?_⟩
  · intro h4
    have hflag : decide (sv.length > 3) = true := by rw [h4]; decide
    have hlen : 0 < sv.length := by omega
    rw [hflag]
    have heq := stateDecl_object_eq cname uTS sv hlen
    have hne : ReactTemplateGenerator.stateDeclarations cname true uTS sv ≠ "" := by
      rw [heq]
      apply append_ne_empty_of_left
      apply append_ne_empty_of_left
      apply append_ne_empty_of_left
      apply append_ne_empty_of_left
      decide
    constructor
    · apply generate_includes_of_stateDecl _ _ _ _ _ _ _ _ _ _ _ hne
      rw [heq]
      apply jsIncludes_append_left
      apply jsIncludes_append_left
      apply jsIncludes_append_left
      apply jsIncludes_append_left
      decide
    · intro v hv
      apply generate_includes_of_stateDecl _ _ _ _ _ _ _ _ _ _ _ hne
      rw [heq]
      apply jsIncludes_append_left
      apply jsIncludes_append_right
      exact jsIncludes_intercalate _ _ _ (List.mem_map_of_mem _ hv)
  · intro h3 v hv
    have hflag : decide (sv.length > 3) = false := by rw [h3]; decide
    have hlen : 0 < sv.length := by omega
    rw [hflag]
    have heq := stateDecl_slots_eq cname uTS sv hlen
    have hline : ∀ (w : StateVar),
        ("  const [" ++ sanitizeVariableName w.id ++ ", set"
            ++ toPascalCase (sanitizeVariableName w.id) ++ "] = useState"
            ++ (if uTS then "<" ++ w.type ++ ">" else "")
            ++ "(" ++ w.defaultValue.render ++ ");") ≠ "" := by
      intro w
      apply append_ne_empty_of_left
      apply append_ne_empty_of_left
      apply append_ne_empty_of_left
      apply append_ne_empty_of_left
      apply append_ne_empty_of_left
      apply append_ne_empty_of_left
      apply append_ne_empty_of_left
      apply append_ne_empty_of_left
      decide
    have hne : ReactTemplateGenerator.stateDeclarations cname false uTS sv ≠ "" := by
      rw [heq]
      cases sv with
      | nil => exact absurd hlen (by simp)
      | cons w rest =>
        rw [List.map_cons]
        obtain ⟨tl, htl⟩ := intercalate_head_split "\n" _ (rest.map _)
        rw [htl]
        exact append_ne_empty_of_left _ _ (hline w)
    apply generate_includes_of_stateDecl _ _ _ _ _ _ _ _ _ _ _ hne
    refine jsIncludes_trans _
      ("  const [" ++ sanitizeVariableName v.id ++ ", set"
        ++ toPascalCase (sanitizeVariableName v.id) ++ "] = useState"
        ++ (if uTS then "<" ++ v.type ++ ">" else "")
        ++ "(" ++ v.defaultValue.render ++ ");") _ ?_ ?_
    · rw [heq]
      exact jsIncludes_intercalate _ _ _ (List.mem_map_of_mem _ hv)
    · apply jsIncludes_append_left
      apply jsIncludes_append_left
      apply jsIncludes_append_left
      apply jsIncludes_append_left
      exact jsIncludes_self _

def c6FourVars : List StateVar :=
  [⟨"a", "string", .str ""⟩, ⟨"b", "boolean", .bool false⟩,
   ⟨"c", "boolean", .bool false⟩, ⟨"d", "string", .str ""⟩]

def c6ThreeVars : List StateVar :=
  [⟨"a", "string", .str ""⟩, ⟨"b", "boolean", .bool false⟩,
   ⟨"c", "boolean", .bool false⟩]

/-- Witness for C6 at concrete 4-variable and 3-variable contexts. -/
theorem C6_witness :
    jsIncludes (ReactTemplateGenerator.generate "App" "<div />" [] c6FourVars
        [] [] (decide (c6FourVars.length > 3)) true false none)
      "const [state, setState] = useState" = true
    ∧ (∀ v ∈ c6ThreeVars,
        jsIncludes (ReactTemplateGenerator.generate "App" "<div />" []
            c6ThreeVars [] [] (decide (c6ThreeVars.length > 3)) true false none)
          ("  const [" ++ sanitizeVariableName v.id ++ ", set"
            ++ toPascalCase (sanitizeVariableName v.id)
            ++ "] = useState") = true) :=
  ⟨((C6_theorem (.mk {} []) {} "App" "<div />" [] c6FourVars [] [] true false
      none).2.1 rfl).1,
   (C6_theorem (.mk {} []) {} "App" "<div />" [] c6ThreeVars [] [] true false
      none).2.2 rfl⟩

/-! ### C9: the shape of toPascalCase output -/


theorem toUpper_isAlphanum {c : Char} (h : c.isAlphanum = true) :
    c.toUpper.isAlphanum = true := by
  simp only [Char.toUpper]
  split
  · rename_i hn
    obtain ⟨h1, h2⟩ := hn
    have h65 : 65 ≤ c.toNat - 32 := by omega
    have h90 : c.toNat - 32 ≤ 90 := by omega
    set m := c.toNat - 32 with hm
    clear_value m
    interval_cases m <;> decide
  · exact h

theorem isJsWs_false_of_alnum {c : Char} (h : c.isAlphanum = true) :
    isJsWs c = false := by
  by_contra hne
  have hw : isJsWs c = true := by revert hne; cases isJsWs c <;> simp
  simp only [isJsWs, Bool.or_eq_true, decide_eq_true_eq] at hw
  rcases hw with ((((h1 | h1) | h1) | h1) | h1) | h1 <;>
    (subst h1; exact absurd h (by decide))

theorem hyphen_ne_of_alnum {c : Char} (h : c.isAlphanum = true) : c ≠ '-' := by
  intro hc
  subst hc
  simp at h

theorem not_sep_split {c : Char} (hs : isSep c = false) :
    isJsWs c = false ∧ c ≠ '-' := by
  simp only [isSep, Bool.or_eq_false_iff, decide_eq_false_iff_not] at hs
  exact hs

theorem alnum_of_allowed_not_sep {c : Char}
    (ha : (c.isAlphanum || isJsWs c || c = '-') = true)
    (hs : isSep c = false) : c.isAlphanum = true := by
  obtain ⟨hw, hh⟩ := not_sep_split hs
  simp only [Bool.or_eq_true, decide_eq_true_eq] at ha
  rcases ha with (h | h) | h
  · exact h
  · rw [h] at hw; simp at hw
  · exact absurd h hh

theorem hyphen_of_allowed_sep_not_ws {c : Char}
    (hs : isSep c = true) (hw : isJsWs c = false) : c = '-' := by
  simp only [isSep, Bool.or_eq_true, decide_eq_true_eq] at hs
  rcases hs with h | h
  · rw [h] at hw; exact absurd hw (by simp)
  · exact h

theorem getLast?_of_suffix {α : Type} {s l : List α} (h : s <:+ l)
    (hne : s ≠ []) : l.getLast? = s.getLast? := by
  obtain ⟨t, rfl⟩ := h
  exact List.getLast?_append_of_ne_nil t hne

theorem sepCollapse_shape : ∀ (n : Nat) (l : List Char), l.length ≤ n →
    (∀ c ∈ l, (c.isAlphanum || isJsWs c || c = '-') = true) →
    (∀ x, l.getLast? = some x → isJsWs x = false) →
    (∀ c ∈ sepCollapse l, c.isAlphanum = true ∨ c = '-')
    ∧ (∀ c ∈ (sepCollapse l).dropLast, c.isAlphanum = true) := by
  intro n
  induction n with
  | zero =>
    intro l hl _ _
    have hnil : l = [] := List.length_eq_zero.mp (Nat.le_zero.mp hl)
    subst hnil
    simp [sepCollapse]
  | succ n ih =>
    intro l hl hall hlast
    cases l with
    | nil => simp [sepCollapse]
    | cons c rest =>
      rw [sepCollapse]
      by_cases hsep : isSep c
      · rw [if_pos hsep]
        split
        · rename_i a rest' heq
          have hamem : a ∈ rest := by
            have h1 : a ∈ rest.dropWhile isSep := by
              rw [heq]; exact List.mem_cons_self a rest'
            exact (List.dropWhile_suffix isSep).sublist.subset h1
          have hans : isSep a = false := by
            have h1 := List.head?_dropWhile_not isSep rest
            rw [heq] at h1
            simpa using h1
          have haal : a.isAlphanum = true :=
            alnum_of_allowed_not_sep (hall a (List.mem_cons_of_mem c hamem)) hans
          have hsuffix : rest' <:+ c :: rest := by
            have h1 : rest' <:+ a :: rest' := List.suffix_cons a rest'
            have h2 : a :: rest' <:+ rest := heq ▸ List.dropWhile_suffix isSep
            exact (h1.trans h2).trans (List.suffix_cons c rest)
          have hlen' : rest'.length ≤ n := by
            have h1 := hsuffix.sublist.length_le
            simp only [List.length_cons] at hl h1
            have h2 : (a :: rest').length ≤ rest.length :=
              (heq ▸ List.dropWhile_suffix isSep : a :: rest' <:+ rest).sublist.length_le
            simp only [List.length_cons] at h2
            omega
          have hall' : ∀ x ∈ rest', (x.isAlphanum || isJsWs x || x = '-') = true :=
            fun x hx => hall x (hsuffix.sublist.subset hx)
          have hlast' : ∀ x, rest'.getLast? = some x → isJsWs x = false := by
            intro x hx
            have hne : rest' ≠ [] := by
              intro hc; rw [hc] at hx; simp at hx
            have := getLast?_of_suffix hsuffix hne
            exact hlast x (by rw [this, hx])
          obtain ⟨ih1, ih2⟩ := ih rest' hlen' hall' hlast'
          constructor
          · intro x hx
            rcases List.mem_cons.mp hx with h1 | h1
            · subst h1; exact Or.inl (toUpper_isAlphanum haal)
            · exact ih1 x h1
          · intro x hx
            cases hsc : sepCollapse rest' with
            | nil => rw [hsc] at hx; simp at hx
            | cons b t =>
              rw [hsc, List.dropLast_cons_of_ne_nil (by simp)] at hx
              rcases List.mem_cons.mp hx with h1 | h1
              · subst h1; exact toUpper_isAlphanum haal
              · exact ih2 x (by rw [hsc]; exact h1)
        · rename_i heq
          have hallsep : ∀ x ∈ rest, isSep x = true :=
            List.dropWhile_eq_nil_iff.mp heq
          by_cases hre : rest.isEmpty
          · rw [if_pos hre]
            have hrnil : rest = [] := by
              cases rest with
              | nil => rfl
              | cons b t => simp at hre
            subst hrnil
            have hc : c = '-' := by
              apply hyphen_of_allowed_sep_not_ws hsep
              exact hlast c (by simp)
            subst hc
            exact ⟨fun x hx => by simp at hx; subst hx; exact Or.inr rfl,
              fun x hx => by simp at hx⟩
          · rw [if_neg hre]
            have hrne : rest ≠ [] := by
              cases rest with
              | nil => simp at hre
              | cons b t => simp
            have hgl := List.getLast?_eq_getLast (c :: rest) (by simp)
            have hgws : isJsWs ((c :: rest).getLast (by simp)) = false :=
              hlast _ hgl
            have hgsep : isSep ((c :: rest).getLast (by simp)) = true := by
              have h1 : (c :: rest).getLast (by simp) ∈ (c :: rest).getLast? := by
                rw [hgl]; rfl
              have h2 := List.getLast?_eq_getLast_of_ne_nil hrne
              have h3 : (c :: rest).getLast? = rest.getLast? :=
                getLast?_of_suffix (List.suffix_cons c rest) hrne
              have h4 : (c :: rest).getLast (by simp) = rest.getLast hrne := by
                have := h3.symm.trans hgl
                rw [h2] at this
                exact (Option.some.inj this).symm
              rw [h4]
              exact hallsep _ (List.getLast_mem hrne)
            have hgh : (c :: rest).getLast (by simp) = '-' :=
              hyphen_of_allowed_sep_not_ws hgsep hgws
            rw [hgh]
            exact ⟨fun x hx => by simp at hx; subst hx; exact Or.inr (by decide),
              fun x hx => by simp at hx⟩
      · have hns : isSep c = false := by
          cases h : isSep c with
          | true => exact absurd h hsep
          | false => rfl
        rw [if_neg hsep]
        have hcal : c.isAlphanum = true :=
          alnum_of_allowed_not_sep (hall c (List.mem_cons_self c rest)) hns
        have hall' : ∀ x ∈ rest, (x.isAlphanum || isJsWs x || x = '-') = true :=
          fun x hx => hall x (List.mem_cons_of_mem c hx)
        have hlast' : ∀ x, rest.getLast? = some x → isJsWs x = false := by
          intro x hx
          have hne : rest ≠ [] := by
            intro hc; rw [hc] at hx; simp at hx
          have := getLast?_of_suffix (List.suffix_cons c rest) hne
          exact hlast x (by rw [this, hx])
        have hlen' : rest.length ≤ n := by
          simp only [List.length_cons] at hl; omega
        obtain ⟨ih1, ih2⟩ := ih rest hlen' hall' hlast'
        constructor
        · intro x hx
          rcases List.mem_cons.mp hx with h1 | h1
          · subst h1; exact Or.inl hcal
          · exact ih1 x h1
        · intro x hx
          cases hsc : sepCollapse rest with
          | nil => rw [hsc] at hx; simp at hx
          | cons b t =>
            rw [hsc, List.dropLast_cons_of_ne_nil (by simp)] at hx
            rcases List.mem_cons.mp hx with h1 | h1
            · subst h1; exact hcal
            · exact ih2 x (by rw [hsc]; exact h1)

theorem mem_jsTrimL {c : Char} {l : List Char} (h : c ∈ jsTrimL l) : c ∈ l := by
  unfold jsTrimL at h
  rw [List.mem_reverse] at h
  have h1 := (List.dropWhile_suffix isJsWs).sublist.subset h
  rw [List.mem_reverse] at h1
  exact (List.dropWhile_suffix isJsWs).sublist.subset h1

theorem jsTrimL_getLast_not_ws {l : List Char} :
    ∀ x, (jsTrimL l).getLast? = some x → isJsWs x = false := by
  intro x hx
  unfold jsTrimL at hx
  rw [List.getLast?_reverse] at hx
  have h1 := List.head?_dropWhile_not isJsWs ((l.dropWhile isJsWs).reverse)
  rw [hx] at h1
  simpa using h1

/-- C9 (amended): for EVERY input string (the claim's premise is not even
needed, because the first rewrite already discards every character other
than alphanumerics, whitespace and hyphens), the `toPascalCase` result
never starts with a digit and never contains whitespace, and a hyphen can
survive only as the single final character (the claim's "never contains a
hyphen" fails exactly there). -/
theorem C9_amended_theorem (s : String) :
    (∀ c ∈ (toPascalCase s).toList.head?, c.isDigit = false)
    ∧ (∀ c ∈ (toPascalCase s).toList, isJsWs c = false)
    ∧ (∀ c ∈ (toPascalCase s).toList.dropLast, c ≠ '-') := by
  unfold toPascalCase
  by_cases hs : s = ""
  · rw [if_pos hs]
    refine ⟨?_, ?_, ?_⟩ <;> decide
  · rw [if_neg hs]
    by_cases hcl : (jsTrimL (keepAlnumWsHyphen s.toList)).isEmpty
    · rw [if_pos hcl]
      refine ⟨?_, ?_, ?_⟩ <;> decide
    · rw [if_neg hcl]
      have hall : ∀ c ∈ jsTrimL (keepAlnumWsHyphen s.toList),
          (c.isAlphanum || isJsWs c || c = '-') = true := by
        intro c hc
        have h1 := mem_jsTrimL hc
        unfold keepAlnumWsHyphen at h1
        exact (List.mem_filter.mp h1).2
      obtain ⟨P1, P2⟩ := sepCollapse_shape
        (jsTrimL (keepAlnumWsHyphen s.toList)).length
        (jsTrimL (keepAlnumWsHyphen s.toList)) (le_refl _) hall
        jsTrimL_getLast_not_ws
      set sc := sepCollapse (jsTrimL (keepAlnumWsHyphen s.toList)) with hscdef
      clear_value sc
      have hQ1 : ∀ c ∈ upperFirstLower sc, c.isAlphanum = true ∨ c = '-' := by
        cases sc with
        | nil => simp [upperFirstLower]
        | cons c0 t =>
          intro x hx
          simp only [upperFirstLower] at hx
          by_cases hl0 : c0.isLower
          · rw [if_pos hl0] at hx
            rcases List.mem_cons.mp hx with h1 | h1
            · subst h1
              exact Or.inl (toUpper_isAlphanum (by
                simp [Char.isAlphanum, Char.isAlpha, hl0]))
            · exact P1 x (List.mem_cons_of_mem c0 h1)
          · rw [if_neg hl0] at hx
            exact P1 x hx
      have hQ2 : ∀ c ∈ (upperFirstLower sc).dropLast, c.isAlphanum = true := by
        cases sc with
        | nil => simp [upperFirstLower]
        | cons c0 t =>
          intro x hx
          simp only [upperFirstLower] at hx
          cases ht : t with
          | nil =>
            subst ht
            by_cases hl0 : c0.isLower <;>
              [rw [if_pos hl0] at hx; rw [if_neg hl0] at hx] <;> simp at hx
          | cons b t' =>
            have hP2' : ∀ y ∈ c0 :: (b :: t').dropLast, y.isAlphanum = true := by
              intro y hy
              apply P2
              rw [ht, List.dropLast_cons_of_ne_nil (by simp)]
              exact hy
            by_cases hl0 : c0.isLower
            · rw [if_pos hl0, ht, List.dropLast_cons_of_ne_nil (by simp)] at hx
              rcases List.mem_cons.mp hx with h1 | h1
              · subst h1
                exact toUpper_isAlphanum (by
                  simp [Char.isAlphanum, Char.isAlpha, hl0])
              · exact hP2' x (List.mem_cons_of_mem c0 h1)
            · rw [if_neg hl0, ht, List.dropLast_cons_of_ne_nil (by simp)] at hx
              exact hP2' x hx
      refine ⟨?_, ?_, ?_⟩
      · intro c hc
        cases hm : upperFirstLower sc with
        | nil => rw [hm] at hc; simp [prefixDigitWith] at hc
        | cons c0 t =>
          rw [hm] at hc
          simp only [prefixDigitWith] at hc
          by_cases hd : c0.isDigit
          · rw [if_pos hd] at hc
            simp only [String.toList] at hc
            simp at hc
            subst hc
            decide
          · rw [if_neg hd] at hc
            simp only [String.toList] at hc
            simp at hc
            subst hc
            simp only [Bool.not_eq_true] at hd
            exact hd
      · intro c hc
        simp only [String.toList] at hc
        have hmem : c.isAlphanum = true ∨ c = '-' := by
          cases hm : upperFirstLower sc with
          | nil => rw [hm] at hc; simp [prefixDigitWith] at hc
          | cons c0 t =>
            rw [hm] at hc
            simp only [prefixDigitWith] at hc
            by_cases hd : c0.isDigit
            · rw [if_pos hd] at hc
              rcases List.mem_cons.mp hc with h1 | h1
              · subst h1; exact Or.inl (by decide)
              · exact hQ1 c (hm ▸ h1)
            · rw [if_neg hd] at hc
              exact hQ1 c (hm ▸ hc)
        rcases hmem with h1 | h1
        · exact isJsWs_false_of_alnum h1
        · subst h1; decide
      · intro c hc
        simp only [String.toList] at hc
        cases hm : upperFirstLower sc with
        | nil => rw [hm] at hc; simp [prefixDigitWith] at hc
        | cons c0 t =>
          rw [hm] at hc
          simp only [prefixDigitWith] at hc
          by_cases hd : c0.isDigit
          · rw [if_pos hd, List.dropLast_cons₂] at hc
            rcases List.mem_cons.mp hc with h1 | h1
            · subst h1; decide
            · exact hyphen_ne_of_alnum (hQ2 c (by rw [hm]; exact h1))
          · rw [if_neg hd] at hc
            exact hyphen_ne_of_alnum (hQ2 c (hm ▸ hc))

/-- C9 counterexample: "a-" is non-empty and consists of alphanumerics
and separators, yet `toPascalCase "a-" = "A-"` keeps the trailing hyphen,
because the global regex `[\s-]+(.)` cannot match a separator run at the
very end of the string when it has no following character to capture. -/
theorem C9_counterexample :
    ("a-" ≠ "" ∧ ∀ c ∈ "a-".toList, (c.isAlphanum || isSep c) = true)
    ∧ toPascalCase "a-" = "A-"
    ∧ '-' ∈ (toPascalCase "a-").toList := by
  refine ⟨by decide, ?_, ?_⟩
  · simp +decide [toPascalCase, jsTrimL, keepAlnumWsHyphen, sepCollapse,
      upperFirstLower, prefixDigitWith, isJsWs, isSep]
  · simp +decide [toPascalCase, jsTrimL, keepAlnumWsHyphen, sepCollapse,
      upperFirstLower, prefixDigitWith, isJsWs, isSep]

/-! ### C10: the sub-component loop skips the root entry -/


theorem toPascalCase_chars (s : String) :
    ∀ c ∈ (toPascalCase s).toList, c.isAlphanum = true ∨ c = '-' := by
  unfold toPascalCase
  by_cases hs : s = ""
  · rw [if_pos hs]; decide
  · rw [if_neg hs]
    by_cases hcl : (jsTrimL (keepAlnumWsHyphen s.toList)).isEmpty
    · rw [if_pos hcl]; decide
    · rw [if_neg hcl]
      have hall : ∀ c ∈ jsTrimL (keepAlnumWsHyphen s.toList),
          (c.isAlphanum || isJsWs c || c = '-') = true := by
        intro c hc
        have h1 := mem_jsTrimL hc
        unfold keepAlnumWsHyphen at h1
        exact (List.mem_filter.mp h1).2
      obtain ⟨P1, _⟩ := sepCollapse_shape
        (jsTrimL (keepAlnumWsHyphen s.toList)).length
        (jsTrimL (keepAlnumWsHyphen s.toList)) (le_refl _) hall
        jsTrimL_getLast_not_ws
      set sc := sepCollapse (jsTrimL (keepAlnumWsHyphen s.toList)) with hscdef
      clear_value sc
      have hQ1 : ∀ c ∈ upperFirstLower sc, c.isAlphanum = true ∨ c = '-' := by
        cases sc with
        | nil => simp [upperFirstLower]
        | cons c0 t =>
          intro x hx
          simp only [upperFirstLower] at hx
          by_cases hl0 : c0.isLower
          · rw [if_pos hl0] at hx
            rcases List.mem_cons.mp hx with h1 | h1
            · subst h1
              exact Or.inl (toUpper_isAlphanum (by
                simp [Char.isAlphanum, Char.isAlpha, hl0]))
            · exact P1 x (List.mem_cons_of_mem c0 h1)
          · rw [if_neg hl0] at hx
            exact P1 x hx
      intro c hc
      simp only [String.toList] at hc
      cases hm : upperFirstLower sc with
      | nil => rw [hm] at hc; simp [prefixDigitWith] at hc
      | cons c0 t =>
        rw [hm] at hc
        simp only [prefixDigitWith] at hc
        by_cases hd : c0.isDigit
        · rw [if_pos hd] at hc
          rcases List.mem_cons.mp hc with h1 | h1
          · subst h1; exact Or.inl (by decide)
          · exact hQ1 c (hm ▸ h1)
        · rw [if_neg hd] at hc
          exact hQ1 c (hm ▸ hc)

theorem toPascalCase_no_slash (s : String) :
    ∀ c ∈ (toPascalCase s).toList, c ≠ '/' := by
  intro c hc hcontra
  rcases toPascalCase_chars s c hc with h | h
  · subst hcontra; exact absurd h (by decide)
  · subst hcontra; exact absurd h (by decide)

theorem JSMap.values_set_prop {α : Type} (Q : α → Prop) (m : JSMap α)
    (k : String) (v : α) (hm : ∀ e ∈ m, Q e.2) (hv : Q v) :
    ∀ e ∈ JSMap.set m k v, Q e.2 := by
  intro e he
  unfold JSMap.set at he
  split at he
  · rcases List.mem_map.mp he with ⟨e0, he0, heq⟩
    by_cases hk : e0.1 == k
    · rw [if_pos hk] at heq; rw [← heq]; exact hv
    · rw [if_neg hk] at heq; rw [← heq]; exact hm e0 he0
  · rcases List.mem_append.mp he with h1 | h1
    · exact hm e h1
    · simp at h1; rw [h1]; exact hv

/-- Every value the boundary analyzer stores in the components map carries
a `toPascalCase`-shaped name: alphanumerics and hyphens only. -/
theorem identify_names : ∀ (k : Nat) (n : Node), sizeOf n ≤ k →
    ∀ (depth : Nat) (parent : Option String) (acc : JSMap ComponentInfo × Nat),
    (∀ e ∈ acc.1, ∀ c ∈ e.2.name.toList, c.isAlphanum = true ∨ c = '-') →
    ∀ e ∈ (ComponentAnalyzer.identify n depth parent acc).1,
      ∀ c ∈ e.2.name.toList, c.isAlphanum = true ∨ c = '-' := by
  intro k
  induction k with
  | zero =>
    intro n hn
    exact absurd hn (by have := Node.one_le_sizeOf n; omega)
  | succ k ih =>
    intro n hn depth parent acc hacc
    cases n with
    | mk d cs =>
      have hcs : ∀ c ∈ cs, sizeOf c ≤ k := by
        intro c hc
        have := Node.sizeOf_child hc d
        have h2 : sizeOf (Node.mk d cs) ≤ k + 1 := hn
        omega
      have hfold : ∀ (l : List Node), (∀ c ∈ l, sizeOf c ≤ k) →
          ∀ (a : JSMap ComponentInfo × Nat),
          (∀ e ∈ a.1, ∀ c ∈ e.2.name.toList, c.isAlphanum = true ∨ c = '-') →
          ∀ e ∈ (l.foldl (fun a c =>
              ComponentAnalyzer.identify c (depth + 1) (some d.id) a) a).1,
            ∀ c ∈ e.2.name.toList, c.isAlphanum = true ∨ c = '-' := by
        intro l
        induction l with
        | nil => intro _ a ha; exact ha
        | cons c rest ihl =>
          intro hb a ha
          simp only [List.foldl_cons]
          exact ihl (fun x hx => hb x (List.mem_cons_of_mem c hx))
            _ (ih c (hb c (List.mem_cons_self c rest)) (depth + 1)
                (some d.id) a ha)
      rw [ComponentAnalyzer.identify]
      intro e he
      by_cases hname : d.name ≠ ""
      · simp only [if_pos hname] at he
        split at he
        · split at he
          · exact JSMap.values_set_prop
              (fun v => ∀ c ∈ v.name.toList, c.isAlphanum = true ∨ c = '-')
              acc.1 _ _ hacc (toPascalCase_chars d.name) e he
          · rw [List.foldl_attach cs (fun a c =>
                ComponentAnalyzer.identify c (depth + 1) (some d.id) a)] at he
            exact hfold cs hcs (acc.1, (toPascalCase d.name, acc.2).2) hacc e he
        · rename_i hfire
          rw [Bool.not_eq_true] at hfire
          simp only [hfire, Bool.false_and, Bool.false_eq_true, if_false] at he
          rw [List.foldl_attach cs (fun a c =>
              ComponentAnalyzer.identify c (depth + 1) (some d.id) a)] at he
          exact hfold cs hcs (acc.1, (toPascalCase d.name, acc.2).2) hacc e he
      · simp only [if_neg hname] at he
        split at he
        · split at he
          · exact JSMap.values_set_prop
              (fun v => ∀ c ∈ v.name.toList, c.isAlphanum = true ∨ c = '-')
              acc.1 _ _ hacc (toPascalCase_chars _) e he
          · rw [List.foldl_attach cs (fun a c =>
                ComponentAnalyzer.identify c (depth + 1) (some d.id) a)] at he
            exact hfold cs hcs (acc.1, (toPascalCase ("Component" ++ toString (acc.2 + 1)), acc.2 + 1).2) hacc e he
        · rename_i hfire
          rw [Bool.not_eq_true] at hfire
          simp only [hfire, Bool.false_and, Bool.false_eq_true, if_false] at he
          rw [List.foldl_attach cs (fun a c =>
              ComponentAnalyzer.identify c (depth + 1) (some d.id) a)] at he
          exact hfold cs hcs (acc.1, acc.2) hacc e he

theorem eq_of_append_slash : ∀ (a b r s : List Char),
    (∀ c ∈ a, c ≠ '/') → (∀ c ∈ b, c ≠ '/') →
    a ++ '/' :: r = b ++ '/' :: s → a = b ∧ r = s := by
  intro a
  induction a with
  | nil =>
    intro b r s _ hb h
    cases b with
    | nil => simp at h; exact ⟨rfl, h⟩
    | cons y bt =>
      simp at h
      exact absurd h.1.symm (hb y (List.mem_cons_self y bt))
  | cons x at' iha =>
    intro b r s ha hb h
    cases b with
    | nil =>
      simp at h
      exact absurd h.1 (ha x (List.mem_cons_self x at'))
    | cons y bt =>
      simp at h
      obtain ⟨hxy, hrest⟩ := h
      obtain ⟨h1, h2⟩ := iha bt r s
        (fun c hc => ha c (List.mem_cons_of_mem x hc))
        (fun c hc => hb c (List.mem_cons_of_mem y hc)) hrest
      exact ⟨by rw [hxy, h1], h2⟩

theorem path_eq_name {a b r s : String}
    (ha : ∀ c ∈ a.toList, c ≠ '/') (hb : ∀ c ∈ b.toList, c ≠ '/')
    (h : "components/" ++ a ++ "/" ++ r = "components/" ++ b ++ "/" ++ s) :
    a = b := by
  have hd := congrArg String.data h
  simp only [String.data_append] at hd
  rw [List.append_assoc, List.append_assoc, List.append_assoc,
    List.append_assoc] at hd
  have h2 := List.append_cancel_left hd
  simp only [List.singleton_append] at h2
  have h3 := eq_of_append_slash a.data b.data r.data s.data ha hb h2
  exact String.ext h3.1

theorem Files.lookup_append (xs ys : Files) (k : String) :
    Files.lookup (xs ++ ys) k
      = match Files.lookup ys k with
        | some v => some v
        | none => Files.lookup xs k := by
  unfold Files.lookup
  rw [List.reverse_append, List.find?_append]
  cases List.find? (fun e => e.1 == k) ys.reverse <;> simp

theorem Files.lookup_eq_none_of (ys : Files) (k : String)
    (h : ∀ p ∈ ys, p.1 ≠ k) : Files.lookup ys k = none := by
  unfold Files.lookup
  rw [List.find?_eq_none.mpr]
  · rfl
  · intro p hp
    simp only [beq_eq_false_iff_ne, ne_eq, beq_iff_eq]
    exact h p (List.mem_reverse.mp hp)

theorem generateSubComponent_files (cfg : Config) (s : GenState)
    (ci : ComponentInfo) (n : String) :
    ∀ p ∈ (CodeGenerator.generateSubComponent cfg s ci n).1,
      ∃ r, p.1 = "components/" ++ n ++ "/" ++ r := by
  intro p hp
  simp only [CodeGenerator.generateSubComponent,
    CodeGenerator.generateSubComponentRun, CodeGenerator.subComponentBody] at hp
  rcases List.mem_append.mp hp with h1 | h1
  · rcases List.mem_cons.mp h1 with h2 | h2
    · refine ⟨n ++ "." ++ (if cfg.useTypeScript then "tsx" else "jsx"), ?_⟩
      rw [h2]
      simp [String.append_assoc]
    · simp at h2
      refine ⟨n ++ ".css", ?_⟩
      rw [h2]
      simp [String.append_assoc]
  · split at h1
    · simp at h1
      refine ⟨n ++ ".types.ts", ?_⟩
      rw [h1]
      simp [String.append_assoc]
    · simp at h1

theorem subLoop_files (cfg : Config) (rootId : String) (used : List String) :
    ∀ (l : List (String × ComponentInfo)) (acc : Files × (List String × GenState)),
    ∃ extra, (l.foldl (CodeGenerator.subLoopStep cfg rootId used) acc).1
        = acc.1 ++ extra
      ∧ ∀ p ∈ extra, ∃ n r, n ∈ l.map (fun e => e.2.name) ∧ n ∉ acc.2.1
          ∧ p.1 = "components/" ++ n ++ "/" ++ r := by
  intro l
  induction l with
  | nil => intro acc; exact ⟨[], by simp, by simp⟩
  | cons e l' ihl =>
    intro acc
    simp only [List.foldl_cons]
    by_cases h1 : e.1 = rootId
    · obtain ⟨extra, hx, hp⟩ := ihl acc
      refine ⟨extra, ?_, ?_⟩
      · rw [CodeGenerator.subLoopStep, if_pos h1]; exact hx
      · intro p hp'
        obtain ⟨n, r, hn, hna, hpr⟩ := hp p hp'
        exact ⟨n, r, by simp only [List.map_cons]; exact List.mem_cons_of_mem _ hn,
          hna, hpr⟩
    · by_cases h2 : !used.contains e.1
      · obtain ⟨extra, hx, hp⟩ := ihl acc
        refine ⟨extra, ?_, ?_⟩
        · rw [CodeGenerator.subLoopStep, if_neg h1, if_pos h2]; exact hx
        · intro p hp'
          obtain ⟨n, r, hn, hna, hpr⟩ := hp p hp'
          exact ⟨n, r, by simp only [List.map_cons]; exact List.mem_cons_of_mem _ hn,
            hna, hpr⟩
      · by_cases h3 : acc.2.1.contains e.2.name
        · obtain ⟨extra, hx, hp⟩ := ihl acc
          refine ⟨extra, ?_, ?_⟩
          · rw [CodeGenerator.subLoopStep, if_neg h1, if_neg h2, if_pos h3]
            exact hx
          · intro p hp'
            obtain ⟨n, r, hn, hna, hpr⟩ := hp p hp'
            exact ⟨n, r, by simp only [List.map_cons]; exact List.mem_cons_of_mem _ hn,
              hna, hpr⟩
        · have hstep : CodeGenerator.subLoopStep cfg rootId used acc e
              = (acc.1 ++ (CodeGenerator.generateSubComponent cfg acc.2.2 e.2 e.2.name).1,
                 (acc.2.1 ++ [e.2.name],
                  (CodeGenerator.generateSubComponent cfg acc.2.2 e.2 e.2.name).2)) := by
            rw [CodeGenerator.subLoopStep, if_neg h1, if_neg h2, if_neg h3]
          rw [hstep]
          obtain ⟨extra, hx, hp⟩ := ihl
            (acc.1 ++ (CodeGenerator.generateSubComponent cfg acc.2.2 e.2 e.2.name).1,
             (acc.2.1 ++ [e.2.name],
              (CodeGenerator.generateSubComponent cfg acc.2.2 e.2 e.2.name).2))
          refine ⟨(CodeGenerator.generateSubComponent cfg acc.2.2 e.2 e.2.name).1
              ++ extra, ?_, ?_⟩
          · rw [hx, List.append_assoc]
          · intro p hp'
            rcases List.mem_append.mp hp' with hq | hq
            · obtain ⟨r, hr⟩ := generateSubComponent_files cfg acc.2.2 e.2 e.2.name p hq
              refine ⟨e.2.name, r, ?_, ?_, hr⟩
              · simp only [List.map_cons]
                exact List.mem_cons_self _ _
              · rw [Bool.not_eq_true] at h3
                simp at h3
                exact h3
            · obtain ⟨n, r, hn, hna, hpr⟩ := hp p hq
              refine ⟨n, r, ?_, ?_, hpr⟩
              · simp only [List.map_cons]
                exact List.mem_cons_of_mem _ hn
              · intro hc
                exact hna (by simp only [List.mem_append]; exact Or.inl hc)

theorem subLoop_skips_root (cfg : Config) (rootId : String)
    (used : List String) :
    ∀ (l : List (String × ComponentInfo)) (acc : Files × (List String × GenState)),
    l.foldl (CodeGenerator.subLoopStep cfg rootId used) acc
      = (l.filter (fun e => !(e.1 == rootId))).foldl
          (CodeGenerator.subLoopStep cfg rootId used) acc := by
  intro l
  induction l with
  | nil => intro acc; rfl
  | cons e l' ihl =>
    intro acc
    by_cases h1 : e.1 = rootId
    · rw [List.foldl_cons, List.filter_cons_of_neg (by simp [h1])]
      rw [CodeGenerator.subLoopStep, if_pos h1]
      exact ihl acc
    · rw [List.foldl_cons, List.filter_cons_of_pos (by simp [h1]),
        List.foldl_cons]
      exact ihl _

theorem reactComponentName_no_slash (cfg : Config) (t : Node) :
    ∀ c ∈ (CodeGenerator.reactComponentName cfg t).toList, c ≠ '/' := by
  simp only [CodeGenerator.reactComponentName]
  split
  · exact toPascalCase_no_slash _
  · exact toPascalCase_no_slash _

theorem reactState2_names (cfg : Config) (t : Node) :
    ∀ e ∈ (CodeGenerator.reactState2 cfg t).components,
      ∀ c ∈ e.2.name.toList, c.isAlphanum = true ∨ c = '-' := by
  simp only [CodeGenerator.reactState2]
  split
  · intro e he
    refine identify_names (sizeOf (preprocessNode t none)) _ le_rfl 0 none
      _ ?_ e he
    intro e' he'
    simp [CodeGenerator.analyzeInteractiveElements] at he'
  · intro e he
    simp [CodeGenerator.analyzeInteractiveElements] at he

theorem reactState2_names_no_slash (cfg : Config) (t : Node) :
    ∀ e ∈ (CodeGenerator.reactState2 cfg t).components,
      ∀ c ∈ e.2.name.toList, c ≠ '/' := by
  intro e he c hc hcon
  rcases reactState2_names cfg t e he c hc with h | h
  · subst hcon; exact absurd h (by decide)
  · subst hcon; exact absurd h (by decide)

/-- C10: even when the root node's own id is registered as a boundary in
the components map, the sub-component loop processes exactly the entries
whose key differs from the root node id (it is a fold over the
root-filtered entry list), and the final output of `generateReact` agrees
with the root unit's own files on every path under the root's derived
component directory — no sub-component emission adds or overrides a file
there, because every sub-component writes under its own name, names are
slash-free, and the root's name is excluded by the generated-names set. -/
theorem C10_theorem (cfg : Config) (t : Node)
    (hcz : cfg.componentize = true)
    (hroot : JSMap.hasKey (CodeGenerator.reactState2 cfg t).components
        (preprocessNode t none).data.id = true) :
    (∀ (entries : JSMap ComponentInfo) (rootId : String) (used : List String)
        (acc : Files × (List String × GenState)),
      entries.foldl (CodeGenerator.subLoopStep cfg rootId used) acc
        = (entries.filter (fun e => !(e.1 == rootId))).foldl
            (CodeGenerator.subLoopStep cfg rootId used) acc)
    ∧ (∀ r : String,
        Files.lookup (CodeGenerator.generateReact cfg t)
          ("components/" ++ CodeGenerator.reactComponentName cfg t ++ "/" ++ r)
        = Files.lookup (CodeGenerator.reactBaseFiles cfg t)
          ("components/" ++ CodeGenerator.reactComponentName cfg t ++ "/" ++ r)) := by
  constructor
  · intro entries rootId used acc
    exact subLoop_skips_root cfg rootId used entries acc
  · intro r
    simp only [CodeGenerator.generateReact]
    split
    · obtain ⟨extra, hx, hp⟩ := subLoop_files cfg
        ((preprocessNode t none).data.id) (CodeGenerator.reactUsed cfg t)
        (CodeGenerator.reactState2 cfg t).components
        (CodeGenerator.reactBaseFiles cfg t,
         ([CodeGenerator.reactComponentName cfg t],
          CodeGenerator.reactState2 cfg t))
      rw [hx, Files.lookup_append]
      have hnone : Files.lookup extra
          ("components/" ++ CodeGenerator.reactComponentName cfg t ++ "/" ++ r)
          = none := by
        apply Files.lookup_eq_none_of
        intro p hpe hq
        obtain ⟨n, r', hn, hna, hpr⟩ := hp p hpe
        rw [hpr] at hq
        have hnn : ∀ c ∈ n.toList, c ≠ '/' := by
          rcases List.mem_map.mp hn with ⟨e, he, hne⟩
          intro c hc
          exact reactState2_names_no_slash cfg t e he c (by rw [hne]; exact hc)
        have heqn : n = CodeGenerator.reactComponentName cfg t :=
          path_eq_name hnn (reactComponentName_no_slash cfg t) hq
        exact hna (by rw [heqn]; exact List.mem_cons_self _ _)
      rw [hnone]
    · rfl

def c10cfg : Config := {}

def c10Tree : Node := .mk { id := "1:1", name := "sidebar", type := "FRAME" } []

/-- Witness for C10: a root named "sidebar" matches the boundary keyword
list and registers itself in the components map. -/
theorem C10_witness :
    Files.lookup (CodeGenerator.generateReact c10cfg c10Tree)
        ("components/" ++ CodeGenerator.reactComponentName c10cfg c10Tree
          ++ "/" ++ "Sidebar.css")
      = Files.lookup (CodeGenerator.reactBaseFiles c10cfg c10Tree)
        ("components/" ++ CodeGenerator.reactComponentName c10cfg c10Tree
          ++ "/" ++ "Sidebar.css") :=
  (C10_theorem c10cfg c10Tree rfl (by
    simp +decide [c10cfg, c10Tree, CodeGenerator.reactState2,
      CodeGenerator.analyzeInteractiveElements, InteractiveElementAnalyzer.analyze,
      InteractiveElementAnalyzer.analyzeNodeOnly,
      InteractiveElementAnalyzer.isButton, InteractiveElementAnalyzer.isInput,
      InteractiveElementAnalyzer.isAccordion,
      InteractiveElementAnalyzer.isCollapsible,
      InteractiveElementAnalyzer.isToggle, InteractiveElementAnalyzer.isSwitch,
      ComponentAnalyzer.identify, ComponentAnalyzer.isComponentCandidate,
      ComponentAnalyzer.componentKeywords, ComponentAnalyzer.hasRepeatedStructure,
      preprocessNode, preprocessData, strLower, jsIncludes, jsOrStr,
      toPascalCase, jsTrimL, keepAlnumWsHyphen, sepCollapse, upperFirstLower,
      prefixDigitWith, isSep, isJsWs, JSMap.set, JSMap.hasKey])).2 "Sidebar.css"

/-! ### C3: style-key grouping of the CSS transformer -/


theorem JSMap.mem_set {α : Type} {m : JSMap α} {k : String} {v : α}
    {e : String × α} (he : e ∈ JSMap.set m k v) : e = (k, v) ∨ e ∈ m := by
  unfold JSMap.set at he
  split at he
  · rcases List.mem_map.mp he with ⟨e0, he0, heq⟩
    by_cases hk : e0.1 == k
    · rw [if_pos hk] at heq; exact Or.inl heq.symm
    · rw [if_neg hk] at heq; exact Or.inr (heq ▸ he0)
  · rcases List.mem_append.mp he with h1 | h1
    · exact Or.inr h1
    · simp at h1; exact Or.inl h1

theorem JSMap.hasKey_eq_isSome {α : Type} (m : JSMap α) (k : String) :
    JSMap.hasKey m k = (JSMap.get? m k).isSome := by
  unfold JSMap.hasKey JSMap.get?
  cases m.find? (fun e => e.1 == k) <;> rfl

theorem JSMap.get_replace_aux {α : Type} (k : String) (v : α) (m : JSMap α) :
    JSMap.get? (m.map (fun e => if e.1 == k then (k, v) else e)) k
      = (JSMap.get? m k).map (fun _ => v) := by
  unfold JSMap.get?
  rw [List.find?_map]
  have hpf : ((fun (e : String × α) => e.1 == k)
        ∘ (fun (e : String × α) => if e.1 == k then (k, v) else e))
      = (fun (e : String × α) => e.1 == k) := by
    funext e
    by_cases h : e.1 == k
    · simp [Function.comp, h]
    · simp [Function.comp, h]
  rw [hpf]
  rcases hf : m.find? (fun e => e.1 == k) with _ | e0
  · rw [hf]; rfl
  · have hk : (e0.1 == k) = true := by simpa using List.find?_some hf
    rw [hf]
    simp [hk, eq_of_beq hk]

theorem JSMap.get_replace_ne_aux {α : Type} (k' : String) (v : α) (k : String)
    (hne : k ≠ k') (m : JSMap α) :
    JSMap.get? (m.map (fun e => if e.1 == k' then (k', v) else e)) k
      = JSMap.get? m k := by
  unfold JSMap.get?
  rw [List.find?_map]
  have hkk : (k' == k) = false := by
    simp [beq_iff_eq]
    exact fun hc => hne (hc ▸ rfl)
  have hpf : ((fun (e : String × α) => e.1 == k)
        ∘ (fun (e : String × α) => if e.1 == k' then (k', v) else e))
      = (fun (e : String × α) => e.1 == k) := by
    funext e
    by_cases h : e.1 == k'
    · simp [Function.comp, h, hkk]
      intro hc
      rw [eq_of_beq h] at hc
      exact absurd hc.symm hne
    · simp [Function.comp, h]
  rw [hpf]
  rcases hf : m.find? (fun e => e.1 == k) with _ | e0
  · rw [hf]; rfl
  · have hk : (e0.1 == k) = true := by simpa using List.find?_some hf
    have hk' : (e0.1 == k') = false := by
      simp [beq_iff_eq]
      intro hc
      rw [hc] at hk
      exact absurd (eq_of_beq hk).symm hne
    rw [hf]
    have : ¬ e0.1 = k' := by
      intro hc
      rw [hc] at hk
      exact absurd (eq_of_beq hk).symm hne
    simp [this]

theorem JSMap.get_set_self {α : Type} (m : JSMap α) (k : String) (v : α) :
    JSMap.get? (JSMap.set m k v) k = some v := by
  unfold JSMap.set
  split
  · rename_i hk
    rw [JSMap.get_replace_aux]
    rw [JSMap.hasKey_eq_isSome] at hk
    rcases ho : JSMap.get? m k with _ | x
    · rw [ho] at hk; simp at hk
    · rfl
  · unfold JSMap.get?
    rw [List.find?_append]
    rename_i hk
    rw [JSMap.hasKey_eq_isSome] at hk
    have hnone : m.find? (fun e => e.1 == k) = none := by
      unfold JSMap.get? at hk
      cases hf : m.find? (fun e => e.1 == k)
      · rfl
      · rw [hf] at hk; simp at hk
    rw [hnone]
    simp

theorem JSMap.get_set_ne {α : Type} (m : JSMap α) (k' k : String) (v : α)
    (hne : k ≠ k') : JSMap.get? (JSMap.set m k' v) k = JSMap.get? m k := by
  unfold JSMap.set
  split
  · exact JSMap.get_replace_ne_aux k' v k hne m
  · unfold JSMap.get?
    rw [List.find?_append]
    have h2 : [(k', v)].find? (fun e => e.1 == k) = none := by
      simp [beq_iff_eq]
      exact fun hc => hne (hc ▸ rfl)
    rw [h2]
    cases m.find? (fun e => e.1 == k) <;> simp

theorem JSMap.hasKey_set_ne {α : Type} (m : JSMap α) (k' k : String) (v : α)
    (hne : k ≠ k') : JSMap.hasKey (JSMap.set m k' v) k = JSMap.hasKey m k := by
  rw [JSMap.hasKey_eq_isSome, JSMap.hasKey_eq_isSome, JSMap.get_set_ne m k' k v hne]

theorem JSMap.get_mem {α : Type} {m : JSMap α} {k : String} {v : α}
    (h : JSMap.get? m k = some v) : (k, v) ∈ m := by
  unfold JSMap.get? at h
  rcases hf : m.find? (fun e => e.1 == k) with _ | e0
  · rw [hf] at h; simp at h
  · rw [hf] at h
    simp at h
    have hmem := List.mem_of_find?_eq_some hf
    have hkey : e0.1 = k := by
      have := List.find?_some hf
      simpa using this
    have : e0 = (k, v) := by
      cases e0
      simp at hkey h ⊢
      exact ⟨hkey, h⟩
    rw [← this]
    exact hmem

/-- The document-order node list of a subtree: the order in which
`extractStyles` performs its per-node registration. -/
def cssPreorder : Node → List Node
  | .mk d cs => Node.mk d cs :: (cs.attach.map (fun c => cssPreorder c.1)).flatten
termination_by n => sizeOf n
decreasing_by
  exact Node.sizeOf_child c.2 d

theorem cssPreorder_mk (d : NodeData) (cs : List Node) :
    cssPreorder (Node.mk d cs) = Node.mk d cs :: (cs.map cssPreorder).flatten := by
  rw [cssPreorder]
  rw [List.attach_map_coe]

theorem extractStyles_eq_fold : ∀ (k : Nat) (n : Node), sizeOf n ≤ k →
    ∀ (pfx : String) (st : CSSState),
    CSSTransformer.extractStyles n pfx st
      = (cssPreorder n).foldl (fun s m => CSSTransformer.cssNodeStep m s) st := by
  intro k
  induction k with
  | zero =>
    intro n hn
    exact absurd hn (by have := Node.one_le_sizeOf n; omega)
  | succ k ih =>
    intro n hn pfx st
    cases n with
    | mk d cs =>
      have hcs : ∀ c ∈ cs, sizeOf c ≤ k := by
        intro c hc
        have := Node.sizeOf_child hc d
        have h2 : sizeOf (Node.mk d cs) ≤ k + 1 := hn
        omega
      rw [CSSTransformer.extractStyles]
      rw [List.foldl_attach cs (fun s c => CSSTransformer.extractStyles c pfx s)]
      rw [cssPreorder_mk, List.foldl_cons]
      have hfold : ∀ (l : List Node), (∀ c ∈ l, sizeOf c ≤ k) →
          ∀ (b : CSSState),
          l.foldl (fun s c => CSSTransformer.extractStyles c pfx s) b
            = ((l.map cssPreorder).flatten).foldl
                (fun s m => CSSTransformer.cssNodeStep m s) b := by
        intro l
        induction l with
        | nil => intro _ b; rfl
        | cons c rest ihl =>
          intro hb b
          simp only [List.foldl_cons, List.map_cons, List.flatten_cons,
            List.foldl_append]
          rw [ih c (hb c (List.mem_cons_self c rest)) pfx b]
          exact ihl (fun x hx => hb x (List.mem_cons_of_mem c hx)) _
      exact hfold cs hcs _

/-- Phase 0 of the pair (k, cu, cv): neither class has been processed and
the key is absent from both maps. -/
def PairP0 (k cu cv : String) (st : CSSState) : Prop :=
  JSMap.hasKey st.styleMap k = false
  ∧ JSMap.hasKey st.styleGroups k = false
  ∧ cu ∉ st.processedClasses
  ∧ cv ∉ st.processedClasses
  ∧ (∀ e ∈ st.styleMap, e.2 ≠ cu ∧ e.2 ≠ cv)
  ∧ (∀ e ∈ st.styleGroups, cu ∉ e.2.classes ∧ cv ∉ e.2.classes)

/-- Phase 1: the first node of the pair has registered its class under the
key, the second class is still unprocessed. -/
def PairP1 (k cu cv su : String) (st : CSSState) : Prop :=
  JSMap.get? st.styleMap k = some cu
  ∧ JSMap.get? st.styleGroups k = some ⟨[cu], su⟩
  ∧ cv ∉ st.processedClasses
  ∧ (∀ e ∈ st.styleMap, e.1 ≠ k → e.2 ≠ cu ∧ e.2 ≠ cv)
  ∧ (∀ e ∈ st.styleGroups, e.1 ≠ k → cu ∉ e.2.classes ∧ cv ∉ e.2.classes)

/-- Phase 2: both classes are grouped under the key. -/
def PairP2 (k cu cv su : String) (st : CSSState) : Prop :=
  JSMap.get? st.styleGroups k = some ⟨[cu, cv], su⟩
  ∧ (∀ e ∈ st.styleMap, e.1 ≠ k → e.2 ≠ cu ∧ e.2 ≠ cv)
  ∧ (∀ e ∈ st.styleGroups, e.1 ≠ k → cu ∉ e.2.classes ∧ cv ∉ e.2.classes)


theorem JSMap.hasKey_set_self {α : Type} (m : JSMap α) (k : String) (v : α) :
    JSMap.hasKey (JSMap.set m k v) k = true := by
  rw [JSMap.hasKey_eq_isSome, JSMap.get_set_self]
  rfl

theorem JSMap.set_set_self {α : Type} (m : JSMap α) (k : String) (v w : α) :
    JSMap.set (JSMap.set m k v) k w = JSMap.set m k w := by
  have houter : JSMap.set (JSMap.set m k v) k w
      = (JSMap.set m k v).map (fun e => if e.1 == k then (k, w) else e) := by
    show (if JSMap.hasKey (JSMap.set m k v) k
        then (JSMap.set m k v).map (fun e => if e.1 == k then (k, w) else e)
        else JSMap.set m k v ++ [(k, w)])
      = (JSMap.set m k v).map (fun e => if e.1 == k then (k, w) else e)
    rw [if_pos (JSMap.hasKey_set_self m k v)]
  rw [houter]
  unfold JSMap.set
  split
  · rw [List.map_map]
    apply List.map_congr_left
    intro e _
    by_cases hk : e.1 == k
    · simp [Function.comp, hk]
    · simp [Function.comp, hk]
  · rename_i hk
    rw [List.map_append]
    have h1 : m.map (fun e => if e.1 == k then (k, w) else e) = m := by
      conv_rhs => rw [← List.map_id m]
      apply List.map_congr_left
      intro e he
      have : (e.1 == k) = false := by
        cases h : (e.1 == k) with
        | false => rfl
        | true =>
          exfalso
          apply hk
          rw [JSMap.hasKey_eq_isSome]
          unfold JSMap.get?
          have : m.find? (fun e => e.1 == k) ≠ none := by
            intro hc
            have := List.find?_eq_none.mp hc e he
            rw [h] at this
            exact this rfl
          cases hf : m.find? (fun e => e.1 == k)
          · exact absurd hf this
          · rfl
      simp [this]
    rw [h1]
    simp

theorem cssNodeStep_shape (n : Node) (st : CSSState) :
    CSSTransformer.cssNodeStep n st = st
    ∨ CSSTransformer.cssNodeStep n st
        = { st with processedClasses :=
              st.processedClasses ++ [CSSTransformer.getClassName n true] }
    ∨ (CSSTransformer.getStyleKey n = none
        ∧ CSSTransformer.cssNodeStep n st
          = { st with
              processedClasses :=
                st.processedClasses ++ [CSSTransformer.getClassName n true],
              singleStyles := st.singleStyles
                ++ [CSSTransformer.nodeToCSS n (CSSTransformer.getClassName n true)] })
    ∨ (∃ k', CSSTransformer.getStyleKey n = some k'
        ∧ JSMap.hasKey st.styleMap k' = false
        ∧ CSSTransformer.cssNodeStep n st
          = { st with
              processedClasses :=
                st.processedClasses ++ [CSSTransformer.getClassName n true],
              styleMap := JSMap.set st.styleMap k'
                (CSSTransformer.getClassName n true),
              styleGroups := JSMap.set st.styleGroups k'
                ⟨[CSSTransformer.getClassName n true],
                 CSSTransformer.nodeToCSS n (CSSTransformer.getClassName n true)⟩ })
    ∨ (∃ k' g, CSSTransformer.getStyleKey n = some k'
        ∧ JSMap.hasKey st.styleMap k' = true
        ∧ (CSSTransformer.cssNodeStep n st
              = { st with processedClasses :=
                    st.processedClasses ++ [CSSTransformer.getClassName n true] }
            ∨ CSSTransformer.cssNodeStep n st
              = { st with
                  processedClasses :=
                    st.processedClasses ++ [CSSTransformer.getClassName n true],
                  styleGroups := JSMap.set st.styleGroups k' g })
        ∧ ∀ c ∈ g.classes,
            c = CSSTransformer.getClassName n true
            ∨ c = (JSMap.get? st.styleMap k').getD ""
            ∨ c ∈ ((JSMap.get? st.styleGroups k').getD ⟨[], ""⟩).classes) := by
  simp only [CSSTransformer.cssNodeStep]
  split
  · split
    · split
      · split
        · rename_i k' hkey
          split
          · rename_i hmap
            split
            · rename_i hgrp
              rw [JSMap.get_set_self]
              split
              · rename_i hcont
                refine Or.inr (Or.inr (Or.inr (Or.inr ⟨k',
                  ⟨[(JSMap.get? st.styleMap k').getD ""]
                      ++ [CSSTransformer.getClassName n true],
                   CSSTransformer.nodeToCSS n (CSSTransformer.getClassName n true)⟩,
                  hkey, hmap, Or.inr ?_, ?_⟩)))
                · simp [JSMap.set_set_self]
                · intro c hc
                  simp at hc
                  rcases hc with hc | hc
                  · exact Or.inr (Or.inl hc)
                  · exact Or.inl hc
              · exact Or.inr (Or.inr (Or.inr (Or.inr ⟨k',
                  ⟨[(JSMap.get? st.styleMap k').getD ""],
                   CSSTransformer.nodeToCSS n (CSSTransformer.getClassName n true)⟩,
                  hkey, hmap, Or.inr rfl,
                  by intro c hc; simp at hc; exact Or.inr (Or.inl hc)⟩)))
            · rename_i hgrp
              split
              · rename_i hcont
                refine Or.inr (Or.inr (Or.inr (Or.inr ⟨k',
                  ⟨((JSMap.get? st.styleGroups k').getD ⟨[], ""⟩).classes
                      ++ [CSSTransformer.getClassName n true],
                   ((JSMap.get? st.styleGroups k').getD ⟨[], ""⟩).style⟩,
                  hkey, hmap, Or.inr rfl, ?_⟩)))
                intro c hc
                simp at hc
                rcases hc with hc | hc
                · exact Or.inr (Or.inr hc)
                · exact Or.inl hc
              · exact Or.inr (Or.inr (Or.inr (Or.inr ⟨k', ⟨[], ""⟩, hkey, hmap,
                  Or.inl rfl, by intro c hc; simp at hc⟩)))
          · rename_i hmap
            exact Or.inr (Or.inr (Or.inr (Or.inl ⟨k', hkey, by
              cases h : JSMap.hasKey st.styleMap k' with
              | true => exact absurd h hmap
              | false => rfl, rfl⟩)))
        · rename_i hkey
          exact Or.inr (Or.inr (Or.inl ⟨hkey, rfl⟩))
      · exact Or.inr (Or.inl rfl)
    · exact Or.inr (Or.inl rfl)
  · exact Or.inl rfl

theorem cssStep_other_P0 {k cu cv : String} {n : Node} {st : CSSState}
    (hcu : cu ≠ "") (hcv : cv ≠ "")
    (hot : CSSTransformer.getStyleKey n ≠ some k)
    (hnu : CSSTransformer.getClassName n true ≠ cu)
    (hnv : CSSTransformer.getClassName n true ≠ cv)
    (hp : PairP0 k cu cv st) : PairP0 k cu cv (CSSTransformer.cssNodeStep n st) := by
  obtain ⟨h1, h2, h3, h4, h5, h6⟩ := hp
  have hproc : ∀ (l : List String), cu ∉ l → cu ∉ l ++ [CSSTransformer.getClassName n true] := by
    intro l hl hc
    rcases List.mem_append.mp hc with h | h
    · exact hl h
    · simp at h; exact hnu h.symm
  have hprocv : ∀ (l : List String), cv ∉ l → cv ∉ l ++ [CSSTransformer.getClassName n true] := by
    intro l hl hc
    rcases List.mem_append.mp hc with h | h
    · exact hl h
    · simp at h; exact hnv h.symm
  rcases cssNodeStep_shape n st with h | h | ⟨hk, h⟩ | ⟨k', hk, hm, h⟩
    | ⟨k', g, hk, hm, h, hg⟩
  · rw [h]; exact ⟨h1, h2, h3, h4, h5, h6⟩
  · rw [h]
    exact ⟨h1, h2, hproc _ h3, hprocv _ h4, h5, h6⟩
  · rw [h]
    exact ⟨h1, h2, hproc _ h3, hprocv _ h4, h5, h6⟩
  · have hkk : k ≠ k' := fun hc => hot (hc ▸ hk)
    rw [h]
    refine ⟨?_, ?_, hproc _ h3, hprocv _ h4, ?_, ?_⟩
    · rw [JSMap.hasKey_set_ne _ _ _ _ hkk]; exact h1
    · rw [JSMap.hasKey_set_ne _ _ _ _ hkk]; exact h2
    · intro e he
      rcases JSMap.mem_set he with he | he
      · rw [he]; exact ⟨fun hc => hnu hc, fun hc => hnv hc⟩
      · exact h5 e he
    · intro e he
      rcases JSMap.mem_set he with he | he
      · rw [he]
        constructor
        · intro hc; simp at hc; exact hnu hc.symm
        · intro hc; simp at hc; exact hnv hc.symm
      · exact h6 e he
  · have hkk : k ≠ k' := fun hc => hot (hc ▸ hk)
    have hgsafe : cu ∉ g.classes ∧ cv ∉ g.classes := by
      constructor
      · intro hc
        rcases hg cu hc with h' | h' | h'
        · exact hnu h'.symm
        · rcases ho : JSMap.get? st.styleMap k' with _ | val
          · rw [ho] at h'; simp at h'; exact hcu h'
          · rw [ho] at h'
            simp at h'
            exact (h5 (k', val) (JSMap.get_mem ho)).1 h'.symm
        · rcases ho : JSMap.get? st.styleGroups k' with _ | grp
          · rw [ho] at h'; simp at h'
          · rw [ho] at h'
            simp at h'
            exact (h6 (k', grp) (JSMap.get_mem ho)).1 h'
      · intro hc
        rcases hg cv hc with h' | h' | h'
        · exact hnv h'.symm
        · rcases ho : JSMap.get? st.styleMap k' with _ | val
          · rw [ho] at h'; simp at h'; exact hcv h'
          · rw [ho] at h'
            simp at h'
            exact (h5 (k', val) (JSMap.get_mem ho)).2 h'.symm
        · rcases ho : JSMap.get? st.styleGroups k' with _ | grp
          · rw [ho] at h'; simp at h'
          · rw [ho] at h'
            simp at h'
            exact (h6 (k', grp) (JSMap.get_mem ho)).2 h'
    rcases h with h | h
    · rw [h]
      exact ⟨h1, h2, hproc _ h3, hprocv _ h4, h5, h6⟩
    · rw [h]
      refine ⟨h1, ?_, hproc _ h3, hprocv _ h4, h5, ?_⟩
      · rw [JSMap.hasKey_set_ne _ _ _ _ hkk]; exact h2
      · intro e he
        rcases JSMap.mem_set he with he | he
        · rw [he]; exact hgsafe
        · exact h6 e he

theorem cssStep_other_P1 {k cu cv su : String} {n : Node} {st : CSSState}
    (hcu : cu ≠ "") (hcv : cv ≠ "")
    (hot : CSSTransformer.getStyleKey n ≠ some k)
    (hnu : CSSTransformer.getClassName n true ≠ cu)
    (hnv : CSSTransformer.getClassName n true ≠ cv)
    (hp : PairP1 k cu cv su st) :
    PairP1 k cu cv su (CSSTransformer.cssNodeStep n st) := by
  obtain ⟨h1, h2, h4, h5, h6⟩ := hp
  have hprocv : ∀ (l : List String), cv ∉ l → cv ∉ l ++ [CSSTransformer.getClassName n true] := by
    intro l hl hc
    rcases List.mem_append.mp hc with h | h
    · exact hl h
    · simp at h; exact hnv h.symm
  rcases cssNodeStep_shape n st with h | h | ⟨hk, h⟩ | ⟨k', hk, hm, h⟩
    | ⟨k', g, hk, hm, h, hg⟩
  · rw [h]; exact ⟨h1, h2, h4, h5, h6⟩
  · rw [h]; exact ⟨h1, h2, hprocv _ h4, h5, h6⟩
  · rw [h]; exact ⟨h1, h2, hprocv _ h4, h5, h6⟩
  · have hkk : k ≠ k' := fun hc => hot (hc ▸ hk)
    rw [h]
    refine ⟨?_, ?_, hprocv _ h4, ?_, ?_⟩
    · rw [JSMap.get_set_ne _ _ _ _ hkk]; exact h1
    · rw [JSMap.get_set_ne _ _ _ _ hkk]; exact h2
    · intro e he hek
      rcases JSMap.mem_set he with he | he
      · rw [he]; exact ⟨fun hc => hnu hc, fun hc => hnv hc⟩
      · exact h5 e he hek
    · intro e he hek
      rcases JSMap.mem_set he with he | he
      · rw [he]
        constructor
        · intro hc; simp at hc; exact hnu hc.symm
        · intro hc; simp at hc; exact hnv hc.symm
      · exact h6 e he hek
  · have hkk : k ≠ k' := fun hc => hot (hc ▸ hk)
    have hgsafe : cu ∉ g.classes ∧ cv ∉ g.classes := by
      constructor
      · intro hc
        rcases hg cu hc with h' | h' | h'
        · exact hnu h'.symm
        · rcases ho : JSMap.get? st.styleMap k' with _ | val
          · rw [ho] at h'; simp at h'; exact hcu h'
          · rw [ho] at h'
            simp at h'
            exact (h5 (k', val) (JSMap.get_mem ho) (fun hc' => hkk hc'.symm)).1
              h'.symm
        · rcases ho : JSMap.get? st.styleGroups k' with _ | grp
          · rw [ho] at h'; simp at h'
          · rw [ho] at h'
            simp at h'
            exact (h6 (k', grp) (JSMap.get_mem ho) (fun hc' => hkk hc'.symm)).1 h'
      · intro hc
        rcases hg cv hc with h' | h' | h'
        · exact hnv h'.symm
        · rcases ho : JSMap.get? st.styleMap k' with _ | val
          · rw [ho] at h'; simp at h'; exact hcv h'
          · rw [ho] at h'
            simp at h'
            exact (h5 (k', val) (JSMap.get_mem ho) (fun hc' => hkk hc'.symm)).2
              h'.symm
        · rcases ho : JSMap.get? st.styleGroups k' with _ | grp
          · rw [ho] at h'; simp at h'
          · rw [ho] at h'
            simp at h'
            exact (h6 (k', grp) (JSMap.get_mem ho) (fun hc' => hkk hc'.symm)).2 h'
    rcases h with h | h
    · rw [h]; exact ⟨h1, h2, hprocv _ h4, h5, h6⟩
    · rw [h]
      refine ⟨h1, ?_, hprocv _ h4, h5, ?_⟩
      · rw [JSMap.get_set_ne _ _ _ _ hkk]; exact h2
      · intro e he hek
        rcases JSMap.mem_set he with he | he
        · rw [he]; exact hgsafe
        · exact h6 e he hek

theorem cssStep_other_P2 {k cu cv su : String} {n : Node} {st : CSSState}
    (hcu : cu ≠ "") (hcv : cv ≠ "")
    (hot : CSSTransformer.getStyleKey n ≠ some k)
    (hnu : CSSTransformer.getClassName n true ≠ cu)
    (hnv : CSSTransformer.getClassName n true ≠ cv)
    (hp : PairP2 k cu cv su st) :
    PairP2 k cu cv su (CSSTransformer.cssNodeStep n st) := by
  obtain ⟨h2, h5, h6⟩ := hp
  rcases cssNodeStep_shape n st with h | h | ⟨hk, h⟩ | ⟨k', hk, hm, h⟩
    | ⟨k', g, hk, hm, h, hg⟩
  · rw [h]; exact ⟨h2, h5, h6⟩
  · rw [h]; exact ⟨h2, h5, h6⟩
  · rw [h]; exact ⟨h2, h5, h6⟩
  · have hkk : k ≠ k' := fun hc => hot (hc ▸ hk)
    rw [h]
    refine ⟨?_, ?_, ?_⟩
    · rw [JSMap.get_set_ne _ _ _ _ hkk]; exact h2
    · intro e he hek
      rcases JSMap.mem_set he with he | he
      · rw [he]; exact ⟨fun hc => hnu hc, fun hc => hnv hc⟩
      · exact h5 e he hek
    · intro e he hek
      rcases JSMap.mem_set he with he | he
      · rw [he]
        constructor
        · intro hc; simp at hc; exact hnu hc.symm
        · intro hc; simp at hc; exact hnv hc.symm
      · exact h6 e he hek
  · have hkk : k ≠ k' := fun hc => hot (hc ▸ hk)
    have hgsafe : cu ∉ g.classes ∧ cv ∉ g.classes := by
      constructor
      · intro hc
        rcases hg cu hc with h' | h' | h'
        · exact hnu h'.symm
        · rcases ho : JSMap.get? st.styleMap k' with _ | val
          · rw [ho] at h'; simp at h'; exact hcu h'
          · rw [ho] at h'
            simp at h'
            exact (h5 (k', val) (JSMap.get_mem ho) (fun hc' => hkk hc'.symm)).1
              h'.symm
        · rcases ho : JSMap.get? st.styleGroups k' with _ | grp
          · rw [ho] at h'; simp at h'
          · rw [ho] at h'
            simp at h'
            exact (h6 (k', grp) (JSMap.get_mem ho) (fun hc' => hkk hc'.symm)).1 h'
      · intro hc
        rcases hg cv hc with h' | h' | h'
        · exact hnv h'.symm
        · rcases ho : JSMap.get? st.styleMap k' with _ | val
          · rw [ho] at h'; simp at h'; exact hcv h'
          · rw [ho] at h'
            simp at h'
            exact (h5 (k', val) (JSMap.get_mem ho) (fun hc' => hkk hc'.symm)).2
              h'.symm
        · rcases ho : JSMap.get? st.styleGroups k' with _ | grp
          · rw [ho] at h'; simp at h'
          · rw [ho] at h'
            simp at h'
            exact (h6 (k', grp) (JSMap.get_mem ho) (fun hc' => hkk hc'.symm)).2 h'
    rcases h with h | h
    · rw [h]; exact ⟨h2, h5, h6⟩
    · rw [h]
      refine ⟨?_, h5, ?_⟩
      · rw [JSMap.get_set_ne _ _ _ _ hkk]; exact h2
      · intro e he hek
        rcases JSMap.mem_set he with he | he
        · rw [he]; exact hgsafe
        · exact h6 e he hek

theorem cssStep_u_P1 {k cu cv : String} {u : Node} {st : CSSState}
    (hcu0 : cu ≠ "") (hucv : cu ≠ cv)
    (hnu : CSSTransformer.getClassName u true = cu)
    (helig : (decide (u.data.type = "TEXT")
        || u.data.absoluteBoundingBox.isSome) = true)
    (hsty : (decide (CSSTransformer.nodeToCSS u cu ≠ "")
        && decide ((jsStrTrim (CSSTransformer.nodeToCSS u cu)).length
            > cu.length + 5)) = true)
    (hku : CSSTransformer.getStyleKey u = some k)
    (hp : PairP0 k cu cv st) :
    PairP1 k cu cv (CSSTransformer.nodeToCSS u cu)
      (CSSTransformer.cssNodeStep u st) := by
  obtain ⟨h1, h2, h3, h4, h5, h6⟩ := hp
  have hpc : st.processedClasses.contains cu = false := by simp; exact h3
  have hb1 : (decide (cu ≠ "") && !st.processedClasses.contains cu) = true := by
    rw [hpc]
    simp [hcu0]
  have heq : CSSTransformer.cssNodeStep u st
      = { st with
          processedClasses := st.processedClasses ++ [cu],
          styleMap := JSMap.set st.styleMap k cu,
          styleGroups := JSMap.set st.styleGroups k
            ⟨[cu], CSSTransformer.nodeToCSS u cu⟩ } := by
    simp only [CSSTransformer.cssNodeStep, hnu, hku, hb1, helig, hsty, if_true,
      h1, Bool.false_eq_true, if_false]
  rw [heq]
  refine ⟨?_, ?_, ?_, ?_, ?_⟩
  · exact JSMap.get_set_self _ _ _
  · exact JSMap.get_set_self _ _ _
  · intro hc
    rcases List.mem_append.mp hc with h | h
    · exact h4 h
    · simp at h
      exact hucv h.symm
  · intro e he hek
    rcases JSMap.mem_set he with he | he
    · rw [he] at hek; exact absurd rfl hek
    · exact h5 e he
  · intro e he hek
    rcases JSMap.mem_set he with he | he
    · rw [he] at hek; exact absurd rfl hek
    · exact h6 e he

theorem cssStep_v_P2 {k cu cv su : String} {v : Node} {st : CSSState}
    (hcv0 : cv ≠ "") (hucv : cu ≠ cv)
    (hnv : CSSTransformer.getClassName v true = cv)
    (helig : (decide (v.data.type = "TEXT")
        || v.data.absoluteBoundingBox.isSome) = true)
    (hsty : (decide (CSSTransformer.nodeToCSS v cv ≠ "")
        && decide ((jsStrTrim (CSSTransformer.nodeToCSS v cv)).length
            > cv.length + 5)) = true)
    (hkv : CSSTransformer.getStyleKey v = some k)
    (hp : PairP1 k cu cv su st) :
    PairP2 k cu cv su (CSSTransformer.cssNodeStep v st) := by
  obtain ⟨h1, h2, h4, h5, h6⟩ := hp
  have hpc : st.processedClasses.contains cv = false := by simp; exact h4
  have hb1 : (decide (cv ≠ "") && !st.processedClasses.contains cv) = true := by
    rw [hpc]
    simp [hcv0]
  have hkm : JSMap.hasKey st.styleMap k = true := by
    rw [JSMap.hasKey_eq_isSome, h1]; rfl
  have hkg : JSMap.hasKey st.styleGroups k = true := by
    rw [JSMap.hasKey_eq_isSome, h2]; rfl
  have hcontains : ([cu].contains cv) = false := by
    simp
    exact fun hc => hucv hc.symm
  have heq : CSSTransformer.cssNodeStep v st
      = { st with
          processedClasses := st.processedClasses ++ [cv],
          styleGroups := JSMap.set st.styleGroups k ⟨[cu] ++ [cv], su⟩ } := by
    simp only [CSSTransformer.cssNodeStep, hnv, hkv, hb1, helig, hsty, if_true,
      hkm, hkg, h2, Bool.not_true, Bool.false_eq_true, if_false,
      Option.getD_some, hcontains]
    simp
  rw [heq]
  refine ⟨?_, h5, ?_⟩
  · rw [JSMap.get_set_self]
    rfl
  · intro e he hek
    rcases JSMap.mem_set he with he | he
    · rw [he] at hek; exact absurd rfl hek
    · exact h6 e he hek

theorem cssFold_other_P0 {k cu cv : String} (hcu : cu ≠ "") (hcv : cv ≠ "") :
    ∀ (l : List Node),
    (∀ n ∈ l, CSSTransformer.getStyleKey n ≠ some k
      ∧ CSSTransformer.getClassName n true ≠ cu
      ∧ CSSTransformer.getClassName n true ≠ cv) →
    ∀ (st : CSSState), PairP0 k cu cv st →
      PairP0 k cu cv (l.foldl (fun s m => CSSTransformer.cssNodeStep m s) st) := by
  intro l
  induction l with
  | nil => intro _ st hp; exact hp
  | cons n rest ih =>
    intro hl st hp
    simp only [List.foldl_cons]
    obtain ⟨h1, h2, h3⟩ := hl n (List.mem_cons_self n rest)
    exact ih (fun x hx => hl x (List.mem_cons_of_mem n hx)) _
      (cssStep_other_P0 hcu hcv h1 h2 h3 hp)

theorem cssFold_other_P1 {k cu cv su : String} (hcu : cu ≠ "") (hcv : cv ≠ "") :
    ∀ (l : List Node),
    (∀ n ∈ l, CSSTransformer.getStyleKey n ≠ some k
      ∧ CSSTransformer.getClassName n true ≠ cu
      ∧ CSSTransformer.getClassName n true ≠ cv) →
    ∀ (st : CSSState), PairP1 k cu cv su st →
      PairP1 k cu cv su (l.foldl (fun s m => CSSTransformer.cssNodeStep m s) st) := by
  intro l
  induction l with
  | nil => intro _ st hp; exact hp
  | cons n rest ih =>
    intro hl st hp
    simp only [List.foldl_cons]
    obtain ⟨h1, h2, h3⟩ := hl n (List.mem_cons_self n rest)
    exact ih (fun x hx => hl x (List.mem_cons_of_mem n hx)) _
      (cssStep_other_P1 hcu hcv h1 h2 h3 hp)

theorem cssFold_other_P2 {k cu cv su : String} (hcu : cu ≠ "") (hcv : cv ≠ "") :
    ∀ (l : List Node),
    (∀ n ∈ l, CSSTransformer.getStyleKey n ≠ some k
      ∧ CSSTransformer.getClassName n true ≠ cu
      ∧ CSSTransformer.getClassName n true ≠ cv) →
    ∀ (st : CSSState), PairP2 k cu cv su st →
      PairP2 k cu cv su (l.foldl (fun s m => CSSTransformer.cssNodeStep m s) st) := by
  intro l
  induction l with
  | nil => intro _ st hp; exact hp
  | cons n rest ih =>
    intro hl st hp
    simp only [List.foldl_cons]
    obtain ⟨h1, h2, h3⟩ := hl n (List.mem_cons_self n rest)
    exact ih (fun x hx => hl x (List.mem_cons_of_mem n hx)) _
      (cssStep_other_P2 hcu hcv h1 h2 h3 hp)

theorem extractStyles_pair (pfx : String) {t : Node} {k cu cv : String}
    {u v : Node} {L1 L2 L3 : List Node}
    (hsplit : cssPreorder t = L1 ++ u :: (L2 ++ v :: L3))
    (hothers : ∀ n ∈ L1 ++ (L2 ++ L3),
      CSSTransformer.getStyleKey n ≠ some k
      ∧ CSSTransformer.getClassName n true ≠ cu
      ∧ CSSTransformer.getClassName n true ≠ cv)
    (hcu0 : cu ≠ "") (hcv0 : cv ≠ "") (hucv : cu ≠ cv)
    (hnu : CSSTransformer.getClassName u true = cu)
    (heligu : (decide (u.data.type = "TEXT")
        || u.data.absoluteBoundingBox.isSome) = true)
    (hstyu : (decide (CSSTransformer.nodeToCSS u cu ≠ "")
        && decide ((jsStrTrim (CSSTransformer.nodeToCSS u cu)).length
            > cu.length + 5)) = true)
    (hku : CSSTransformer.getStyleKey u = some k)
    (hnv : CSSTransformer.getClassName v true = cv)
    (heligv : (decide (v.data.type = "TEXT")
        || v.data.absoluteBoundingBox.isSome) = true)
    (hstyv : (decide (CSSTransformer.nodeToCSS v cv ≠ "")
        && decide ((jsStrTrim (CSSTransformer.nodeToCSS v cv)).length
            > cv.length + 5)) = true)
    (hkv : CSSTransformer.getStyleKey v = some k) :
    PairP2 k cu cv (CSSTransformer.nodeToCSS u cu)
      (CSSTransformer.extractStyles t pfx {}) := by
  rw [extractStyles_eq_fold (sizeOf t) t le_rfl pfx, hsplit]
  rw [List.foldl_append, List.foldl_cons, List.foldl_append, List.foldl_cons]
  have hoth1 : ∀ n ∈ L1, CSSTransformer.getStyleKey n ≠ some k
      ∧ CSSTransformer.getClassName n true ≠ cu
      ∧ CSSTransformer.getClassName n true ≠ cv :=
    fun n hn => hothers n (List.mem_append.mpr (Or.inl hn))
  have hoth2 : ∀ n ∈ L2, CSSTransformer.getStyleKey n ≠ some k
      ∧ CSSTransformer.getClassName n true ≠ cu
      ∧ CSSTransformer.getClassName n true ≠ cv :=
    fun n hn => hothers n (List.mem_append.mpr (Or.inr
      (List.mem_append.mpr (Or.inl hn))))
  have hoth3 : ∀ n ∈ L3, CSSTransformer.getStyleKey n ≠ some k
      ∧ CSSTransformer.getClassName n true ≠ cu
      ∧ CSSTransformer.getClassName n true ≠ cv :=
    fun n hn => hothers n (List.mem_append.mpr (Or.inr
      (List.mem_append.mpr (Or.inr hn))))
  have hP0e : PairP0 k cu cv ({} : CSSState) := by
    refine ⟨rfl, rfl, ?_, ?_, ?_, ?_⟩ <;> simp
  have hP0 := cssFold_other_P0 hcu0 hcv0 L1 hoth1 _ hP0e
  have hP1 := cssStep_u_P1 hcu0 hucv hnu heligu hstyu hku hP0
  have hP1' := cssFold_other_P1 hcu0 hcv0 L2 hoth2 _ hP1
  have hP2 := cssStep_v_P2 hcv0 hucv hnv heligv hstyv hkv hP1'
  exact cssFold_other_P2 hcu0 hcv0 L3 hoth3 _ hP2

theorem groupBlock_mem (gs : JSMap StyleGroup) (k cu cv su : String)
    (hmem : (k, (⟨[cu, cv], su⟩ : StyleGroup)) ∈ gs)
    (hlen : (CSSTransformer.extractCSSRulesFromStyle su).length > 0) :
    (cu ++ ", " ++ cv ++ " \x7b\n"
      ++ String.intercalate "\n" (CSSTransformer.extractCSSRulesFromStyle su)
      ++ "\n\x7d")
    ∈ gs.flatMap (fun e =>
        let group := e.2
        if group.classes.length > 1 then
          let selector := String.intercalate ", " group.classes
          let cssRules := CSSTransformer.extractCSSRulesFromStyle group.style
          if cssRules.length > 0 then
            [selector ++ " \x7b\n" ++ String.intercalate "\n" cssRules
              ++ "\n\x7d"]
          else []
        else if group.classes.length == 1 then [group.style]
        else []) := by
  apply List.mem_flatMap.mpr
  refine ⟨(k, ⟨[cu, cv], su⟩), hmem, ?_⟩
  show _ ∈ (if ([cu, cv] : List String).length > 1 then
      if (CSSTransformer.extractCSSRulesFromStyle su).length > 0 then
        [String.intercalate ", " [cu, cv] ++ " \x7b\n"
          ++ String.intercalate "\n" (CSSTransformer.extractCSSRulesFromStyle su)
          ++ "\n\x7d"]
      else []
    else if ([cu, cv] : List String).length == 1 then [su] else [])
  rw [if_pos (by simp)]
  rw [if_pos hlen]
  rw [intercalate_cons2, intercalate_one]
  simp

/-- C3 (amended): the one-combined-rule guarantee holds exactly for nodes
with a NON-NULL style key.  If the walk order of the tree contains two
eligible nodes u and v with the same key k, distinct non-empty class
names, and no other node carrying that key or either class, then the final
style groups map binds k to exactly the pair of classes with the first
node's rule text, no other group mentions either class, and the emitted
block list contains the single comma-joined selector block for the pair.
(Nodes whose style key is null bypass the grouping entirely — see the
counterexample, where two identical keyless rule bodies are emitted as two
separate blocks.) -/
theorem C3_amended_theorem {t : Node} {k cu cv : String}
    {u v : Node} {L1 L2 L3 : List Node} (cname : String)
    (hsplit : cssPreorder t = L1 ++ u :: (L2 ++ v :: L3))
    (hothers : ∀ n ∈ L1 ++ (L2 ++ L3),
      CSSTransformer.getStyleKey n ≠ some k
      ∧ CSSTransformer.getClassName n true ≠ cu
      ∧ CSSTransformer.getClassName n true ≠ cv)
    (hcu0 : cu ≠ "") (hcv0 : cv ≠ "") (hucv : cu ≠ cv)
    (hnu : CSSTransformer.getClassName u true = cu)
    (heligu : (decide (u.data.type = "TEXT")
        || u.data.absoluteBoundingBox.isSome) = true)
    (hstyu : (decide (CSSTransformer.nodeToCSS u cu ≠ "")
        && decide ((jsStrTrim (CSSTransformer.nodeToCSS u cu)).length
            > cu.length + 5)) = true)
    (hku : CSSTransformer.getStyleKey u = some k)
    (hnv : CSSTransformer.getClassName v true = cv)
    (heligv : (decide (v.data.type = "TEXT")
        || v.data.absoluteBoundingBox.isSome) = true)
    (hstyv : (decide (CSSTransformer.nodeToCSS v cv ≠ "")
        && decide ((jsStrTrim (CSSTransformer.nodeToCSS v cv)).length
            > cv.length + 5)) = true)
    (hkv : CSSTransformer.getStyleKey v = some k)
    (hrules : CSSTransformer.extractCSSRulesFromStyle
        (CSSTransformer.nodeToCSS u cu) ≠ []) :
    JSMap.get? (CSSTransformer.extractStyles t cname {}).styleGroups k
      = some ⟨[cu, cv], CSSTransformer.nodeToCSS u cu⟩
    ∧ (∀ e ∈ (CSSTransformer.extractStyles t cname {}).styleGroups,
        e.1 ≠ k → cu ∉ e.2.classes ∧ cv ∉ e.2.classes)
    ∧ (cu ++ ", " ++ cv ++ " \x7b\n"
        ++ String.intercalate "\n"
          (CSSTransformer.extractCSSRulesFromStyle
            (CSSTransformer.nodeToCSS u cu))
        ++ "\n\x7d") ∈ CSSTransformer.generateStyleList t cname := by
  obtain ⟨hget, hmapinv, hginv⟩ := extractStyles_pair cname hsplit hothers hcu0
    hcv0 hucv hnu heligu hstyu hku hnv heligv hstyv hkv
  refine ⟨hget, hginv, ?_⟩
  have hlen : (CSSTransformer.extractCSSRulesFromStyle
      (CSSTransformer.nodeToCSS u cu)).length > 0 :=
    List.length_pos.mpr hrules
  have hblock := groupBlock_mem
    (CSSTransformer.extractStyles t cname {}).styleGroups k cu cv
    (CSSTransformer.nodeToCSS u cu) (JSMap.get_mem hget) hlen
  unfold CSSTransformer.generateStyleList
  apply List.mem_append.mpr
  apply Or.inl
  apply List.mem_append.mpr
  exact Or.inr hblock

def c3A : Node := .mk
  { id := "3:1", name := "alpha", type := "FRAME",
    absoluteBoundingBox := some ⟨0, 0, 0, 0⟩,
    constraints := some ⟨"MIN", "MIN"⟩ } []

def c3B : Node := .mk
  { id := "3:2", name := "beta", type := "FRAME",
    absoluteBoundingBox := some ⟨0, 0, 0, 0⟩,
    constraints := some ⟨"MIN", "MIN"⟩ } []

def c3T : Node := .mk { id := "3:0", name := "root" } [c3A, c3B]

theorem c3T_preorder : cssPreorder c3T = [c3T, c3A, c3B] := by
  simp only [c3T, c3A, c3B, cssPreorder_mk, List.map_cons, List.map_nil,
    List.flatten_cons, List.flatten_nil, List.append_nil, List.nil_append,
    List.cons_append]

theorem c3A_class : CSSTransformer.getClassName c3A true = ".alpha" := by
  simp +decide [c3A, CSSTransformer.getClassName, JSXTransformer.getClassName,
    JSXTransformer.inferSemanticName, JSXTransformer.isFrameNumName,
    toKebabCase, insertHyphenLowerUpper, nonAlnumHyphenRunsToHyphen,
    wsUnderscoreRunsToHyphen, stripEdgeHyphens, collapseHyphenRuns, isJsWs]

theorem c3B_class : CSSTransformer.getClassName c3B true = ".beta" := by
  simp +decide [c3B, CSSTransformer.getClassName, JSXTransformer.getClassName,
    JSXTransformer.inferSemanticName, JSXTransformer.isFrameNumName,
    toKebabCase, insertHyphenLowerUpper, nonAlnumHyphenRunsToHyphen,
    wsUnderscoreRunsToHyphen, stripEdgeHyphens, collapseHyphenRuns, isJsWs]

theorem c3T_class : CSSTransformer.getClassName c3T true = ".root" := by
  simp +decide [c3T, c3A, c3B, CSSTransformer.getClassName,
    JSXTransformer.getClassName, JSXTransformer.inferSemanticName,
    JSXTransformer.isFrameNumName, toKebabCase, insertHyphenLowerUpper,
    nonAlnumHyphenRunsToHyphen, wsUnderscoreRunsToHyphen, stripEdgeHyphens,
    collapseHyphenRuns, isJsWs, strLower, jsIncludes]

set_option maxRecDepth 8000 in
theorem c3T_styleList : CSSTransformer.generateStyleList c3T "Root"
    = [getBaseResetStyles,
       CSSTransformer.nodeToCSS c3A ".alpha",
       CSSTransformer.nodeToCSS c3B ".beta"] := by
  unfold CSSTransformer.generateStyleList
  rw [extractStyles_eq_fold (sizeOf c3T) c3T le_rfl, c3T_preorder]
  simp only [List.foldl_cons, List.foldl_nil, CSSTransformer.cssNodeStep,
    c3T_class, c3A_class, c3B_class]
  decide

set_option maxRecDepth 8000 in
/-- C3 counterexample: two FRAME nodes with identical (empty) StyleKey
attribute sets — the key is null for both — and distinct classes .alpha
and .beta produce two separate rule blocks with the SAME body, and no
comma-joined selector, because null keys skip the styleMap/styleGroups
machinery and push straight into the styles array. -/
theorem C3_counterexample :
    CSSTransformer.getStyleKey c3A = CSSTransformer.getStyleKey c3B
    ∧ CSSTransformer.getClassName c3A true = ".alpha"
    ∧ CSSTransformer.getClassName c3B true = ".beta"
    ∧ CSSTransformer.nodeToCSS c3A ".alpha" ≠ ""
    ∧ CSSTransformer.extractCSSRulesFromStyle
        (CSSTransformer.nodeToCSS c3A ".alpha")
      = CSSTransformer.extractCSSRulesFromStyle
        (CSSTransformer.nodeToCSS c3B ".beta")
    ∧ CSSTransformer.generateStyleList c3T "Root"
        = [getBaseResetStyles,
           CSSTransformer.nodeToCSS c3A ".alpha",
           CSSTransformer.nodeToCSS c3B ".beta"]
    ∧ jsIncludes (CSSTransformer.generate c3T "Root") ".alpha, .beta" = false := by
  refine ⟨by decide, c3A_class, c3B_class, by decide, by decide, c3T_styleList,
    ?_⟩
  unfold CSSTransformer.generate
  rw [c3T_styleList]
  decide

def c3WA : Node := .mk
  { id := "2:1", name := "alpha", type := "FRAME",
    absoluteBoundingBox := some ⟨0, 0, 100, 50⟩,
    layoutMode := "HORIZONTAL" } []

def c3WB : Node := .mk
  { id := "2:2", name := "beta", type := "FRAME",
    absoluteBoundingBox := some ⟨0, 0, 100, 50⟩,
    layoutMode := "HORIZONTAL" } []

def c3W : Node := .mk { id := "2:0", name := "root" } [c3WA, c3WB]

theorem c3WA_class : CSSTransformer.getClassName c3WA true = ".alpha" := by
  simp +decide [c3WA, CSSTransformer.getClassName, JSXTransformer.getClassName,
    JSXTransformer.inferSemanticName, JSXTransformer.isFrameNumName,
    toKebabCase, insertHyphenLowerUpper, nonAlnumHyphenRunsToHyphen,
    wsUnderscoreRunsToHyphen, stripEdgeHyphens, collapseHyphenRuns, isJsWs]

theorem c3WB_class : CSSTransformer.getClassName c3WB true = ".beta" := by
  simp +decide [c3WB, CSSTransformer.getClassName, JSXTransformer.getClassName,
    JSXTransformer.inferSemanticName, JSXTransformer.isFrameNumName,
    toKebabCase, insertHyphenLowerUpper, nonAlnumHyphenRunsToHyphen,
    wsUnderscoreRunsToHyphen, stripEdgeHyphens, collapseHyphenRuns, isJsWs]

theorem c3W_class : CSSTransformer.getClassName c3W true = ".root" := by
  simp +decide [c3W, c3WA, c3WB, CSSTransformer.getClassName,
    JSXTransformer.getClassName, JSXTransformer.inferSemanticName,
    JSXTransformer.isFrameNumName, toKebabCase, insertHyphenLowerUpper,
    nonAlnumHyphenRunsToHyphen, wsUnderscoreRunsToHyphen, stripEdgeHyphens,
    collapseHyphenRuns, isJsWs, strLower, jsIncludes]

theorem c3W_split : cssPreorder c3W = [c3W] ++ c3WA :: ([] ++ c3WB :: []) := by
  simp only [c3W, c3WA, c3WB, cssPreorder_mk, List.map_cons, List.map_nil,
    List.flatten_cons, List.flatten_nil, List.append_nil, List.nil_append,
    List.cons_append, List.singleton_append]

theorem c3W_others : ∀ n ∈ [c3W] ++ ([] ++ ([] : List Node)),
    CSSTransformer.getStyleKey n ≠ some "w:100|h:50|layout:HORIZONTAL"
    ∧ CSSTransformer.getClassName n true ≠ ".alpha"
    ∧ CSSTransformer.getClassName n true ≠ ".beta" := by
  intro n hn
  simp at hn
  subst hn
  refine ⟨by decide, ?_, ?_⟩ <;> rw [c3W_class] <;> decide

set_option maxRecDepth 8000 in
/-- Witness for C3 (amended) at a concrete three-node tree whose two
children share the key "w:100|h:50|layout:HORIZONTAL". -/
theorem C3_witness :
    JSMap.get? (CSSTransformer.extractStyles c3W "Root" {}).styleGroups
        "w:100|h:50|layout:HORIZONTAL"
      = some ⟨[".alpha", ".beta"], CSSTransformer.nodeToCSS c3WA ".alpha"⟩
    ∧ (∀ e ∈ (CSSTransformer.extractStyles c3W "Root" {}).styleGroups,
        e.1 ≠ "w:100|h:50|layout:HORIZONTAL" →
          ".alpha" ∉ e.2.classes ∧ ".beta" ∉ e.2.classes)
    ∧ (".alpha" ++ ", " ++ ".beta" ++ " \x7b\n"
        ++ String.intercalate "\n"
          (CSSTransformer.extractCSSRulesFromStyle
            (CSSTransformer.nodeToCSS c3WA ".alpha"))
        ++ "\n\x7d") ∈ CSSTransformer.generateStyleList c3W "Root" :=
  C3_amended_theorem "Root" c3W_split c3W_others (by decide) (by decide)
    (by decide) c3WA_class (by decide) (by decide) (by decide)
    c3WB_class (by decide) (by decide) (by decide) (by decide)
